import Mathlib

/-!
Position-Based Fluids: the `Fluid` step solver.

A shallow embedding of `src/src/Fluid.cpp` (constructor, `init_state`, `step`), in two
arithmetics.

Conventions of the embedding.

* In the first embedding (`Fluid`, `Vec3`, `Env`) `double` values are exact rationals (`ℚ`);
  `pow(x, n)` with an `int` exponent is `x ^ n` with `n : ℤ`.  Division by zero is therefore
  `0` there, where the machine would produce an infinity or a NaN, and no rounding takes
  place.  It carries the statements that are the expressions the code computes and the
  statements about indices, sizes and control flow.
* In the second embedding (`MFluid`, `MVec3`, `MEnv`) the same lines are translated over an
  arbitrary type of numbers with the operations of `double` (`Machine`), of which nothing is
  assumed except that no number is below itself.  IEEE 754 binary64 (`Dbl`: rounding to
  nearest, infinities, signed zeros, NaN; every operation rounded on its own) is an instance,
  and so are the exact rationals.  It carries the statements whose truth depends on rounding
  or on NaN: the boundary clamp, the clock and free fall.
* An `Eigen` matrix with three columns is a list of rows (`Vec3`); an `Eigen` vector is a
  list of scalars; `std::vector<std::vector<int>>` is `List (List Int)`.
* Every indexed access is checked: an index outside the container, or an element-wise
  operation on containers of different sizes, makes the operation return `none`.
* The kernel routines (`kernel.h`), the norm of `Eigen` and the spatial hash grid are not
  part of the translated sources; they are parameters, collected in `Env` and `MEnv`.
-/

namespace PBF

/-! ## Rows of an `N × 3` matrix -/

/-- One row of an `N × 3` matrix of doubles (also an `Eigen::Vector3d`). -/
structure Vec3 where
  x : ℚ
  y : ℚ
  z : ℚ
deriving DecidableEq

namespace Vec3

/-- The zero vector (`setZero`). -/
def zero : Vec3 := ⟨0, 0, 0⟩

/-- Component-wise sum. -/
def add (a b : Vec3) : Vec3 := ⟨a.x + b.x, a.y + b.y, a.z + b.z⟩

/-- Component-wise difference. -/
def sub (a b : Vec3) : Vec3 := ⟨a.x - b.x, a.y - b.y, a.z - b.z⟩

/-- Scalar times vector. -/
def smul (k : ℚ) (a : Vec3) : Vec3 := ⟨k * a.x, k * a.y, k * a.z⟩

/-- Vector divided by a scalar. -/
def sdiv (a : Vec3) (k : ℚ) : Vec3 := ⟨a.x / k, a.y / k, a.z / k⟩

/-- Coefficient access `row[axis]` for `axis` in `0, 1, 2`. -/
def get (a : Vec3) (axis : Nat) : ℚ :=
  match axis with
  | 0 => a.x
  | 1 => a.y
  | _ => a.z

/-- Coefficient update `row[axis] = val` for `axis` in `0, 1, 2`. -/
def set (a : Vec3) (axis : Nat) (val : ℚ) : Vec3 :=
  match axis with
  | 0 => { a with x := val }
  | 1 => { a with y := val }
  | _ => { a with z := val }

end Vec3

/-- An `Eigen::MatrixXd` with three columns, as the list of its rows. -/
abbrev Mat := List Vec3

/-- Checked access with an `int` index: `none` when the index is negative or past the end. -/
def row? {α : Type} (m : List α) (i : Int) : Option α :=
  if 0 ≤ i then m[i.toNat]? else none

/-- Element-wise combination of two containers; `none` when the sizes differ. -/
def zipSame {α β γ : Type} (f : α → β → γ) (a : List α) (b : List β) : Option (List γ) :=
  if a.length = b.length then some (List.zipWith f a b) else none

/-! ## External collaborators -/

/-- The routines `Fluid.cpp` calls but does not define, for a grid state of type `G`. -/
structure Env (G : Type) where
  /-- The overload `kernel_poly6(x_i, x_j, h)` on two matrix rows. -/
  kernel_poly6 : Vec3 → Vec3 → ℚ → ℚ
  /-- The overload `kernel_poly6(r, h)` on a scalar distance. -/
  kernel_poly6_r : ℚ → ℚ → ℚ
  /-- The routine `kernel_spiky(result, x_i, x_j, h)`; the value written to `result`. -/
  kernel_spiky : Vec3 → Vec3 → ℚ → Vec3
  /-- The 2-norm `.norm()` of a three-vector. -/
  norm : Vec3 → ℚ
  /-- The call `SpatialHashGrid(lower_bound, upper_bound, kernel_h)`. -/
  grid_new : ℚ → ℚ → ℚ → G
  /-- The call `grid.update(positions)`. -/
  grid_update : G → Mat → G
  /-- The call `grid.findNeighbours(positions, neighbours)`: the grid and the lists after it. -/
  grid_findNeighbours : G → Mat → List (List Int) → G × List (List Int)

/-! ## Simulation state -/

/-- The members of class `Fluid` that `Fluid.cpp` reads or writes. -/
structure Fluid (G : Type) where
  num_particles : Int
  particle_mass : ℚ
  rho : ℚ
  user_f : ℚ
  jacobi_iterations : Int
  cfm_epsilon : ℚ
  kernel_h : ℚ
  tensile_k : ℚ
  tensile_delta_q : ℚ
  tensile_n : Int
  viscocity_c : ℚ
  vorticity_epsilon : ℚ
  t : ℚ
  dt : ℚ
  lower_bound : ℚ
  upper_bound : ℚ
  grid : G
  x_new : Mat
  v : Mat
  dP : Mat
  omega : Mat
  eta : Mat
  N : Mat
  vorticity_f : Mat
  cell_coord : Mat
  density : List ℚ
  c : List ℚ
  lambda : List ℚ
  c_grad_norm : List ℚ
  gravity_f : List ℚ
  neighbours : List (List Int)
  tensile_stability_denom : ℚ

/-- The constructor `Fluid::Fluid`.  A container cannot be given a negative size, so the
constructor does not return for `num_particles < 0`.  `resize` leaves the coefficients unspecified: they are
filled with the parameter `junk`. -/
def Fluid.construct {G : Type} (E : Env G) (junk : ℚ)
    (num_particles : Int) (particle_mass rho gravity_f user_f : ℚ) (jacobi_iterations : Int)
    (cfm_epsilon kernel_h tensile_k tensile_delta_q : ℚ) (tensile_n : Int)
    (viscocity_c vorticity_epsilon lower_bound upper_bound dt : ℚ) : Option (Fluid G) :=
  if num_particles < 0 then none
  else
    let n := num_particles.toNat
    let m : Mat := List.replicate n ⟨junk, junk, junk⟩
    let w : List ℚ := List.replicate n junk
    some
      { num_particles := num_particles
        particle_mass := particle_mass
        rho := rho
        user_f := user_f
        jacobi_iterations := jacobi_iterations
        cfm_epsilon := cfm_epsilon
        kernel_h := kernel_h
        tensile_k := tensile_k
        tensile_delta_q := tensile_delta_q
        tensile_n := tensile_n
        viscocity_c := viscocity_c
        vorticity_epsilon := vorticity_epsilon
        t := 0
        dt := dt
        lower_bound := lower_bound
        upper_bound := upper_bound
        grid := E.grid_new lower_bound upper_bound kernel_h
        x_new := m
        v := m
        dP := m
        omega := m
        eta := m
        N := m
        vorticity_f := m
        cell_coord := m
        density := w
        c := w
        lambda := w
        c_grad_norm := w
        gravity_f := List.replicate n gravity_f
        neighbours := List.replicate n []
        tensile_stability_denom := (E.kernel_poly6_r tensile_delta_q kernel_h) ^ tensile_n }

/-- `Fluid::init_state`: the state after the call, paired with the caller's position
buffer after the call. -/
def Fluid.init_state {G : Type} (E : Env G) (s : Fluid G) (fluid_state : Mat) : Fluid G × Mat :=
  ({ s with v := s.v.map (fun _ => Vec3.zero), grid := E.grid_update s.grid fluid_state },
    fluid_state)

/-! ## One simulation step -/

/-- Checked write `m[i] = a` with a non-negative index. -/
def setRow {α : Type} (m : List α) (i : Nat) (a : α) : Option (List α) :=
  if i < m.length then some (m.set i a) else none

/-- Checked write `m[i] = a` with an `int` index. -/
def setRowI {α : Type} (m : List α) (i : Int) (a : α) : Option (List α) :=
  if 0 ≤ i then setRow m i.toNat a else none

/-- Lines 102-105: the loop over `p_k` summing `kernel_spiky(x_new[p_i], x_new[p_k])`
into `c_grad_temp`, which was set to zero just before. -/
def Fluid.c_grad_self {G : Type} (E : Env G) (s : Fluid G) (x_i : Vec3) (nb : List Int) :
    Option Vec3 :=
  nb.foldlM
    (fun acc p_k => (row? s.x_new p_k).map (fun x_k => acc.add (E.kernel_spiky x_i x_k s.kernel_h)))
    Vec3.zero

/-- Lines 100-110: the value of `c_grad_temp` for the pair `p_i`, `p_j`. -/
def Fluid.c_grad_temp {G : Type} (E : Env G) (s : Fluid G) (p_i : Nat) (p_j : Int) :
    Option Vec3 := do
  let x_i ← s.x_new[p_i]?
  if (p_i : Int) = p_j then
    let nb ← s.neighbours[p_i]?
    Fluid.c_grad_self E s x_i nb
  else
    let x_j ← row? s.x_new p_j
    some (E.kernel_spiky x_i x_j s.kernel_h)

/-- Lines 97-112: the body of the loop over `p_j` in the constraint stage of iteration `i`. -/
def Fluid.density_body {G : Type} (E : Env G) (i p_i : Nat) (s : Fluid G) (p_j : Int) :
    Option (Fluid G) := do
  let x_i ← s.x_new[p_i]?
  let x_j ← row? s.x_new p_j
  let d ← s.density[p_i]?
  let g_temp ← Fluid.c_grad_temp E s p_i p_j
  let g ← s.c_grad_norm[i]?
  some { s with
    density := s.density.set p_i (d + s.particle_mass * E.kernel_poly6 x_i x_j s.kernel_h)
    c_grad_norm := s.c_grad_norm.set i (g + E.norm (g_temp.sdiv s.rho)) }

/-- Lines 93-118: the body of the loop over `p_i` in the constraint stage of iteration `i`. -/
def Fluid.constraint_body {G : Type} (E : Env G) (i : Nat) (s : Fluid G) (p_i : Nat) :
    Option (Fluid G) := do
  let nb ← s.neighbours[i]?
  let s1 ← nb.foldlM (Fluid.density_body E i p_i) s
  let d ← s1.density[p_i]?
  let c_val := d / s1.rho - 1
  let c1 ← setRow s1.c p_i c_val
  let g ← s1.c_grad_norm[p_i]?
  let lambda1 ← setRow s1.lambda p_i (-c_val / (g + s1.cfm_epsilon))
  some { s1 with c := c1, lambda := lambda1 }

/-- Line 128: the tensile correction `s_corr` for two rows of `x_new`. -/
def Fluid.s_corr {G : Type} (E : Env G) (s : Fluid G) (x_i x_j : Vec3) : ℚ :=
  -s.tensile_k * (E.kernel_poly6 x_i x_j s.kernel_h) ^ s.tensile_n / s.tensile_stability_denom

/-- Lines 127-129: the body of the loop over `p_j` in the position-correction stage. -/
def Fluid.dP_term {G : Type} (E : Env G) (p_i : Nat) (s : Fluid G) (p_j : Int) :
    Option (Fluid G) := do
  let x_i ← s.x_new[p_i]?
  let x_j ← row? s.x_new p_j
  let ker_res := E.kernel_spiky x_i x_j s.kernel_h
  let l_i ← s.lambda[p_i]?
  let l_j ← row? s.lambda p_j
  let d ← s.dP[p_i]?
  some { s with dP := s.dP.set p_i (d.add (Vec3.smul (l_i + l_j + Fluid.s_corr E s x_i x_j) ker_res)) }

/-- Lines 125-132: the body of the loop over `p_i` in the position-correction stage of
iteration `i`. -/
def Fluid.dP_body {G : Type} (E : Env G) (i : Nat) (s : Fluid G) (p_i : Nat) :
    Option (Fluid G) := do
  let nb ← s.neighbours[i]?
  let s1 ← nb.foldlM (Fluid.dP_term E p_i) s
  let d ← s1.dP[p_i]?
  some { s1 with dP := s1.dP.set p_i (d.sdiv s1.rho) }

/-- Lines 143-146: the test against `lower_bound` for one axis of particle `p_i`. -/
def Fluid.clamp_lower {G : Type} (p_i : Nat) (s : Fluid G) (axis : Nat) : Option (Fluid G) := do
  let r ← s.x_new[p_i]?
  if r.get axis < s.lower_bound then
    let s1 := { s with x_new := s.x_new.set p_i (r.set axis s.lower_bound) }
    let w ← s1.v[p_i]?
    if w.get axis < 0 then some { s1 with v := s1.v.set p_i (w.set axis (w.get axis * -1)) }
    else some s1
  else some s

/-- Lines 147-150: the test against `upper_bound` for one axis of particle `p_i`. -/
def Fluid.clamp_upper {G : Type} (p_i : Nat) (s : Fluid G) (axis : Nat) : Option (Fluid G) := do
  let r ← s.x_new[p_i]?
  if r.get axis > s.upper_bound then
    let s1 := { s with x_new := s.x_new.set p_i (r.set axis s.upper_bound) }
    let w ← s1.v[p_i]?
    if w.get axis > 0 then some { s1 with v := s1.v.set p_i (w.set axis (w.get axis * -1)) }
    else some s1
  else some s

/-- Lines 143-150: the body of the loop over `axis`. -/
def Fluid.clamp_axis {G : Type} (p_i : Nat) (s : Fluid G) (axis : Nat) : Option (Fluid G) :=
  (Fluid.clamp_lower p_i s axis).bind (fun s1 => Fluid.clamp_upper p_i s1 axis)

/-- Lines 138-152: the body of the loop over `p_i` in the collision stage. -/
def Fluid.collision_body {G : Type} (s : Fluid G) (p_i : Nat) : Option (Fluid G) := do
  let r ← s.x_new[p_i]?
  let d ← s.dP[p_i]?
  let s1 := { s with x_new := s.x_new.set p_i (r.add (Vec3.smul (5 / 1000) d)) }
  [0, 1, 2].foldlM (Fluid.clamp_axis p_i) s1

/-- Lines 89-118: reset of the Jacobi state and the constraint stage of iteration `i`. -/
def Fluid.constraint_stage {G : Type} (E : Env G) (i : Nat) (s : Fluid G) : Option (Fluid G) :=
  (List.range s.num_particles.toNat).foldlM (Fluid.constraint_body E i)
    { s with
      density := s.density.map (fun _ => 0)
      lambda := s.lambda.map (fun _ => 0)
      c_grad_norm := s.c_grad_norm.map (fun _ => 0) }

/-- Lines 124-132: the position-correction stage of iteration `i`. -/
def Fluid.dP_stage {G : Type} (E : Env G) (i : Nat) (s : Fluid G) : Option (Fluid G) :=
  (List.range s.num_particles.toNat).foldlM (Fluid.dP_body E i)
    { s with dP := s.dP.map (fun _ => Vec3.zero) }

/-- Lines 138-152: the collision stage. -/
def Fluid.collision_stage {G : Type} (s : Fluid G) : Option (Fluid G) :=
  (List.range s.num_particles.toNat).foldlM Fluid.collision_body s

/-- Lines 87-155: the body of the Jacobi loop for the iteration counter `i`. -/
def Fluid.jacobi_iteration {G : Type} (E : Env G) (s : Fluid G) (i : Nat) : Option (Fluid G) :=
  ((Fluid.constraint_stage E i s).bind (Fluid.dP_stage E i)).bind Fluid.collision_stage

/-- Lines 73-81: external forces and the neighbour query. -/
def Fluid.apply_forces {G : Type} (E : Env G) (s : Fluid G) (fluid_state : Mat) :
    Option (Fluid G) := do
  let v1 ← zipSame (fun (r : Vec3) g => { r with y := r.y - s.particle_mass * g }) s.v s.gravity_f
  let x1 ← zipSame (fun a b => Vec3.add a (Vec3.smul s.dt b)) fluid_state v1
  let q := E.grid_findNeighbours s.grid x1 s.neighbours
  some { s with v := v1, x_new := x1, grid := q.1, neighbours := q.2 }

/-- Lines 174-182: the debug colours. -/
def Fluid.debug_colors {G : Type} (s : Fluid G) (colors : Mat) : Option Mat := do
  let c0 ← setRow colors 0 ⟨1, 0, 0⟩
  let c1 ← (List.range' 1 (s.num_particles.toNat - 1)).foldlM (fun cs i => setRow cs i ⟨0, 0, 1⟩) c0
  let nb ← s.neighbours[0]?
  nb.foldlM (fun cs n_idx => if n_idx ≠ 0 then setRowI cs n_idx ⟨0, 1, 0⟩ else some cs) c1

/-- `Fluid::step`: the state, the caller's position buffer and the colour buffer after the
call. -/
def Fluid.step {G : Type} (E : Env G) (s : Fluid G) (fluid_state colors : Mat) :
    Option (Fluid G × Mat × Mat) := do
  let s1 ← Fluid.apply_forces E s fluid_state
  let s2 ← (List.range s1.jacobi_iterations.toNat).foldlM (Fluid.jacobi_iteration E) s1
  let v2 ← zipSame (fun a b => (Vec3.sub a b).sdiv s2.dt) s2.x_new fluid_state
  let colors1 ← Fluid.debug_colors s2 colors
  some ({ s2 with v := v2, grid := E.grid_update s2.grid s2.x_new, t := s2.t + s2.dt },
    s2.x_new, colors1)

/-! ## A concrete instance of the external collaborators

Used to evaluate the embedding on examples.  The kernels have the shape of the standard
SPH kernels without their normalisation constants, which involve `π`. -/

/-- Squared Euclidean length. -/
def Vec3.normSq (a : Vec3) : ℚ := a.x * a.x + a.y * a.y + a.z * a.z

/-- The sum of the absolute values of the components; it equals the 2-norm on every vector
that lies along a coordinate axis. -/
def Vec3.axisNorm (a : Vec3) : ℚ := |a.x| + |a.y| + |a.z|

/-- Modelled from the spec: `kernel_poly6` of `kernel.h` (not among the sources), a
non-negative falloff that is zero from distance `h` on: `(h² - r²)³` for `0 ≤ r ≤ h`. -/
def poly6_shape (r h : ℚ) : ℚ :=
  if 0 ≤ r ∧ r ≤ h then (h * h - r * r) ^ 3 else 0

/-- Modelled from the spec: the row overload of `kernel_poly6`, by the squared distance. -/
def poly6_rows (x_i x_j : Vec3) (h : ℚ) : ℚ :=
  if (Vec3.sub x_i x_j).normSq ≤ h * h then (h * h - (Vec3.sub x_i x_j).normSq) ^ 3 else 0

/-- Modelled from the spec: `kernel_spiky` of `kernel.h` (not among the sources), a vector
along `x_i - x_j` that vanishes at distance `h` and at distance zero: `-(h - r)² (x_i - x_j) / r`
with `r` the `axisNorm` of `x_i - x_j`. -/
def spiky_shape (x_i x_j : Vec3) (h : ℚ) : Vec3 :=
  let d := Vec3.sub x_i x_j
  let r := d.axisNorm
  if 0 < r ∧ r ≤ h then Vec3.smul (-((h - r) * (h - r)) / r) d else Vec3.zero

/-- All particles within distance `h` of row `x_i`, by index, the particle itself included. -/
def neighbours_within (h : ℚ) (m : Mat) (x_i : Vec3) : List Int :=
  ((List.range m.length).filter
    (fun j => decide (((m.getD j Vec3.zero).sub x_i).normSq ≤ h * h))).map Int.ofNat

/-- A neighbour query by exhaustive search with radius `h`. -/
def search_neighbours (h : ℚ) (m : Mat) : List (List Int) :=
  m.map (neighbours_within h m)

/-- The collaborators for examples: the kernel shapes above, `axisNorm` as norm, a grid
without state, and a neighbour query given by the function `find`. -/
def exampleEnv (find : Mat → List (List Int)) : Env Unit where
  kernel_poly6 := poly6_rows
  kernel_poly6_r := poly6_shape
  kernel_spiky := spiky_shape
  norm := Vec3.axisNorm
  grid_new := fun _ _ _ => ()
  grid_update := fun _ _ => ()
  grid_findNeighbours := fun _ m _ => ((), find m)

/-! ## Predicates used in the statements -/

/-- The members that no stage of the Jacobi loop writes. -/
def Fluid.static {G : Type} (s : Fluid G) :=
  (s.num_particles, s.particle_mass, s.rho, s.jacobi_iterations, s.cfm_epsilon, s.kernel_h,
    s.tensile_k, s.tensile_delta_q, s.tensile_n, s.tensile_stability_denom, s.lower_bound,
    s.upper_bound, s.t, s.dt, s.neighbours, s.gravity_f, s.grid)

/-- The sizes of the containers the Jacobi loop works on. -/
def Fluid.shape {G : Type} (s : Fluid G) :=
  (s.x_new.length, s.v.length, s.dP.length, s.density.length, s.c.length, s.lambda.length,
    s.c_grad_norm.length)

/-- State `s2` has the static members and the container sizes of state `s1`. -/
def Fluid.Frame {G : Type} (s1 s2 : Fluid G) : Prop :=
  s2.static = s1.static ∧ s2.shape = s1.shape

/-- Every coordinate of the row lies in the closed interval `[lo, hi]`. -/
def Vec3.Within (lo hi : ℚ) (r : Vec3) : Prop :=
  (lo ≤ r.x ∧ r.x ≤ hi) ∧ (lo ≤ r.y ∧ r.y ≤ hi) ∧ (lo ≤ r.z ∧ r.z ≤ hi)

instance (lo hi : ℚ) (r : Vec3) : Decidable (Vec3.Within lo hi r) := by
  unfold Vec3.Within; infer_instance

/-- Lines 143-150 on one coordinate: the value after the two tests. -/
def clamp_coord (lo hi x : ℚ) : ℚ :=
  let y := if x < lo then lo else x
  if y > hi then hi else y

/-- The containers of the state have `num_particles` entries, as after construction. -/
def Fluid.Sized {G : Type} (s : Fluid G) : Prop :=
  s.v.length = s.num_particles.toNat ∧ s.dP.length = s.num_particles.toNat ∧
  s.density.length = s.num_particles.toNat ∧ s.c.length = s.num_particles.toNat ∧
  s.lambda.length = s.num_particles.toNat ∧ s.c_grad_norm.length = s.num_particles.toNat ∧
  s.gravity_f.length = s.num_particles.toNat

/-- Every list has only indices in `[0, n)`. -/
def IndicesBelow (n : Nat) (nb : List (List Int)) : Prop :=
  ∀ l ∈ nb, ∀ j ∈ l, 0 ≤ j ∧ j < (n : Int)

/-- The conditions under which every access of `step` is inside its container: at least one
particle, containers and buffers with `num_particles` rows, at most `num_particles` Jacobi
iterations, and a neighbour query that returns `num_particles` lists of particle indices. -/
def Fluid.StepInBounds {G : Type} (E : Env G) (s : Fluid G) (fluid_state colors : Mat) : Prop :=
  1 ≤ s.num_particles ∧ s.Sized ∧
  fluid_state.length = s.num_particles.toNat ∧ colors.length = s.num_particles.toNat ∧
  s.jacobi_iterations ≤ s.num_particles ∧
  ∀ s1 ∈ Fluid.apply_forces E s fluid_state,
    s1.neighbours.length = s.num_particles.toNat ∧ IndicesBelow s.num_particles.toNat s1.neighbours

instance (n : Nat) (nb : List (List Int)) : Decidable (IndicesBelow n nb) := by
  unfold IndicesBelow; infer_instance

instance {G : Type} (s : Fluid G) : Decidable s.Sized := by
  unfold Fluid.Sized; infer_instance

instance {G : Type} (E : Env G) (s : Fluid G) (fluid_state colors : Mat) :
    Decidable (Fluid.StepInBounds E s fluid_state colors) := by
  unfold Fluid.StepInBounds; infer_instance

/-- The state is ready for a Jacobi iteration: all containers have `num_particles` rows and
the neighbour lists are `num_particles` lists of particle indices. -/
def Fluid.Ready {G : Type} (s : Fluid G) : Prop :=
  s.Sized ∧ s.x_new.length = s.num_particles.toNat ∧
  s.neighbours.length = s.num_particles.toNat ∧ IndicesBelow s.num_particles.toNat s.neighbours

/-- State `s2` has the frame, the candidate positions and the velocities of state `s1`. -/
def Fluid.KeepsPositions {G : Type} (s1 s2 : Fluid G) : Prop :=
  Fluid.Frame s1 s2 ∧ s2.x_new = s1.x_new ∧ s2.v = s1.v

/-- Lines 142-151 on one row: every coordinate after the two tests. -/
def Vec3.clamp (lo hi : ℚ) (r : Vec3) : Vec3 :=
  ⟨clamp_coord lo hi r.x, clamp_coord lo hi r.y, clamp_coord lo hi r.z⟩

/-- The candidate positions of the first `k` particles lie in the box. -/
def Fluid.BoundedBelow {G : Type} (s : Fluid G) (k : Nat) : Prop :=
  ∀ p r, p < k → s.x_new[p]? = some r → r.Within s.lower_bound s.upper_bound

/-! ## The formulas of the specification

Total functions: an index outside its container reads as zero or as the empty list. -/

/-- The sum of a list of vectors. -/
def Vec3.sum (l : List Vec3) : Vec3 := l.foldr Vec3.add Vec3.zero

/-- Row `q` of the candidate positions. -/
def Fluid.pos {G : Type} (s : Fluid G) (q : Int) : Vec3 := (row? s.x_new q).getD Vec3.zero

/-- The neighbour list of particle `p`. -/
def Fluid.nbrs {G : Type} (s : Fluid G) (p : Nat) : List Int := (s.neighbours[p]?).getD []

/-- Specification 4.4 (1): `density(p)`, `particle_mass` times the sum of
`poly6(x_p - x_q, h)` over the indices `q` in the neighbour list of `p`. -/
def Fluid.spec_density {G : Type} (E : Env G) (s : Fluid G) (p : Nat) : ℚ :=
  s.particle_mass * ((s.nbrs p).map (fun q => E.kernel_poly6 (s.pos p) (s.pos q) s.kernel_h)).sum

/-- Specification 4.4 (1): the gradient contribution `g(p, q)`: for `q = p` the sum of
`spiky_gradient(x_p - x_k, h)` over the neighbourhood of `p`, otherwise
`spiky_gradient(x_p - x_q, h)`. -/
def Fluid.spec_g {G : Type} (E : Env G) (s : Fluid G) (p : Nat) (q : Int) : Vec3 :=
  if (p : Int) = q then
    Vec3.sum ((s.nbrs p).map (fun k => E.kernel_spiky (s.pos p) (s.pos k) s.kernel_h))
  else E.kernel_spiky (s.pos p) (s.pos q) s.kernel_h

/-- Specification 4.4 (1): `gradient_norm(p)`, the 2-norm of the vector sum of `g(p, q) / rho`
over the neighbours `q` of `p`. -/
def Fluid.spec_gradient_norm {G : Type} (E : Env G) (s : Fluid G) (p : Nat) : ℚ :=
  E.norm (Vec3.sum ((s.nbrs p).map (fun q => (Fluid.spec_g E s p q).sdiv s.rho)))

/-- Specification 4.4 (1): `lambda(p) = -c(p) / (gradient_norm(p) + cfm_epsilon)` for the
constraint value `c_p`. -/
def Fluid.spec_lambda {G : Type} (E : Env G) (s : Fluid G) (p : Nat) (c_p : ℚ) : ℚ :=
  -c_p / (Fluid.spec_gradient_norm E s p + s.cfm_epsilon)

/-- Specification 4.4 (2): `dP(p)`, `1 / rho` times the sum over the indices `q` in the
neighbour list of `p` of `(lambda(p) + lambda(q) + s_corr) * spiky_gradient(x_p - x_q, h)`,
for the multipliers stored in the state and the tensile term of the code. -/
def Fluid.spec_dP {G : Type} (E : Env G) (s : Fluid G) (p : Nat) : Vec3 :=
  (Vec3.sum ((s.nbrs p).map (fun q =>
    Vec3.smul ((s.lambda[p]?).getD 0 + (row? s.lambda q).getD 0 +
        Fluid.s_corr E s (s.pos p) (s.pos q))
      (E.kernel_spiky (s.pos p) (s.pos q) s.kernel_h)))).sdiv s.rho

/-! ## Example inputs -/

/-- An example configuration for the collaborators `E`: `num_particles` particles of mass 1,
rest density 1, gravity `98/10`, `jacobi_iterations` iterations, `cfm_epsilon = 1/100`,
smoothing radius 1, tensile constants `1/10`, `1/5`, `4`, the box `[-10, 10]` and time step
`1/10`, constructed and then initialised with `init_state` on the positions `fluid_state`. -/
def exampleStartWith (E : Env Unit) (num_particles jacobi_iterations : Int) (fluid_state : Mat) :
    Option (Fluid Unit) :=
  (Fluid.construct E 0 num_particles 1 1 (98 / 10) 0
    jacobi_iterations (1 / 100) 1 (1 / 10) (1 / 5) 4 0 0 (-10) 10 (1 / 10)).map
    (fun s => (Fluid.init_state E s fluid_state).1)

/-- The example configuration with the exhaustive neighbour search of radius 1. -/
def exampleStart (num_particles jacobi_iterations : Int) (fluid_state : Mat) :
    Option (Fluid Unit) :=
  exampleStartWith (exampleEnv (search_neighbours 1)) num_particles jacobi_iterations fluid_state

/-! ## Further predicates and variants -/

/-- The inputs of a step are well formed: at least one particle, containers and buffers with
`num_particles` rows, and a neighbour query that returns `num_particles` lists of indices in
`[0, num_particles)`.  (`StepInBounds` without the bound on `jacobi_iterations`.) -/
def Fluid.WellFormedInputs {G : Type} (E : Env G) (s : Fluid G) (fluid_state colors : Mat) :
    Prop :=
  1 ≤ s.num_particles ∧ s.Sized ∧
  fluid_state.length = s.num_particles.toNat ∧ colors.length = s.num_particles.toNat ∧
  ∀ s1 ∈ Fluid.apply_forces E s fluid_state,
    s1.neighbours.length = s.num_particles.toNat ∧ IndicesBelow s.num_particles.toNat s1.neighbours

instance {G : Type} (E : Env G) (s : Fluid G) (fluid_state colors : Mat) :
    Decidable (Fluid.WellFormedInputs E s fluid_state colors) := by
  unfold Fluid.WellFormedInputs; infer_instance

/-- State `y` is state `x` with other contents in `c` and `dP` (of the same sizes), and the
two agree on the first `k` entries of `c`. -/
def Fluid.SameUpTo {G : Type} (k : Nat) (x y : Fluid G) : Prop :=
  y = { x with c := y.c, dP := y.dP } ∧ y.c.length = x.c.length ∧
    y.dP.length = x.dP.length ∧ ∀ p < k, y.c[p]? = x.c[p]?

/-! ### The step without the velocity reflections

The variant of `step` in which the statements of lines 145 and 149 are removed. -/

/-- Lines 143-146 without line 145. -/
def Fluid.clamp_lower_plain {G : Type} (p_i : Nat) (s : Fluid G) (axis : Nat) :
    Option (Fluid G) := do
  let r ← s.x_new[p_i]?
  if r.get axis < s.lower_bound then
    some { s with x_new := s.x_new.set p_i (r.set axis s.lower_bound) }
  else some s

/-- Lines 147-150 without line 149. -/
def Fluid.clamp_upper_plain {G : Type} (p_i : Nat) (s : Fluid G) (axis : Nat) :
    Option (Fluid G) := do
  let r ← s.x_new[p_i]?
  if r.get axis > s.upper_bound then
    some { s with x_new := s.x_new.set p_i (r.set axis s.upper_bound) }
  else some s

/-- The body of the loop over `axis` without the reflections. -/
def Fluid.clamp_axis_plain {G : Type} (p_i : Nat) (s : Fluid G) (axis : Nat) :
    Option (Fluid G) :=
  (Fluid.clamp_lower_plain p_i s axis).bind (fun s1 => Fluid.clamp_upper_plain p_i s1 axis)

/-- The body of the loop over `p_i` in the collision stage without the reflections. -/
def Fluid.collision_body_plain {G : Type} (s : Fluid G) (p_i : Nat) : Option (Fluid G) := do
  let r ← s.x_new[p_i]?
  let d ← s.dP[p_i]?
  let s1 := { s with x_new := s.x_new.set p_i (r.add (Vec3.smul (5 / 1000) d)) }
  [0, 1, 2].foldlM (Fluid.clamp_axis_plain p_i) s1

/-- The collision stage without the reflections. -/
def Fluid.collision_stage_plain {G : Type} (s : Fluid G) : Option (Fluid G) :=
  (List.range s.num_particles.toNat).foldlM Fluid.collision_body_plain s

/-- The body of the Jacobi loop without the reflections. -/
def Fluid.jacobi_iteration_plain {G : Type} (E : Env G) (s : Fluid G) (i : Nat) :
    Option (Fluid G) :=
  ((Fluid.constraint_stage E i s).bind (Fluid.dP_stage E i)).bind Fluid.collision_stage_plain

/-- The variant of `Fluid::step` without the two velocity reflections. -/
def Fluid.step_plain {G : Type} (E : Env G) (s : Fluid G) (fluid_state colors : Mat) :
    Option (Fluid G × Mat × Mat) := do
  let s1 ← Fluid.apply_forces E s fluid_state
  let s2 ← (List.range s1.jacobi_iterations.toNat).foldlM (Fluid.jacobi_iteration_plain E) s1
  let v2 ← zipSame (fun a b => (Vec3.sub a b).sdiv s2.dt) s2.x_new fluid_state
  let colors1 ← Fluid.debug_colors s2 colors
  some ({ s2 with v := v2, grid := E.grid_update s2.grid s2.x_new, t := s2.t + s2.dt },
    s2.x_new, colors1)

/-- State `y` is state `x` with other velocities, in a container of the same size, which is
also the size of the candidate positions. -/
def Fluid.SameButV {G : Type} (x y : Fluid G) : Prop :=
  y = { x with v := y.v } ∧ y.v.length = x.v.length ∧ x.v.length = x.x_new.length

/-- Two optional results are both absent, or both present and related by `R`. -/
def OptRel {σ : Type} (R : σ → σ → Prop) : Option σ → Option σ → Prop
  | some x, some y => R x y
  | none, none => True
  | _, _ => False
/-! ## The sources over machine numbers

The same translation of `Fluid.cpp`, line by line, with the type of the numbers left open:
`α` is any type with the operations `Fluid.cpp` applies to a `double`.  Nothing is assumed
about the operations except that no number is below itself, so every theorem about this
embedding holds for IEEE 754 arithmetic with its rounding, its infinities and its NaN (type
`Dbl` below) as well as for exact arithmetic. -/

/-- The operations `Fluid.cpp` applies to a `double`: the literals `0` and `1`, `+`, `-`, `*`,
`/`, unary minus, the comparison `<` (`a > b` is `b < a`), `pow` with an `int` exponent and the
literal `0.005`; and the comparison `<=`, which only the statements and the example kernels
use.  The one law: no number is below itself. -/
class Machine (α : Type) extends Zero α, One α, Add α, Sub α, Mul α, Div α, Neg α, LT α, LE α where
  /-- The call `pow(x, n)` with an `int` exponent. -/
  powi : α → Int → α
  /-- The literal `0.005`. -/
  c005 : α
  /-- The comparison `<` is computed. -/
  decLt : ∀ a b : α, Decidable (a < b)
  /-- The comparison `<=` is computed. -/
  decLe : ∀ a b : α, Decidable (a ≤ b)
  /-- No number is below itself. -/
  lt_self : ∀ a : α, ¬ a < a

instance {α : Type} [Machine α] (a b : α) : Decidable (a < b) := Machine.decLt a b

instance {α : Type} [Machine α] (a b : α) : Decidable (a ≤ b) := Machine.decLe a b

/-! ### Rows of an `N × 3` matrix of machine numbers -/

/-- One row of an `N × 3` matrix of machine numbers (also an `Eigen::Vector3d`). -/
structure MVec3 (α : Type) where
  x : α
  y : α
  z : α
deriving DecidableEq

namespace MVec3

/-- The zero vector (`setZero`). -/
def zero {α : Type} [Machine α] : MVec3 α := ⟨0, 0, 0⟩

/-- Component-wise sum. -/
def add {α : Type} [Machine α] (a b : MVec3 α) : MVec3 α := ⟨a.x + b.x, a.y + b.y, a.z + b.z⟩

/-- Component-wise difference. -/
def sub {α : Type} [Machine α] (a b : MVec3 α) : MVec3 α := ⟨a.x - b.x, a.y - b.y, a.z - b.z⟩

/-- Scalar times vector. -/
def smul {α : Type} [Machine α] (k : α) (a : MVec3 α) : MVec3 α := ⟨k * a.x, k * a.y, k * a.z⟩

/-- Vector divided by a scalar. -/
def sdiv {α : Type} [Machine α] (a : MVec3 α) (k : α) : MVec3 α := ⟨a.x / k, a.y / k, a.z / k⟩

/-- Coefficient access `row[axis]` for `axis` in `0, 1, 2`. -/
def get {α : Type} (a : MVec3 α) (axis : Nat) : α :=
  match axis with
  | 0 => a.x
  | 1 => a.y
  | _ => a.z

/-- Coefficient update `row[axis] = val` for `axis` in `0, 1, 2`. -/
def set {α : Type} (a : MVec3 α) (axis : Nat) (val : α) : MVec3 α :=
  match axis with
  | 0 => { a with x := val }
  | 1 => { a with y := val }
  | _ => { a with z := val }

end MVec3

/-- An `Eigen::MatrixXd` with three columns, as the list of its rows. -/
abbrev MMat (α : Type) := List (MVec3 α)

/-! ### External collaborators -/

/-- The routines `Fluid.cpp` calls but does not define, for a grid state of type `G`. -/
structure MEnv (α G : Type) where
  /-- The overload `kernel_poly6(x_i, x_j, h)` on two matrix rows. -/
  kernel_poly6 : MVec3 α → MVec3 α → α → α
  /-- The overload `kernel_poly6(r, h)` on a scalar distance. -/
  kernel_poly6_r : α → α → α
  /-- The routine `kernel_spiky(result, x_i, x_j, h)`; the value written to `result`. -/
  kernel_spiky : MVec3 α → MVec3 α → α → MVec3 α
  /-- The 2-norm `.norm()` of a three-vector. -/
  norm : MVec3 α → α
  /-- The call `SpatialHashGrid(lower_bound, upper_bound, kernel_h)`. -/
  grid_new : α → α → α → G
  /-- The call `grid.update(positions)`. -/
  grid_update : G → MMat α → G
  /-- The call `grid.findNeighbours(positions, neighbours)`: the grid and the lists after it. -/
  grid_findNeighbours : G → MMat α → List (List Int) → G × List (List Int)

/-! ### Simulation state -/

/-- The members of class `Fluid` that `Fluid.cpp` reads or writes. -/
structure MFluid (α G : Type) where
  num_particles : Int
  particle_mass : α
  rho : α
  user_f : α
  jacobi_iterations : Int
  cfm_epsilon : α
  kernel_h : α
  tensile_k : α
  tensile_delta_q : α
  tensile_n : Int
  viscocity_c : α
  vorticity_epsilon : α
  t : α
  dt : α
  lower_bound : α
  upper_bound : α
  grid : G
  x_new : MMat α
  v : MMat α
  dP : MMat α
  omega : MMat α
  eta : MMat α
  N : MMat α
  vorticity_f : MMat α
  cell_coord : MMat α
  density : List α
  c : List α
  lambda : List α
  c_grad_norm : List α
  gravity_f : List α
  neighbours : List (List Int)
  tensile_stability_denom : α

/-- The constructor `Fluid::Fluid`.  A container cannot be given a negative size, so the
constructor does not return for `num_particles < 0`.  `resize` leaves the coefficients
unspecified: they are filled with the parameter `junk`. -/
def MFluid.construct {α G : Type} [Machine α] (E : MEnv α G) (junk : α)
    (num_particles : Int) (particle_mass rho gravity_f user_f : α) (jacobi_iterations : Int)
    (cfm_epsilon kernel_h tensile_k tensile_delta_q : α) (tensile_n : Int)
    (viscocity_c vorticity_epsilon lower_bound upper_bound dt : α) : Option (MFluid α G) :=
  if num_particles < 0 then none
  else
    let n := num_particles.toNat
    let m : MMat α := List.replicate n ⟨junk, junk, junk⟩
    let w : List α := List.replicate n junk
    some
      { num_particles := num_particles
        particle_mass := particle_mass
        rho := rho
        user_f := user_f
        jacobi_iterations := jacobi_iterations
        cfm_epsilon := cfm_epsilon
        kernel_h := kernel_h
        tensile_k := tensile_k
        tensile_delta_q := tensile_delta_q
        tensile_n := tensile_n
        viscocity_c := viscocity_c
        vorticity_epsilon := vorticity_epsilon
        t := 0
        dt := dt
        lower_bound := lower_bound
        upper_bound := upper_bound
        grid := E.grid_new lower_bound upper_bound kernel_h
        x_new := m
        v := m
        dP := m
        omega := m
        eta := m
        N := m
        vorticity_f := m
        cell_coord := m
        density := w
        c := w
        lambda := w
        c_grad_norm := w
        gravity_f := List.replicate n gravity_f
        neighbours := List.replicate n []
        tensile_stability_denom := Machine.powi (E.kernel_poly6_r tensile_delta_q kernel_h) tensile_n }

/-- `Fluid::init_state`: the state after the call, paired with the caller's position
buffer after the call. -/
def MFluid.init_state {α G : Type} [Machine α] (E : MEnv α G) (s : MFluid α G)
    (fluid_state : MMat α) : MFluid α G × MMat α :=
  ({ s with v := s.v.map (fun _ => MVec3.zero), grid := E.grid_update s.grid fluid_state },
    fluid_state)

/-! ### One simulation step -/

/-- Lines 102-105: the loop over `p_k` summing `kernel_spiky(x_new[p_i], x_new[p_k])`
into `c_grad_temp`, which was set to zero just before. -/
def MFluid.c_grad_self {α G : Type} [Machine α] (E : MEnv α G) (s : MFluid α G)
    (x_i : MVec3 α) (nb : List Int) :
    Option (MVec3 α) :=
  nb.foldlM
    (fun acc p_k => (row? s.x_new p_k).map (fun x_k => acc.add (E.kernel_spiky x_i x_k s.kernel_h)))
    MVec3.zero

/-- Lines 100-110: the value of `c_grad_temp` for the pair `p_i`, `p_j`. -/
def MFluid.c_grad_temp {α G : Type} [Machine α] (E : MEnv α G) (s : MFluid α G) (p_i : Nat)
    (p_j : Int) :
    Option (MVec3 α) := do
  let x_i ← s.x_new[p_i]?
  if (p_i : Int) = p_j then
    let nb ← s.neighbours[p_i]?
    MFluid.c_grad_self E s x_i nb
  else
    let x_j ← row? s.x_new p_j
    some (E.kernel_spiky x_i x_j s.kernel_h)

/-- Lines 97-112: the body of the loop over `p_j` in the constraint stage of iteration `i`. -/
def MFluid.density_body {α G : Type} [Machine α] (E : MEnv α G) (i p_i : Nat) (s : MFluid α G)
    (p_j : Int) :
    Option (MFluid α G) := do
  let x_i ← s.x_new[p_i]?
  let x_j ← row? s.x_new p_j
  let d ← s.density[p_i]?
  let g_temp ← MFluid.c_grad_temp E s p_i p_j
  let g ← s.c_grad_norm[i]?
  some { s with
    density := s.density.set p_i (d + s.particle_mass * E.kernel_poly6 x_i x_j s.kernel_h)
    c_grad_norm := s.c_grad_norm.set i (g + E.norm (g_temp.sdiv s.rho)) }

/-- Lines 93-118: the body of the loop over `p_i` in the constraint stage of iteration `i`. -/
def MFluid.constraint_body {α G : Type} [Machine α] (E : MEnv α G) (i : Nat) (s : MFluid α G)
    (p_i : Nat) :
    Option (MFluid α G) := do
  let nb ← s.neighbours[i]?
  let s1 ← nb.foldlM (MFluid.density_body E i p_i) s
  let d ← s1.density[p_i]?
  let c_val := d / s1.rho - 1
  let c1 ← setRow s1.c p_i c_val
  let g ← s1.c_grad_norm[p_i]?
  let lambda1 ← setRow s1.lambda p_i (-c_val / (g + s1.cfm_epsilon))
  some { s1 with c := c1, lambda := lambda1 }

/-- Line 128: the tensile correction `s_corr` for two rows of `x_new`. -/
def MFluid.s_corr {α G : Type} [Machine α] (E : MEnv α G) (s : MFluid α G)
    (x_i x_j : MVec3 α) : α :=
  -s.tensile_k * Machine.powi (E.kernel_poly6 x_i x_j s.kernel_h) s.tensile_n / s.tensile_stability_denom

/-- Lines 127-129: the body of the loop over `p_j` in the position-correction stage. -/
def MFluid.dP_term {α G : Type} [Machine α] (E : MEnv α G) (p_i : Nat) (s : MFluid α G)
    (p_j : Int) :
    Option (MFluid α G) := do
  let x_i ← s.x_new[p_i]?
  let x_j ← row? s.x_new p_j
  let ker_res := E.kernel_spiky x_i x_j s.kernel_h
  let l_i ← s.lambda[p_i]?
  let l_j ← row? s.lambda p_j
  let d ← s.dP[p_i]?
  some { s with dP := s.dP.set p_i (d.add (MVec3.smul (l_i + l_j + MFluid.s_corr E s x_i x_j) ker_res)) }

/-- Lines 125-132: the body of the loop over `p_i` in the position-correction stage of
iteration `i`. -/
def MFluid.dP_body {α G : Type} [Machine α] (E : MEnv α G) (i : Nat) (s : MFluid α G) (p_i : Nat) :
    Option (MFluid α G) := do
  let nb ← s.neighbours[i]?
  let s1 ← nb.foldlM (MFluid.dP_term E p_i) s
  let d ← s1.dP[p_i]?
  some { s1 with dP := s1.dP.set p_i (d.sdiv s1.rho) }

/-- Lines 143-146: the test against `lower_bound` for one axis of particle `p_i`. -/
def MFluid.clamp_lower {α G : Type} [Machine α] (p_i : Nat) (s : MFluid α G)
    (axis : Nat) : Option (MFluid α G) := do
  let r ← s.x_new[p_i]?
  if r.get axis < s.lower_bound then
    let s1 := { s with x_new := s.x_new.set p_i (r.set axis s.lower_bound) }
    let w ← s1.v[p_i]?
    if w.get axis < 0 then some { s1 with v := s1.v.set p_i (w.set axis (w.get axis * -1)) }
    else some s1
  else some s

/-- Lines 147-150: the test against `upper_bound` for one axis of particle `p_i`. -/
def MFluid.clamp_upper {α G : Type} [Machine α] (p_i : Nat) (s : MFluid α G)
    (axis : Nat) : Option (MFluid α G) := do
  let r ← s.x_new[p_i]?
  if r.get axis > s.upper_bound then
    let s1 := { s with x_new := s.x_new.set p_i (r.set axis s.upper_bound) }
    let w ← s1.v[p_i]?
    if w.get axis > 0 then some { s1 with v := s1.v.set p_i (w.set axis (w.get axis * -1)) }
    else some s1
  else some s

/-- Lines 143-150: the body of the loop over `axis`. -/
def MFluid.clamp_axis {α G : Type} [Machine α] (p_i : Nat) (s : MFluid α G)
    (axis : Nat) : Option (MFluid α G) :=
  (MFluid.clamp_lower p_i s axis).bind (fun s1 => MFluid.clamp_upper p_i s1 axis)

/-- Lines 138-152: the body of the loop over `p_i` in the collision stage. -/
def MFluid.collision_body {α G : Type} [Machine α] (s : MFluid α G)
    (p_i : Nat) : Option (MFluid α G) := do
  let r ← s.x_new[p_i]?
  let d ← s.dP[p_i]?
  let s1 := { s with x_new := s.x_new.set p_i (r.add (MVec3.smul Machine.c005 d)) }
  [0, 1, 2].foldlM (MFluid.clamp_axis p_i) s1

/-- Lines 89-118: reset of the Jacobi state and the constraint stage of iteration `i`. -/
def MFluid.constraint_stage {α G : Type} [Machine α] (E : MEnv α G) (i : Nat)
    (s : MFluid α G) : Option (MFluid α G) :=
  (List.range s.num_particles.toNat).foldlM (MFluid.constraint_body E i)
    { s with
      density := s.density.map (fun _ => 0)
      lambda := s.lambda.map (fun _ => 0)
      c_grad_norm := s.c_grad_norm.map (fun _ => 0) }

/-- Lines 124-132: the position-correction stage of iteration `i`. -/
def MFluid.dP_stage {α G : Type} [Machine α] (E : MEnv α G) (i : Nat)
    (s : MFluid α G) : Option (MFluid α G) :=
  (List.range s.num_particles.toNat).foldlM (MFluid.dP_body E i)
    { s with dP := s.dP.map (fun _ => MVec3.zero) }

/-- Lines 138-152: the collision stage. -/
def MFluid.collision_stage {α G : Type} [Machine α] (s : MFluid α G) : Option (MFluid α G) :=
  (List.range s.num_particles.toNat).foldlM MFluid.collision_body s

/-- Lines 87-155: the body of the Jacobi loop for the iteration counter `i`. -/
def MFluid.jacobi_iteration {α G : Type} [Machine α] (E : MEnv α G) (s : MFluid α G)
    (i : Nat) : Option (MFluid α G) :=
  ((MFluid.constraint_stage E i s).bind (MFluid.dP_stage E i)).bind MFluid.collision_stage

/-- Lines 73-81: external forces and the neighbour query. -/
def MFluid.apply_forces {α G : Type} [Machine α] (E : MEnv α G) (s : MFluid α G)
    (fluid_state : MMat α) :
    Option (MFluid α G) := do
  let v1 ← zipSame (fun (r : MVec3 α) g => { r with y := r.y - s.particle_mass * g }) s.v s.gravity_f
  let x1 ← zipSame (fun a b => MVec3.add a (MVec3.smul s.dt b)) fluid_state v1
  let q := E.grid_findNeighbours s.grid x1 s.neighbours
  some { s with v := v1, x_new := x1, grid := q.1, neighbours := q.2 }

/-- Lines 174-182: the debug colours. -/
def MFluid.debug_colors {α G : Type} [Machine α] (s : MFluid α G)
    (colors : MMat α) : Option (MMat α) := do
  let c0 ← setRow colors 0 ⟨1, 0, 0⟩
  let c1 ← (List.range' 1 (s.num_particles.toNat - 1)).foldlM (fun cs i => setRow cs i ⟨0, 0, 1⟩) c0
  let nb ← s.neighbours[0]?
  nb.foldlM (fun cs n_idx => if n_idx ≠ 0 then setRowI cs n_idx ⟨0, 1, 0⟩ else some cs) c1

/-- `Fluid::step`: the state, the caller's position buffer and the colour buffer after the
call. -/
def MFluid.step {α G : Type} [Machine α] (E : MEnv α G) (s : MFluid α G)
    (fluid_state colors : MMat α) :
    Option (MFluid α G × MMat α × MMat α) := do
  let s1 ← MFluid.apply_forces E s fluid_state
  let s2 ← (List.range s1.jacobi_iterations.toNat).foldlM (MFluid.jacobi_iteration E) s1
  let v2 ← zipSame (fun a b => (MVec3.sub a b).sdiv s2.dt) s2.x_new fluid_state
  let colors1 ← MFluid.debug_colors s2 colors
  some ({ s2 with v := v2, grid := E.grid_update s2.grid s2.x_new, t := s2.t + s2.dt },
    s2.x_new, colors1)

/-! ## The arithmetic of `double`

IEEE 754 binary64 with rounding to nearest, ties to even: the arithmetic of the type `double`
in which `Fluid.cpp` computes.  A finite number is `(-1)^neg * m * 2^e` with `m < 2^53` and
`-1074 ≤ e ≤ 971`; it is written with `2^52 ≤ m` (normal) or with `e = -1074` (subnormal and
zero), so that equal numbers of the same sign have the same representation.  Every operation
is rounded on its own (no fused multiply-add, no wider intermediate format); the sign and
the payload of a NaN are not represented. -/

/-- A `double`: NaN, an infinity, or a finite number `(-1)^neg * m * 2^e`; zero has a sign. -/
inductive Dbl where
  | nan : Dbl
  | inf (neg : Bool) : Dbl
  | fin (neg : Bool) (m : Nat) (e : Int) : Dbl
deriving DecidableEq

namespace Dbl

/-- The number of binary digits of `n`, counted with at most `fuel` halvings. -/
def bitsAux : Nat → Nat → Nat
  | 0, _ => 0
  | fuel + 1, n => if n = 0 then 0 else bitsAux fuel (n / 2) + 1

/-- The number of binary digits of `n`. -/
def bits (n : Nat) : Nat := bitsAux n n

/-- The nearest integer to `m / 2^k`, ties to even. -/
def shiftRound (m k : Nat) : Nat :=
  let q := m >>> k
  let r := m - (q <<< k)
  let half := 1 <<< (k - 1)
  if k = 0 then m
  else if r < half then q
  else if half < r then q + 1
  else if q % 2 = 0 then q else q + 1

/-- The `double` with sign `neg` and magnitude `n * 2^u`, for `n ≤ 2^53` on the grid of the
format: the mantissa `2^53` is written as `2^52` one exponent higher, and a magnitude of
`2^1024` or more overflows to infinity. -/
def pack (neg : Bool) (n : Nat) (u : Int) : Dbl :=
  if n = 1 <<< 53 then (if 971 < u + 1 then inf neg else fin neg (1 <<< 52) (u + 1))
  else if 971 < u then inf neg
  else fin neg n u

/-- The `double` nearest to `(-1)^neg * m * 2^e` (round to nearest, ties to even). -/
def round (neg : Bool) (m : Nat) (e : Int) : Dbl :=
  if m = 0 then fin neg 0 (-1074)
  else
    let u : Int := max (e + (bits m : Int) - 53) (-1074)
    if u ≤ e then pack neg (m <<< (e - u).toNat) u
    else pack neg (shiftRound m (u - e).toNat) u

/-- The `double` nearest to `(-1)^neg * (a / b) * 2^e`, for `a, b ≠ 0`: the quotient is taken
to 56 or more binary digits, with one more digit that records a non-zero remainder. -/
def roundQuot (neg : Bool) (a b : Nat) (e : Int) : Dbl :=
  let s := bits b + 55
  let q := (a <<< s) / b
  let sticky := if (a <<< s) % b = 0 then 0 else 1
  round neg (2 * q + sticky) (e - (s : Int) - 1)

/-- The conversion of a non-negative integer. -/
def ofNat (n : Nat) : Dbl := round false n 0

/-- Unary minus: the sign is flipped, also that of zero and of an infinity. -/
def neg : Dbl → Dbl
  | nan => nan
  | inf s => inf (!s)
  | fin s m e => fin (!s) m e

/-- The integer `(-1)^neg * m * 2^(e - e0)`, for `e0 ≤ e`. -/
def scaled (neg : Bool) (m : Nat) (e e0 : Int) : Int :=
  if neg then -((m <<< (e - e0).toNat : Nat) : Int) else ((m <<< (e - e0).toNat : Nat) : Int)

/-- Addition.  An exact sum of zero is `+0`, except that `(-0) + (-0) = -0`. -/
def add : Dbl → Dbl → Dbl
  | nan, _ => nan
  | _, nan => nan
  | inf s, inf t => if s = t then inf s else nan
  | inf s, fin _ _ _ => inf s
  | fin _ _ _, inf t => inf t
  | fin s m e, fin t n f =>
    let e0 := min e f
    let sum := scaled s m e e0 + scaled t n f e0
    if sum = 0 then fin (s && t) 0 (-1074)
    else round (decide (sum < 0)) sum.natAbs e0

/-- Subtraction: `a - b = a + (-b)`. -/
def sub (a b : Dbl) : Dbl := add a (neg b)

/-- Multiplication.  The sign is the exclusive or of the signs; `inf * 0` is NaN. -/
def mul : Dbl → Dbl → Dbl
  | nan, _ => nan
  | _, nan => nan
  | inf s, inf t => inf (xor s t)
  | inf s, fin t n _ => if n = 0 then nan else inf (xor s t)
  | fin s m _, inf t => if m = 0 then nan else inf (xor s t)
  | fin s m e, fin t n f => round (xor s t) (m * n) (e + f)

/-- Division.  The sign is the exclusive or of the signs; `0 / 0` and `inf / inf` are NaN, and
a non-zero number divided by zero is an infinity. -/
def div : Dbl → Dbl → Dbl
  | nan, _ => nan
  | _, nan => nan
  | inf _, inf _ => nan
  | inf s, fin t _ _ => inf (xor s t)
  | fin s _ _, inf t => fin (xor s t) 0 (-1074)
  | fin s m e, fin t n f =>
    if n = 0 then (if m = 0 then nan else inf (xor s t))
    else if m = 0 then fin (xor s t) 0 (-1074)
    else roundQuot (xor s t) m n (e - f)

/-- The comparison `a < b`; false when either side is NaN, and `-0 < +0` is false. -/
def blt : Dbl → Dbl → Bool
  | nan, _ => false
  | _, nan => false
  | inf s, inf t => s && !t
  | inf s, fin _ _ _ => s
  | fin _ _ _, inf t => !t
  | fin s m e, fin t n f => decide (scaled s m e (min e f) < scaled t n f (min e f))

/-- The comparison `a <= b`; false when either side is NaN. -/
def ble : Dbl → Dbl → Bool
  | nan, _ => false
  | _, nan => false
  | inf s, inf t => s || !t
  | inf s, fin _ _ _ => s
  | fin _ _ _, inf t => !t
  | fin s m e, fin t n f => decide (scaled s m e (min e f) ≤ scaled t n f (min e f))

/-- The call `pow(x, n)` with an `int` exponent, taken correctly rounded (the library
routine may differ from it in the last digit). `pow(x, 0)` is `1` for every `x`. -/
def powi (x : Dbl) (n : Int) : Dbl :=
  let k := n.natAbs
  let odd := decide (k % 2 = 1)
  if n = 0 then ofNat 1
  else match x with
    | nan => nan
    | inf s => if 0 < n then inf (s && odd) else fin (s && odd) 0 (-1074)
    | fin s m e =>
      if m = 0 then (if 0 < n then fin (s && odd) 0 (-1074) else inf (s && odd))
      else if 0 < n then round (s && odd) (m ^ k) (e * k)
      else roundQuot (s && odd) 1 (m ^ k) (-(e * k))

end Dbl
/-! ### Predicates used in the statements about machine numbers -/

/-- The members that no stage of the Jacobi loop writes. -/
def MFluid.static {α G : Type} (s : MFluid α G) :=
  (s.num_particles, s.particle_mass, s.rho, s.jacobi_iterations, s.cfm_epsilon, s.kernel_h,
    s.tensile_k, s.tensile_delta_q, s.tensile_n, s.tensile_stability_denom, s.lower_bound,
    s.upper_bound, s.t, s.dt, s.neighbours, s.gravity_f, s.grid)

/-- The sizes of the containers the Jacobi loop works on. -/
def MFluid.shape {α G : Type} (s : MFluid α G) :=
  (s.x_new.length, s.v.length, s.dP.length, s.density.length, s.c.length, s.lambda.length,
    s.c_grad_norm.length)

/-- State `s2` has the static members and the container sizes of state `s1`. -/
def MFluid.Frame {α G : Type} (s1 s2 : MFluid α G) : Prop :=
  s2.static = s1.static ∧ s2.shape = s1.shape

/-- Every coordinate of the row lies in the closed interval `[lo, hi]`, by the comparison
`<=` of the machine; a NaN lies in no interval. -/
def MVec3.Within {α : Type} [Machine α] (lo hi : α) (r : MVec3 α) : Prop :=
  (lo ≤ r.x ∧ r.x ≤ hi) ∧ (lo ≤ r.y ∧ r.y ≤ hi) ∧ (lo ≤ r.z ∧ r.z ≤ hi)

instance {α : Type} [Machine α] (lo hi : α) (r : MVec3 α) : Decidable (MVec3.Within lo hi r) := by
  unfold MVec3.Within; infer_instance

/-- The number is neither below `lo` nor above `hi`: both tests of lines 143 and 147 are
false on it. -/
def Machine.NotOutside {α : Type} [Machine α] (lo hi x : α) : Prop :=
  ¬ x < lo ∧ ¬ x > hi

instance {α : Type} [Machine α] (lo hi x : α) : Decidable (Machine.NotOutside lo hi x) := by
  unfold Machine.NotOutside; infer_instance

/-- No coordinate of the row is below `lo` or above `hi`. -/
def MVec3.NotOutside {α : Type} [Machine α] (lo hi : α) (r : MVec3 α) : Prop :=
  Machine.NotOutside lo hi r.x ∧ Machine.NotOutside lo hi r.y ∧ Machine.NotOutside lo hi r.z

instance {α : Type} [Machine α] (lo hi : α) (r : MVec3 α) :
    Decidable (MVec3.NotOutside lo hi r) := by
  unfold MVec3.NotOutside; infer_instance

/-- Lines 143-150 on one coordinate: the value after the two tests. -/
def machine_clamp_coord {α : Type} [Machine α] (lo hi x : α) : α :=
  let y := if x < lo then lo else x
  if y > hi then hi else y

/-- Lines 142-151 on one row: every coordinate after the two tests. -/
def MVec3.clamp {α : Type} [Machine α] (lo hi : α) (r : MVec3 α) : MVec3 α :=
  ⟨machine_clamp_coord lo hi r.x, machine_clamp_coord lo hi r.y, machine_clamp_coord lo hi r.z⟩

/-- The containers of the state have `num_particles` entries, as after construction. -/
def MFluid.Sized {α G : Type} (s : MFluid α G) : Prop :=
  s.v.length = s.num_particles.toNat ∧ s.dP.length = s.num_particles.toNat ∧
  s.density.length = s.num_particles.toNat ∧ s.c.length = s.num_particles.toNat ∧
  s.lambda.length = s.num_particles.toNat ∧ s.c_grad_norm.length = s.num_particles.toNat ∧
  s.gravity_f.length = s.num_particles.toNat

instance {α G : Type} (s : MFluid α G) : Decidable s.Sized := by
  unfold MFluid.Sized; infer_instance

/-- The conditions under which every access of `step` is inside its container: at least one
particle, containers and buffers with `num_particles` rows, at most `num_particles` Jacobi
iterations, and a neighbour query that returns `num_particles` lists of particle indices. -/
def MFluid.StepInBounds {α G : Type} [Machine α] (E : MEnv α G) (s : MFluid α G)
    (fluid_state colors : MMat α) : Prop :=
  1 ≤ s.num_particles ∧ s.Sized ∧
  fluid_state.length = s.num_particles.toNat ∧ colors.length = s.num_particles.toNat ∧
  s.jacobi_iterations ≤ s.num_particles ∧
  ∀ s1 ∈ MFluid.apply_forces E s fluid_state,
    s1.neighbours.length = s.num_particles.toNat ∧ IndicesBelow s.num_particles.toNat s1.neighbours

instance {α G : Type} [Machine α] (E : MEnv α G) (s : MFluid α G) (fluid_state colors : MMat α) :
    Decidable (MFluid.StepInBounds E s fluid_state colors) := by
  unfold MFluid.StepInBounds; infer_instance

/-- The state is ready for a Jacobi iteration: all containers have `num_particles` rows and
the neighbour lists are `num_particles` lists of particle indices. -/
def MFluid.Ready {α G : Type} (s : MFluid α G) : Prop :=
  s.Sized ∧ s.x_new.length = s.num_particles.toNat ∧
  s.neighbours.length = s.num_particles.toNat ∧ IndicesBelow s.num_particles.toNat s.neighbours

/-- State `s2` has the frame, the candidate positions and the velocities of state `s1`. -/
def MFluid.KeepsPositions {α G : Type} (s1 s2 : MFluid α G) : Prop :=
  MFluid.Frame s1 s2 ∧ s2.x_new = s1.x_new ∧ s2.v = s1.v

/-- No coordinate of the candidate positions of the first `k` particles is below
`lower_bound` or above `upper_bound`. -/
def MFluid.BoundedBelow {α G : Type} [Machine α] (s : MFluid α G) (k : Nat) : Prop :=
  ∀ p r, p < k → s.x_new[p]? = some r → r.NotOutside s.lower_bound s.upper_bound

/-- Consecutive calls of `step`: each call gets the state, the position buffer and the
colour buffer the previous call left. -/
def MFluid.steps {α G : Type} [Machine α] (E : MEnv α G) :
    Nat → MFluid α G → MMat α → MMat α → Option (MFluid α G × MMat α × MMat α)
  | 0, s, fluid_state, colors => some (s, fluid_state, colors)
  | n + 1, s, fluid_state, colors =>
    (MFluid.step E s fluid_state colors).bind
      (fun out => MFluid.steps E n out.1 out.2.1 out.2.2)

/-- The neighbour query answers every position array of `n` rows with `n` lists of indices
in `[0, n)`. -/
def MEnv.QueryValid {α G : Type} (E : MEnv α G) (n : Nat) : Prop :=
  ∀ (g : G) (m : MMat α) (nb : List (List Int)), m.length = n →
    (E.grid_findNeighbours g m nb).2.length = n ∧
      IndicesBelow n (E.grid_findNeighbours g m nb).2

/-! ### The quantities of the amended statements -/

/-- The sum `((0 + dt) + dt) + ... + dt` with `n` additions, as `n` executions of `t += dt`
from `t = 0` compute it. -/
def clock_sum {α : Type} [Machine α] (dt : α) : Nat → α
  | 0 => 0
  | n + 1 => clock_sum dt n + dt

/-- Free fall of one coordinate in machine arithmetic: the height and the velocity after `n`
steps from height `y0` at rest, by `w' = w - mg`, `y' = y + dt * w'`, `w'' = (y' - y) / dt`. -/
def free_fall {α : Type} [Machine α] (dt mg : α) (y0 : α) : Nat → α × α
  | 0 => (y0, 0)
  | n + 1 =>
    let y := (free_fall dt mg y0 n).1
    let w := (free_fall dt mg y0 n).2
    (y + dt * (w - mg), (y + dt * (w - mg) - y) / dt)

/-- The coordinate `x` stays where it is at rest: `x + dt * 0` is `x` and `(x - x) / dt` is
`0`, as for every finite `x` and every finite `dt > 0` (up to the sign of a zero). -/
def Machine.RestsAt {α : Type} [Machine α] (dt x : α) : Prop :=
  x + dt * 0 = x ∧ (x - x) / dt = 0

instance {α : Type} [Machine α] [DecidableEq α] (dt x : α) : Decidable (Machine.RestsAt dt x) := by
  unfold Machine.RestsAt; infer_instance

/-! ### A concrete instance of the external collaborators over machine numbers -/

/-- Squared Euclidean length. -/
def MVec3.normSq {α : Type} [Machine α] (a : MVec3 α) : α := a.x * a.x + a.y * a.y + a.z * a.z

/-- The absolute value `fabs`. -/
def Machine.abs {α : Type} [Machine α] (a : α) : α := if a < 0 then -a else a

/-- The sum of the absolute values of the components; it equals the 2-norm on every vector
that lies along a coordinate axis. -/
def MVec3.axisNorm {α : Type} [Machine α] (a : MVec3 α) : α :=
  Machine.abs a.x + Machine.abs a.y + Machine.abs a.z

/-- Modelled from the spec: `kernel_poly6` of `kernel.h` (not among the sources), a
non-negative falloff that is zero from distance `h` on: `(h² - r²)³` for `0 ≤ r ≤ h`. -/
def machine_poly6_shape {α : Type} [Machine α] (r h : α) : α :=
  if 0 ≤ r ∧ r ≤ h then Machine.powi (h * h - r * r) 3 else 0

/-- Modelled from the spec: the row overload of `kernel_poly6`, by the squared distance. -/
def machine_poly6_rows {α : Type} [Machine α] (x_i x_j : MVec3 α) (h : α) : α :=
  if (MVec3.sub x_i x_j).normSq ≤ h * h then
    Machine.powi (h * h - (MVec3.sub x_i x_j).normSq) 3
  else 0

/-- Modelled from the spec: `kernel_spiky` of `kernel.h` (not among the sources), a vector
along `x_i - x_j` that vanishes at distance `h` and at distance zero: `-(h - r)² (x_i - x_j) / r`
with `r` the `axisNorm` of `x_i - x_j`. -/
def machine_spiky_shape {α : Type} [Machine α] (x_i x_j : MVec3 α) (h : α) : MVec3 α :=
  let d := MVec3.sub x_i x_j
  let r := d.axisNorm
  if 0 < r ∧ r ≤ h then MVec3.smul (-((h - r) * (h - r)) / r) d else MVec3.zero

/-- All particles within distance `h` of row `x_i`, by index, the particle itself included. -/
def machine_neighbours_within {α : Type} [Machine α] (h : α) (m : MMat α) (x_i : MVec3 α) :
    List Int :=
  ((List.range m.length).filter
    (fun j => decide (((m.getD j MVec3.zero).sub x_i).normSq ≤ h * h))).map Int.ofNat

/-- A neighbour query by exhaustive search with radius `h`. -/
def machine_search_neighbours {α : Type} [Machine α] (h : α) (m : MMat α) : List (List Int) :=
  m.map (machine_neighbours_within h m)

/-- The collaborators for examples: the kernel shapes above, `axisNorm` as norm, a grid
without state, and a neighbour query given by the function `find`. -/
def machineEnv {α : Type} [Machine α] (find : MMat α → List (List Int)) : MEnv α Unit where
  kernel_poly6 := machine_poly6_rows
  kernel_poly6_r := machine_poly6_shape
  kernel_spiky := machine_spiky_shape
  norm := MVec3.axisNorm
  grid_new := fun _ _ _ => ()
  grid_update := fun _ _ => ()
  grid_findNeighbours := fun _ m _ => ((), find m)
/-! ### `double` as an instance of the machine numbers -/

/-- The decimal literal with the value `num / den`: the `double` nearest to the quotient. -/
def Dbl.ofRatio (num : Int) (den : Nat) : Dbl :=
  if num = 0 then Dbl.fin false 0 (-1074)
  else Dbl.roundQuot (decide (num < 0)) num.natAbs den 0

instance : Machine Dbl where
  zero := Dbl.fin false 0 (-1074)
  one := Dbl.ofNat 1
  add := Dbl.add
  sub := Dbl.sub
  mul := Dbl.mul
  div := Dbl.div
  neg := Dbl.neg
  lt := fun a b => Dbl.blt a b = true
  le := fun a b => Dbl.ble a b = true
  powi := Dbl.powi
  c005 := Dbl.ofRatio 5 1000
  decLt := fun a b => instDecidableEqBool (Dbl.blt a b) true
  decLe := fun a b => instDecidableEqBool (Dbl.ble a b) true
  lt_self := by
    intro a
    show ¬ Dbl.blt a a = true
    cases a <;> simp [Dbl.blt]

/-- The row with the integer coordinates `x`, `y`, `z`. -/
def Dbl.row (x y z : Int) : MVec3 Dbl := ⟨Dbl.ofRatio x 1, Dbl.ofRatio y 1, Dbl.ofRatio z 1⟩

/-- The example configuration over `double`, for the collaborators `E`: `num_particles`
particles of mass `1`, rest density `1`, gravity `9.8`, `jacobi_iterations` iterations, the given
`cfm_epsilon`, smoothing radius `1`, tensile constants `0.1`, `0.2`, `4`, the box `[-10, 10]`
and time step `0.1`, constructed and then initialised with `init_state` on the positions
`fluid_state`. -/
def dblStartWith (E : MEnv Dbl Unit) (num_particles jacobi_iterations : Int) (cfm_epsilon : Dbl)
    (fluid_state : MMat Dbl) : Option (MFluid Dbl Unit) :=
  (MFluid.construct E 0 num_particles 1 1 (Dbl.ofRatio 98 10) 0
    jacobi_iterations cfm_epsilon 1 (Dbl.ofRatio 1 10) (Dbl.ofRatio 1 5) 4 0 0
    (Dbl.ofRatio (-10) 1) (Dbl.ofRatio 10 1) (Dbl.ofRatio 1 10)).map
    (fun s => (MFluid.init_state E s fluid_state).1)

/-- The example configuration over `double` with the exhaustive neighbour search of radius
`1`. -/
def dblStart (num_particles jacobi_iterations : Int) (cfm_epsilon : Dbl)
    (fluid_state : MMat Dbl) : Option (MFluid Dbl Unit) :=
  dblStartWith (machineEnv (machine_search_neighbours 1)) num_particles jacobi_iterations
    cfm_epsilon fluid_state

/-! ### Exact arithmetic as an instance of the machine numbers -/

instance : Machine ℚ where
  powi := fun x n => x ^ n
  c005 := 5 / 1000
  decLt := fun _ _ => inferInstance
  decLe := fun _ _ => inferInstance
  lt_self := fun a => lt_irrefl a

/-! ## Loops in the `Option` monad -/

theorem foldlM_some_inv {σ ι : Type} (I : σ → Prop) (f : σ → ι → Option σ) (l : List ι)
    (h : ∀ s a s', a ∈ l → I s → f s a = some s' → I s') :
    ∀ s s', I s → l.foldlM f s = some s' → I s' := by
  induction l with
  | nil => intro s s' hs he; simp at he; subst he; exact hs
  | cons a l ih =>
    intro s s' hs he
    simp only [List.foldlM_cons, Option.bind_eq_bind, Option.bind_eq_some] at he
    obtain ⟨s1, h1, h2⟩ := he
    exact ih (fun s a s' ha => h s a s' (List.mem_cons_of_mem _ ha)) s1 s'
      (h s a s1 (List.mem_cons_self _ _) hs h1) h2

theorem foldlM_isSome_inv {σ ι : Type} (I : σ → Prop) (f : σ → ι → Option σ) (l : List ι)
    (h : ∀ s a, a ∈ l → I s → ∃ s', f s a = some s' ∧ I s') :
    ∀ s, I s → ∃ s', l.foldlM f s = some s' ∧ I s' := by
  induction l with
  | nil => intro s hs; exact ⟨s, by simp, hs⟩
  | cons a l ih =>
    intro s hs
    obtain ⟨s1, h1, h2⟩ := h s a (List.mem_cons_self _ _) hs
    obtain ⟨s2, h3, h4⟩ := ih (fun s a ha => h s a (List.mem_cons_of_mem _ ha)) s1 h2
    exact ⟨s2, by simp [List.foldlM_cons, h1, h3], h4⟩

theorem foldlM_range_inv {σ : Type} (I : Nat → σ → Prop) (f : σ → Nat → Option σ) (n : Nat)
    (h : ∀ k s s', k < n → I k s → f s k = some s' → I (k + 1) s') :
    ∀ s s', I 0 s → (List.range n).foldlM f s = some s' → I n s' := by
  induction n with
  | zero => intro s s' hs he; simp at he; subst he; exact hs
  | succ n ih =>
    intro s s' hs he
    rw [List.range_succ, List.foldlM_append] at he
    simp only [Option.bind_eq_bind, Option.bind_eq_some, List.foldlM_cons, List.foldlM_nil,
      Option.pure_def, Option.bind_some] at he
    obtain ⟨s1, h1, h2⟩ := he
    have := ih (fun k s s' hk => h k s s' (Nat.lt_succ_of_lt hk)) s s1 hs h1
    exact h n s1 s' (Nat.lt_succ_self n) this (by simpa using h2)

/-! ## Checked accesses -/

theorem row?_eq_some {α : Type} (m : List α) (i : Int) (a : α) :
    row? m i = some a ↔ 0 ≤ i ∧ m[i.toNat]? = some a := by
  unfold row?; split <;> simp [*]

theorem row?_isSome {α : Type} (m : List α) (i : Int) (h0 : 0 ≤ i) (h1 : i < (m.length : Int)) :
    ∃ a, row? m i = some a := by
  have : i.toNat < m.length := by omega
  exact ⟨m[i.toNat], by simp [row?, h0, this]⟩

theorem getElem?_isSome {α : Type} (m : List α) (i : Nat) (h : i < m.length) :
    ∃ a, m[i]? = some a := ⟨m[i], by simp [h]⟩

theorem setRow_eq_some {α : Type} (m : List α) (i : Nat) (a : α) (m' : List α) :
    setRow m i a = some m' ↔ i < m.length ∧ m' = m.set i a := by
  unfold setRow; split <;> simp [*, eq_comm]

theorem zipSame_eq_some {α β γ : Type} (f : α → β → γ) (a : List α) (b : List β) (r : List γ) :
    zipSame f a b = some r ↔ a.length = b.length ∧ r = List.zipWith f a b := by
  unfold zipSame; split <;> simp [*, eq_comm]

/-! ## Frames: what the stages of the Jacobi loop leave alone -/

theorem Fluid.Frame.frame_refl {G : Type} (s : Fluid G) : Fluid.Frame s s := ⟨rfl, rfl⟩

theorem Fluid.Frame.frame_trans {G : Type} {s1 s2 s3 : Fluid G} (h1 : Fluid.Frame s1 s2)
    (h2 : Fluid.Frame s2 s3) : Fluid.Frame s1 s3 :=
  ⟨h2.1.trans h1.1, h2.2.trans h1.2⟩

theorem Fluid.frame_foldlM {G ι : Type} (f : Fluid G → ι → Option (Fluid G)) (l : List ι)
    (h : ∀ s a s', f s a = some s' → Fluid.Frame s s') (s s' : Fluid G)
    (he : l.foldlM f s = some s') : Fluid.Frame s s' :=
  foldlM_some_inv (fun x => Fluid.Frame s x) f l
    (fun x a x' _ hx hf => hx.frame_trans (h x a x' hf)) s s' (Fluid.Frame.frame_refl s) he

theorem Fluid.KeepsPositions.keeps_refl {G : Type} (s : Fluid G) : Fluid.KeepsPositions s s :=
  ⟨Fluid.Frame.frame_refl s, rfl, rfl⟩

theorem Fluid.KeepsPositions.keeps_trans {G : Type} {s1 s2 s3 : Fluid G}
    (h1 : Fluid.KeepsPositions s1 s2) (h2 : Fluid.KeepsPositions s2 s3) :
    Fluid.KeepsPositions s1 s3 :=
  ⟨h1.1.frame_trans h2.1, h2.2.1.trans h1.2.1, h2.2.2.trans h1.2.2⟩

theorem Fluid.keepsPositions_foldlM {G ι : Type} (f : Fluid G → ι → Option (Fluid G))
    (l : List ι) (h : ∀ s a s', f s a = some s' → Fluid.KeepsPositions s s') (s s' : Fluid G)
    (he : l.foldlM f s = some s') : Fluid.KeepsPositions s s' :=
  foldlM_some_inv (fun x => Fluid.KeepsPositions s x) f l
    (fun x a x' _ hx hf => hx.keeps_trans (h x a x' hf)) s s' (Fluid.KeepsPositions.keeps_refl s) he

theorem Fluid.density_body_keeps {G : Type} (E : Env G) (i p_i : Nat) (s : Fluid G) (p_j : Int)
    (s' : Fluid G) (h : Fluid.density_body E i p_i s p_j = some s') :
    Fluid.KeepsPositions s s' := by
  simp only [Fluid.density_body, Option.bind_eq_bind, Option.bind_eq_some, Option.some.injEq] at h
  obtain ⟨x_i, -, x_j, -, d, -, g_temp, -, g, -, rfl⟩ := h
  simp [Fluid.KeepsPositions, Fluid.Frame, Fluid.static, Fluid.shape]

theorem Fluid.constraint_body_keeps {G : Type} (E : Env G) (i : Nat) (s : Fluid G) (p_i : Nat)
    (s' : Fluid G) (h : Fluid.constraint_body E i s p_i = some s') :
    Fluid.KeepsPositions s s' := by
  simp only [Fluid.constraint_body, Option.bind_eq_bind, Option.bind_eq_some,
    Option.some.injEq, setRow_eq_some] at h
  obtain ⟨nb, -, s1, h1, d, -, c1, ⟨-, rfl⟩, g, -, l1, ⟨-, rfl⟩, rfl⟩ := h
  have hk := Fluid.keepsPositions_foldlM _ nb (Fluid.density_body_keeps E i p_i) s s1 h1
  refine hk.keeps_trans ?_
  simp [Fluid.KeepsPositions, Fluid.Frame, Fluid.static, Fluid.shape]

theorem Fluid.constraint_stage_keeps {G : Type} (E : Env G) (i : Nat) (s s' : Fluid G)
    (h : Fluid.constraint_stage E i s = some s') : Fluid.KeepsPositions s s' := by
  unfold Fluid.constraint_stage at h
  have hk := Fluid.keepsPositions_foldlM _ _ (Fluid.constraint_body_keeps E i) _ s' h
  refine Fluid.KeepsPositions.keeps_trans ?_ hk
  simp [Fluid.KeepsPositions, Fluid.Frame, Fluid.static, Fluid.shape]

theorem Fluid.dP_term_keeps {G : Type} (E : Env G) (p_i : Nat) (s : Fluid G) (p_j : Int)
    (s' : Fluid G) (h : Fluid.dP_term E p_i s p_j = some s') : Fluid.KeepsPositions s s' := by
  simp only [Fluid.dP_term, Option.bind_eq_bind, Option.bind_eq_some, Option.some.injEq] at h
  obtain ⟨x_i, -, x_j, -, l_i, -, l_j, -, d, -, rfl⟩ := h
  simp [Fluid.KeepsPositions, Fluid.Frame, Fluid.static, Fluid.shape]

theorem Fluid.dP_body_keeps {G : Type} (E : Env G) (i : Nat) (s : Fluid G) (p_i : Nat)
    (s' : Fluid G) (h : Fluid.dP_body E i s p_i = some s') : Fluid.KeepsPositions s s' := by
  simp only [Fluid.dP_body, Option.bind_eq_bind, Option.bind_eq_some, Option.some.injEq] at h
  obtain ⟨nb, -, s1, h1, d, -, rfl⟩ := h
  have hk := Fluid.keepsPositions_foldlM _ nb (Fluid.dP_term_keeps E p_i) s s1 h1
  refine hk.keeps_trans ?_
  simp [Fluid.KeepsPositions, Fluid.Frame, Fluid.static, Fluid.shape]

theorem Fluid.dP_stage_keeps {G : Type} (E : Env G) (i : Nat) (s s' : Fluid G)
    (h : Fluid.dP_stage E i s = some s') : Fluid.KeepsPositions s s' := by
  unfold Fluid.dP_stage at h
  have hk := Fluid.keepsPositions_foldlM _ _ (Fluid.dP_body_keeps E i) _ s' h
  refine Fluid.KeepsPositions.keeps_trans ?_ hk
  simp [Fluid.KeepsPositions, Fluid.Frame, Fluid.static, Fluid.shape]

/-! ## The collision stage -/

theorem Vec3.set_get_self (r : Vec3) (axis : Nat) : r.set axis (r.get axis) = r := by
  rcases axis with _ | _ | n <;> rfl

theorem Vec3.set_set (r : Vec3) (axis : Nat) (a b : ℚ) :
    (r.set axis a).set axis b = r.set axis b := by
  rcases axis with _ | _ | n <;> rfl

theorem Vec3.get_set (r : Vec3) (axis : Nat) (a : ℚ) : (r.set axis a).get axis = a := by
  rcases axis with _ | _ | n <;> rfl

theorem Fluid.clamp_lower_spec {G : Type} (p_i : Nat) (s : Fluid G) (axis : Nat) (s' : Fluid G)
    (h : Fluid.clamp_lower p_i s axis = some s') :
    Fluid.Frame s s' ∧ ∃ r, s.x_new[p_i]? = some r ∧
      s'.x_new = s.x_new.set p_i
        (r.set axis (if r.get axis < s.lower_bound then s.lower_bound else r.get axis)) := by
  simp only [Fluid.clamp_lower, Option.bind_eq_bind, Option.bind_eq_some] at h
  obtain ⟨r, hr, h⟩ := h
  have hset : s.x_new.set p_i r = s.x_new := by
    apply List.ext_getElem? ; intro k
    rw [List.getElem?_set]
    split
    · subst_vars; split
      · exact hr.symm
      · rename_i hlt; simp [List.getElem?_eq_none (Nat.le_of_not_lt hlt)]
    · rfl
  split at h
  · rename_i hlt
    simp only [Option.bind_eq_some] at h
    obtain ⟨w, -, h⟩ := h
    split at h <;> simp only [Option.some.injEq] at h <;> subst h <;>
      exact ⟨by simp [Fluid.Frame, Fluid.static, Fluid.shape], r, hr, by simp [hlt]⟩
  · rename_i hlt
    simp only [Option.some.injEq] at h
    subst h
    exact ⟨Fluid.Frame.frame_refl _, r, hr, by simp [hlt, Vec3.set_get_self, hset]⟩

theorem Fluid.clamp_upper_spec {G : Type} (p_i : Nat) (s : Fluid G) (axis : Nat) (s' : Fluid G)
    (h : Fluid.clamp_upper p_i s axis = some s') :
    Fluid.Frame s s' ∧ ∃ r, s.x_new[p_i]? = some r ∧
      s'.x_new = s.x_new.set p_i
        (r.set axis (if r.get axis > s.upper_bound then s.upper_bound else r.get axis)) := by
  simp only [Fluid.clamp_upper, Option.bind_eq_bind, Option.bind_eq_some] at h
  obtain ⟨r, hr, h⟩ := h
  have hset : s.x_new.set p_i r = s.x_new := by
    apply List.ext_getElem? ; intro k
    rw [List.getElem?_set]
    split
    · subst_vars; split
      · exact hr.symm
      · rename_i hlt; simp [List.getElem?_eq_none (Nat.le_of_not_lt hlt)]
    · rfl
  split at h
  · rename_i hlt
    simp only [Option.bind_eq_some] at h
    obtain ⟨w, -, h⟩ := h
    split at h <;> simp only [Option.some.injEq] at h <;> subst h <;>
      exact ⟨by simp [Fluid.Frame, Fluid.static, Fluid.shape], r, hr, by simp [hlt]⟩
  · rename_i hlt
    simp only [Option.some.injEq] at h
    subst h
    exact ⟨Fluid.Frame.frame_refl _, r, hr, by simp [hlt, Vec3.set_get_self, hset]⟩

theorem Fluid.Frame.lower_bound_eq {G : Type} {s s' : Fluid G} (h : Fluid.Frame s s') :
    s'.lower_bound = s.lower_bound := by
  have := h.1; simp only [Fluid.static, Prod.mk.injEq] at this; tauto

theorem Fluid.Frame.upper_bound_eq {G : Type} {s s' : Fluid G} (h : Fluid.Frame s s') :
    s'.upper_bound = s.upper_bound := by
  have := h.1; simp only [Fluid.static, Prod.mk.injEq] at this; tauto

theorem Fluid.Frame.num_particles_eq {G : Type} {s s' : Fluid G} (h : Fluid.Frame s s') :
    s'.num_particles = s.num_particles := by
  have := h.1; simp only [Fluid.static, Prod.mk.injEq] at this; tauto

theorem Fluid.Frame.neighbours_eq {G : Type} {s s' : Fluid G} (h : Fluid.Frame s s') :
    s'.neighbours = s.neighbours := by
  have := h.1; simp only [Fluid.static, Prod.mk.injEq] at this; tauto

theorem Fluid.Frame.x_new_length {G : Type} {s s' : Fluid G} (h : Fluid.Frame s s') :
    s'.x_new.length = s.x_new.length := by
  have := h.2; simp only [Fluid.shape, Prod.mk.injEq] at this; tauto

theorem Fluid.Frame.v_length {G : Type} {s s' : Fluid G} (h : Fluid.Frame s s') :
    s'.v.length = s.v.length := by
  have := h.2; simp only [Fluid.shape, Prod.mk.injEq] at this; tauto

theorem Fluid.clamp_axis_spec {G : Type} (p_i : Nat) (s : Fluid G) (axis : Nat) (s' : Fluid G)
    (h : Fluid.clamp_axis p_i s axis = some s') :
    Fluid.Frame s s' ∧ ∃ r, s.x_new[p_i]? = some r ∧
      s'.x_new = s.x_new.set p_i
        (r.set axis (clamp_coord s.lower_bound s.upper_bound (r.get axis))) := by
  simp only [Fluid.clamp_axis, Option.bind_eq_some] at h
  obtain ⟨s1, h1, h2⟩ := h
  obtain ⟨f1, r, hr, hx1⟩ := Fluid.clamp_lower_spec p_i s axis s1 h1
  obtain ⟨f2, r1, hr1, hx2⟩ := Fluid.clamp_upper_spec p_i s1 axis s' h2
  refine ⟨f1.frame_trans f2, r, hr, ?_⟩
  have hlt : p_i < s.x_new.length := by
    rcases List.getElem?_eq_some.1 hr with ⟨h, -⟩; exact h
  rw [hx1, List.getElem?_set_self hlt] at hr1
  simp only [Option.some.injEq] at hr1
  subst hr1
  rw [hx2, hx1, List.set_set, Vec3.set_set, Vec3.get_set, f1.upper_bound_eq]
  rfl

theorem Fluid.collision_body_spec {G : Type} (s : Fluid G) (p_i : Nat) (s' : Fluid G)
    (h : Fluid.collision_body s p_i = some s') :
    Fluid.Frame s s' ∧ ∃ r d, s.x_new[p_i]? = some r ∧ s.dP[p_i]? = some d ∧
      s'.x_new = s.x_new.set p_i
        (Vec3.clamp s.lower_bound s.upper_bound (r.add (Vec3.smul (5 / 1000) d))) := by
  simp only [Fluid.collision_body, Option.bind_eq_bind, Option.bind_eq_some, List.foldlM_cons,
    List.foldlM_nil, Option.pure_def] at h
  obtain ⟨r, hr, d, hd, s1, h1, s2, h2, s3, h3, h4⟩ := h
  simp only [Option.some.injEq] at h4
  subst h4
  have hlt : p_i < s.x_new.length := by
    rcases List.getElem?_eq_some.1 hr with ⟨h, -⟩; exact h
  obtain ⟨f1, r1, hr1, hx1⟩ := Fluid.clamp_axis_spec p_i _ 0 s1 h1
  obtain ⟨f2, r2, hr2, hx2⟩ := Fluid.clamp_axis_spec p_i s1 1 s2 h2
  obtain ⟨f3, r3, hr3, hx3⟩ := Fluid.clamp_axis_spec p_i s2 2 s3 h3
  have f0 : Fluid.Frame s { s with x_new := s.x_new.set p_i (r.add (Vec3.smul (5 / 1000) d)) } := by
    simp [Fluid.Frame, Fluid.static, Fluid.shape]
  refine ⟨((f0.frame_trans f1).frame_trans f2).frame_trans f3, r, d, hr, hd, ?_⟩
  simp only [List.getElem?_set_self hlt, Option.some.injEq] at hr1
  subst hr1
  simp only [List.set_set] at hx1
  rw [hx1, List.getElem?_set_self hlt] at hr2
  simp only [Option.some.injEq] at hr2
  subst hr2
  rw [hx2, hx1, List.set_set, List.getElem?_set_self hlt] at hr3
  simp only [Option.some.injEq] at hr3
  subst hr3
  rw [hx3, hx2, hx1, List.set_set, List.set_set, f2.lower_bound_eq, f2.upper_bound_eq,
    f1.lower_bound_eq, f1.upper_bound_eq]
  rfl

theorem clamp_coord_within (lo hi x : ℚ) (h : lo ≤ hi) :
    lo ≤ clamp_coord lo hi x ∧ clamp_coord lo hi x ≤ hi := by
  unfold clamp_coord
  by_cases h1 : x < lo
  · simp only [h1, if_true]
    by_cases h2 : lo > hi
    · exact absurd h (not_le.2 h2)
    · simp only [h2, if_false]; exact ⟨le_refl _, h⟩
  · simp only [h1, if_false]
    by_cases h2 : x > hi
    · simp only [h2, if_true]; exact ⟨h, le_refl _⟩
    · simp only [h2, if_false]; exact ⟨not_lt.1 h1, not_lt.1 h2⟩

theorem Vec3.clamp_within (lo hi : ℚ) (r : Vec3) (h : lo ≤ hi) :
    (Vec3.clamp lo hi r).Within lo hi :=
  ⟨clamp_coord_within lo hi r.x h, clamp_coord_within lo hi r.y h,
    clamp_coord_within lo hi r.z h⟩

theorem Fluid.collision_stage_spec {G : Type} (s s' : Fluid G)
    (h : Fluid.collision_stage s = some s') :
    Fluid.Frame s s' ∧
      (s.lower_bound ≤ s.upper_bound → s'.BoundedBelow s.num_particles.toNat) := by
  unfold Fluid.collision_stage at h
  have key := foldlM_range_inv
    (fun k x => Fluid.Frame s x ∧ (s.lower_bound ≤ s.upper_bound → x.BoundedBelow k))
    Fluid.collision_body s.num_particles.toNat ?_ s s'
    ⟨Fluid.Frame.frame_refl s, fun _ p r hp => absurd hp (Nat.not_lt_zero p)⟩ h
  · exact key
  · intro k x x' _ hx hb
    obtain ⟨f, r, d, hr, -, hx'⟩ := Fluid.collision_body_spec x k x' hb
    refine ⟨hx.1.frame_trans f, fun hle p q hp hq => ?_⟩
    have hlo : x'.lower_bound = x.lower_bound := f.lower_bound_eq
    have hhi : x'.upper_bound = x.upper_bound := f.upper_bound_eq
    have hlo0 : x.lower_bound = s.lower_bound := hx.1.lower_bound_eq
    have hhi0 : x.upper_bound = s.upper_bound := hx.1.upper_bound_eq
    have hlt : k < x.x_new.length := by
      rcases List.getElem?_eq_some.1 hr with ⟨h, -⟩; exact h
    rw [hx'] at hq
    rw [hlo, hhi]
    by_cases hpk : p = k
    · subst hpk
      rw [List.getElem?_set_self hlt] at hq
      simp only [Option.some.injEq] at hq
      subst hq
      exact Vec3.clamp_within _ _ _ (by rw [hlo0, hhi0]; exact hle)
    · rw [List.getElem?_set_ne (Ne.symm hpk)] at hq
      exact hx.2 hle p q (by omega) hq

theorem Fluid.jacobi_iteration_spec {G : Type} (E : Env G) (s : Fluid G) (i : Nat) (s' : Fluid G)
    (h : Fluid.jacobi_iteration E s i = some s') :
    Fluid.Frame s s' ∧
      (s.lower_bound ≤ s.upper_bound → s'.BoundedBelow s.num_particles.toNat) := by
  simp only [Fluid.jacobi_iteration, Option.bind_eq_some] at h
  obtain ⟨s2, ⟨s1, h1, h2⟩, h3⟩ := h
  have k1 := Fluid.constraint_stage_keeps E i s s1 h1
  have k2 := Fluid.dP_stage_keeps E i s1 s2 h2
  obtain ⟨f3, hb⟩ := Fluid.collision_stage_spec s2 s' h3
  have f12 := k1.1.frame_trans k2.1
  rw [f12.lower_bound_eq, f12.upper_bound_eq, f12.num_particles_eq] at hb
  exact ⟨f12.frame_trans f3, hb⟩

theorem Fluid.jacobi_loop_spec {G : Type} (E : Env G) (s : Fluid G) (n : Nat) (s' : Fluid G)
    (h : (List.range n).foldlM (Fluid.jacobi_iteration E) s = some s') :
    Fluid.Frame s s' ∧
      (1 ≤ n → s.lower_bound ≤ s.upper_bound → s'.BoundedBelow s.num_particles.toNat) := by
  have key := foldlM_range_inv
    (fun k x => Fluid.Frame s x ∧
      (1 ≤ k → s.lower_bound ≤ s.upper_bound → x.BoundedBelow s.num_particles.toNat))
    (Fluid.jacobi_iteration E) n ?_ s s' ⟨Fluid.Frame.frame_refl s, fun h0 => absurd h0 (by decide)⟩ h
  · exact key
  · intro k x x' _ hx hb
    obtain ⟨f, hbd⟩ := Fluid.jacobi_iteration_spec E x k x' hb
    rw [hx.1.lower_bound_eq, hx.1.upper_bound_eq, hx.1.num_particles_eq] at hbd
    exact ⟨hx.1.frame_trans f, fun _ hle => hbd hle⟩

/-! ## Every access of an iteration is inside its container -/

theorem Fluid.Ready.of_frame {G : Type} {s s' : Fluid G} (hr : s.Ready) (hf : Fluid.Frame s s') :
    s'.Ready := by
  obtain ⟨h1, h2⟩ := hf
  simp only [Fluid.static, Fluid.shape, Prod.mk.injEq] at h1 h2
  obtain ⟨hN, -, -, -, -, -, -, -, -, -, -, -, -, -, hnb, hgf, -⟩ := h1
  obtain ⟨a1, a2, a3, a4, a5, a6, a7⟩ := h2
  unfold Fluid.Ready Fluid.Sized at *
  rw [hN, hnb, hgf, a1, a2, a3, a4, a5, a6, a7]
  exact hr

theorem IndicesBelow.of_getElem? {n : Nat} {nb : List (List Int)} (h : IndicesBelow n nb)
    {i : Nat} {l : List Int} (hl : nb[i]? = some l) {j : Int} (hj : j ∈ l) :
    0 ≤ j ∧ j.toNat < n := by
  have := h l (List.getElem?_mem hl) j hj
  omega

theorem Fluid.c_grad_self_isSome {G : Type} (E : Env G) (s : Fluid G) (x_i : Vec3)
    (nb : List Int) (h : ∀ j ∈ nb, 0 ≤ j ∧ j.toNat < s.x_new.length) :
    ∃ g, Fluid.c_grad_self E s x_i nb = some g := by
  unfold Fluid.c_grad_self
  obtain ⟨g, hg, -⟩ := foldlM_isSome_inv (fun _ => True)
    (fun acc p_k =>
      (row? s.x_new p_k).map (fun x_k => acc.add (E.kernel_spiky x_i x_k s.kernel_h)))
    nb (fun acc a ha _ => by
    obtain ⟨x_k, hk⟩ := row?_isSome s.x_new a (h a ha).1 (by have := (h a ha).2; omega)
    simp [hk]) Vec3.zero trivial
  exact ⟨g, hg⟩

theorem Fluid.c_grad_temp_isSome {G : Type} (E : Env G) (s : Fluid G) (hr : s.Ready)
    (p_i : Nat) (p_j : Int) (hp : p_i < s.num_particles.toNat)
    (hj : 0 ≤ p_j ∧ p_j.toNat < s.num_particles.toNat) :
    ∃ g, Fluid.c_grad_temp E s p_i p_j = some g := by
  obtain ⟨-, hx, hn, hidx⟩ := hr
  obtain ⟨x_i, hxi⟩ := getElem?_isSome s.x_new p_i (by omega)
  obtain ⟨x_j, hxj⟩ := row?_isSome s.x_new p_j hj.1 (by omega)
  obtain ⟨nb, hnb⟩ := getElem?_isSome s.neighbours p_i (by omega)
  obtain ⟨g, hg⟩ := Fluid.c_grad_self_isSome E s x_i nb
    (fun j hjm => by have := hidx.of_getElem? hnb hjm; omega)
  unfold Fluid.c_grad_temp
  by_cases he : (p_i : Int) = p_j
  · exact ⟨g, by simp [hxi, he, hnb, hg]⟩
  · simp [hxi, he, hxj]

theorem Fluid.density_body_isSome {G : Type} (E : Env G) (s : Fluid G) (hr : s.Ready)
    (i p_i : Nat) (p_j : Int) (hi : i < s.num_particles.toNat)
    (hp : p_i < s.num_particles.toNat)
    (hj : 0 ≤ p_j ∧ p_j.toNat < s.num_particles.toNat) :
    ∃ s', Fluid.density_body E i p_i s p_j = some s' := by
  obtain ⟨g_temp, hgt⟩ := Fluid.c_grad_temp_isSome E s hr p_i p_j hp hj
  obtain ⟨⟨-, -, hden, -, -, hg, -⟩, hx, -, -⟩ := hr
  obtain ⟨x_i, hxi⟩ := getElem?_isSome s.x_new p_i (by omega)
  obtain ⟨x_j, hxj⟩ := row?_isSome s.x_new p_j hj.1 (by omega)
  obtain ⟨d, hd⟩ := getElem?_isSome s.density p_i (by omega)
  obtain ⟨g, hgn⟩ := getElem?_isSome s.c_grad_norm i (by omega)
  simp [Fluid.density_body, hxi, hxj, hd, hgt, hgn]

theorem Fluid.constraint_body_isSome {G : Type} (E : Env G) (s : Fluid G) (hr : s.Ready)
    (i p_i : Nat) (hi : i < s.num_particles.toNat) (hp : p_i < s.num_particles.toNat) :
    ∃ s', Fluid.constraint_body E i s p_i = some s' := by
  obtain ⟨nb, hnb⟩ := getElem?_isSome s.neighbours i (by rw [hr.2.2.1]; exact hi)
  obtain ⟨s1, h1, f1⟩ := foldlM_isSome_inv (fun x => Fluid.Frame s x)
    (Fluid.density_body E i p_i) nb (fun x a ha hx => by
      have hN := hx.num_particles_eq
      obtain ⟨x', hx'⟩ := Fluid.density_body_isSome E x (hr.of_frame hx) i p_i a
        (by rw [hN]; exact hi) (by rw [hN]; exact hp)
        (by rw [hN]; exact hr.2.2.2.of_getElem? hnb ha)
      exact ⟨x', hx', hx.frame_trans (Fluid.density_body_keeps E i p_i x a x' hx').1⟩) s
    (Fluid.Frame.frame_refl s)
  have hN := f1.num_particles_eq
  obtain ⟨⟨-, -, hden, hc, hl, hg, -⟩, -, -, -⟩ := hr.of_frame f1
  obtain ⟨d, hd⟩ := getElem?_isSome s1.density p_i (by omega)
  obtain ⟨g, hgn⟩ := getElem?_isSome s1.c_grad_norm p_i (by omega)
  have hc1 : p_i < s1.c.length := by omega
  have hl1 : p_i < s1.lambda.length := by omega
  simp [Fluid.constraint_body, hnb, h1, hd, hgn, setRow, hc1, hl1]

theorem Fluid.range_loop_isSome {G : Type} (f : Fluid G → Nat → Option (Fluid G)) (n : Nat)
    (s : Fluid G) (hr : s.Ready)
    (hf : ∀ x, x.Ready → Fluid.Frame s x → ∀ k, k < n →
      ∃ x', f x k = some x' ∧ Fluid.Frame x x') :
    ∃ s', (List.range n).foldlM f s = some s' ∧ Fluid.Frame s s' :=
  foldlM_isSome_inv (fun x => Fluid.Frame s x) f (List.range n) (fun x k hk hx => by
    obtain ⟨x', h1, h2⟩ := hf x (hr.of_frame hx) hx k (List.mem_range.1 hk)
    exact ⟨x', h1, hx.frame_trans h2⟩) s (Fluid.Frame.frame_refl s)

theorem Fluid.constraint_stage_isSome {G : Type} (E : Env G) (s : Fluid G) (hr : s.Ready)
    (i : Nat) (hi : i < s.num_particles.toNat) :
    ∃ s', Fluid.constraint_stage E i s = some s' := by
  unfold Fluid.constraint_stage
  have f0 : Fluid.Frame s { s with
      density := s.density.map (fun _ => 0)
      lambda := s.lambda.map (fun _ => 0)
      c_grad_norm := s.c_grad_norm.map (fun _ => 0) } := by
    simp [Fluid.Frame, Fluid.static, Fluid.shape]
  obtain ⟨s', h, -⟩ := Fluid.range_loop_isSome (Fluid.constraint_body E i)
    s.num_particles.toNat _ (hr.of_frame f0) (fun x hx fx k hk => by
      have hN : x.num_particles = s.num_particles := fx.num_particles_eq
      obtain ⟨x', hx'⟩ := Fluid.constraint_body_isSome E x hx i k
        (by rw [hN]; exact hi) (by rw [hN]; exact hk)
      exact ⟨x', hx', (Fluid.constraint_body_keeps E i x k x' hx').1⟩)
  exact ⟨s', h⟩

theorem Fluid.dP_term_isSome {G : Type} (E : Env G) (s : Fluid G) (hr : s.Ready)
    (p_i : Nat) (p_j : Int) (hp : p_i < s.num_particles.toNat)
    (hj : 0 ≤ p_j ∧ p_j.toNat < s.num_particles.toNat) :
    ∃ s', Fluid.dP_term E p_i s p_j = some s' := by
  obtain ⟨⟨-, hdP, -, -, hl, -, -⟩, hx, -, -⟩ := hr
  obtain ⟨x_i, hxi⟩ := getElem?_isSome s.x_new p_i (by omega)
  obtain ⟨x_j, hxj⟩ := row?_isSome s.x_new p_j hj.1 (by omega)
  obtain ⟨l_i, hli⟩ := getElem?_isSome s.lambda p_i (by omega)
  obtain ⟨l_j, hlj⟩ := row?_isSome s.lambda p_j hj.1 (by omega)
  obtain ⟨d, hd⟩ := getElem?_isSome s.dP p_i (by omega)
  simp [Fluid.dP_term, hxi, hxj, hli, hlj, hd]

theorem Fluid.dP_body_isSome {G : Type} (E : Env G) (s : Fluid G) (hr : s.Ready)
    (i p_i : Nat) (hi : i < s.num_particles.toNat) (hp : p_i < s.num_particles.toNat) :
    ∃ s', Fluid.dP_body E i s p_i = some s' := by
  obtain ⟨nb, hnb⟩ := getElem?_isSome s.neighbours i (by rw [hr.2.2.1]; exact hi)
  obtain ⟨s1, h1, f1⟩ := foldlM_isSome_inv (fun x => Fluid.Frame s x)
    (Fluid.dP_term E p_i) nb (fun x a ha hx => by
      have hN := hx.num_particles_eq
      obtain ⟨x', hx'⟩ := Fluid.dP_term_isSome E x (hr.of_frame hx) p_i a
        (by rw [hN]; exact hp) (by rw [hN]; exact hr.2.2.2.of_getElem? hnb ha)
      exact ⟨x', hx', hx.frame_trans (Fluid.dP_term_keeps E p_i x a x' hx').1⟩) s
    (Fluid.Frame.frame_refl s)
  have hN := f1.num_particles_eq
  obtain ⟨⟨-, hdP, -, -, -, -, -⟩, -, -, -⟩ := hr.of_frame f1
  obtain ⟨d, hd⟩ := getElem?_isSome s1.dP p_i (by omega)
  simp [Fluid.dP_body, hnb, h1, hd]

theorem Fluid.dP_stage_isSome {G : Type} (E : Env G) (s : Fluid G) (hr : s.Ready)
    (i : Nat) (hi : i < s.num_particles.toNat) :
    ∃ s', Fluid.dP_stage E i s = some s' := by
  unfold Fluid.dP_stage
  have f0 : Fluid.Frame s { s with dP := s.dP.map (fun _ => Vec3.zero) } := by
    simp [Fluid.Frame, Fluid.static, Fluid.shape]
  obtain ⟨s', h, -⟩ := Fluid.range_loop_isSome (Fluid.dP_body E i)
    s.num_particles.toNat _ (hr.of_frame f0) (fun x hx fx k hk => by
      have hN : x.num_particles = s.num_particles := fx.num_particles_eq
      obtain ⟨x', hx'⟩ := Fluid.dP_body_isSome E x hx i k
        (by rw [hN]; exact hi) (by rw [hN]; exact hk)
      exact ⟨x', hx', (Fluid.dP_body_keeps E i x k x' hx').1⟩)
  exact ⟨s', h⟩

theorem Fluid.clamp_lower_isSome {G : Type} (p_i : Nat) (s : Fluid G) (axis : Nat)
    (hx : p_i < s.x_new.length) (hv : p_i < s.v.length) :
    ∃ s', Fluid.clamp_lower p_i s axis = some s' := by
  obtain ⟨r, hr⟩ := getElem?_isSome s.x_new p_i hx
  obtain ⟨w, hw⟩ := getElem?_isSome s.v p_i hv
  unfold Fluid.clamp_lower
  simp only [hr, hw, Option.bind_eq_bind, Option.some_bind]
  split
  · split <;> exact ⟨_, rfl⟩
  · exact ⟨_, rfl⟩

theorem Fluid.clamp_upper_isSome {G : Type} (p_i : Nat) (s : Fluid G) (axis : Nat)
    (hx : p_i < s.x_new.length) (hv : p_i < s.v.length) :
    ∃ s', Fluid.clamp_upper p_i s axis = some s' := by
  obtain ⟨r, hr⟩ := getElem?_isSome s.x_new p_i hx
  obtain ⟨w, hw⟩ := getElem?_isSome s.v p_i hv
  unfold Fluid.clamp_upper
  simp only [hr, hw, Option.bind_eq_bind, Option.some_bind]
  split
  · split <;> exact ⟨_, rfl⟩
  · exact ⟨_, rfl⟩

theorem Fluid.clamp_axis_isSome {G : Type} (p_i : Nat) (s : Fluid G) (axis : Nat)
    (hx : p_i < s.x_new.length) (hv : p_i < s.v.length) :
    ∃ s', Fluid.clamp_axis p_i s axis = some s' := by
  obtain ⟨s1, h1⟩ := Fluid.clamp_lower_isSome p_i s axis hx hv
  have f1 := (Fluid.clamp_lower_spec p_i s axis s1 h1).1
  obtain ⟨s2, h2⟩ := Fluid.clamp_upper_isSome p_i s1 axis
    (by rw [f1.x_new_length]; exact hx) (by rw [f1.v_length]; exact hv)
  exact ⟨s2, by simp [Fluid.clamp_axis, h1, h2]⟩

theorem Fluid.collision_body_isSome {G : Type} (s : Fluid G) (hr : s.Ready) (p_i : Nat)
    (hp : p_i < s.num_particles.toNat) :
    ∃ s', Fluid.collision_body s p_i = some s' := by
  obtain ⟨⟨hv, hdP, -, -, -, -, -⟩, hx, -, -⟩ := hr
  obtain ⟨r, hxr⟩ := getElem?_isSome s.x_new p_i (by omega)
  obtain ⟨d, hd⟩ := getElem?_isSome s.dP p_i (by omega)
  obtain ⟨s1, h1⟩ := Fluid.clamp_axis_isSome p_i
    { s with x_new := s.x_new.set p_i (r.add (Vec3.smul (5 / 1000) d)) } 0
    (by simp; omega) (by simp; omega)
  have f1 := (Fluid.clamp_axis_spec p_i _ 0 s1 h1).1
  obtain ⟨s2, h2⟩ := Fluid.clamp_axis_isSome p_i s1 1
    (by rw [f1.x_new_length]; simp; omega) (by rw [f1.v_length]; simp; omega)
  have f2 := (Fluid.clamp_axis_spec p_i _ 1 s2 h2).1
  obtain ⟨s3, h3⟩ := Fluid.clamp_axis_isSome p_i s2 2
    (by rw [f2.x_new_length, f1.x_new_length]; simp; omega)
    (by rw [f2.v_length, f1.v_length]; simp; omega)
  exact ⟨s3, by simp [Fluid.collision_body, hxr, hd, h1, h2, h3]⟩

theorem Fluid.collision_stage_isSome {G : Type} (s : Fluid G) (hr : s.Ready) :
    ∃ s', Fluid.collision_stage s = some s' := by
  unfold Fluid.collision_stage
  obtain ⟨s', h, -⟩ := Fluid.range_loop_isSome Fluid.collision_body
    s.num_particles.toNat s hr (fun x hx fx k hk => by
      have hN : x.num_particles = s.num_particles := fx.num_particles_eq
      obtain ⟨x', hx'⟩ := Fluid.collision_body_isSome x hx k (by rw [hN]; exact hk)
      exact ⟨x', hx', (Fluid.collision_body_spec x k x' hx').1⟩)
  exact ⟨s', h⟩

theorem Fluid.jacobi_iteration_isSome {G : Type} (E : Env G) (s : Fluid G) (hr : s.Ready)
    (i : Nat) (hi : i < s.num_particles.toNat) :
    ∃ s', Fluid.jacobi_iteration E s i = some s' := by
  obtain ⟨s1, h1⟩ := Fluid.constraint_stage_isSome E s hr i hi
  have f1 := (Fluid.constraint_stage_keeps E i s s1 h1).1
  obtain ⟨s2, h2⟩ := Fluid.dP_stage_isSome E s1 (hr.of_frame f1) i
    (by rw [f1.num_particles_eq]; exact hi)
  have f2 := (Fluid.dP_stage_keeps E i s1 s2 h2).1
  obtain ⟨s3, h3⟩ := Fluid.collision_stage_isSome s2 ((hr.of_frame f1).of_frame f2)
  exact ⟨s3, by simp [Fluid.jacobi_iteration, h1, h2, h3]⟩

theorem Fluid.jacobi_loop_isSome {G : Type} (E : Env G) (s : Fluid G) (hr : s.Ready)
    (n : Nat) (hn : n ≤ s.num_particles.toNat) :
    ∃ s', (List.range n).foldlM (Fluid.jacobi_iteration E) s = some s' := by
  obtain ⟨s', h, -⟩ := Fluid.range_loop_isSome (Fluid.jacobi_iteration E) n s hr
    (fun x hx fx k hk => by
      have hN : x.num_particles = s.num_particles := fx.num_particles_eq
      obtain ⟨x', hx'⟩ := Fluid.jacobi_iteration_isSome E x hx k (by rw [hN]; omega)
      exact ⟨x', hx', (Fluid.jacobi_iteration_spec E x k x' hx').1⟩)
  exact ⟨s', h⟩

/-! ## The whole step -/

theorem Fluid.apply_forces_eq_some {G : Type} (E : Env G) (s : Fluid G) (fluid_state : Mat)
    (s1 : Fluid G) :
    Fluid.apply_forces E s fluid_state = some s1 ↔
      s.v.length = s.gravity_f.length ∧ fluid_state.length = s.v.length ∧
      s1 = { s with
        v := List.zipWith (fun (r : Vec3) g => { r with y := r.y - s.particle_mass * g })
          s.v s.gravity_f
        x_new := List.zipWith (fun a b => Vec3.add a (Vec3.smul s.dt b)) fluid_state
          (List.zipWith (fun (r : Vec3) g => { r with y := r.y - s.particle_mass * g })
            s.v s.gravity_f)
        grid := (E.grid_findNeighbours s.grid
          (List.zipWith (fun a b => Vec3.add a (Vec3.smul s.dt b)) fluid_state
            (List.zipWith (fun (r : Vec3) g => { r with y := r.y - s.particle_mass * g })
              s.v s.gravity_f)) s.neighbours).1
        neighbours := (E.grid_findNeighbours s.grid
          (List.zipWith (fun a b => Vec3.add a (Vec3.smul s.dt b)) fluid_state
            (List.zipWith (fun (r : Vec3) g => { r with y := r.y - s.particle_mass * g })
              s.v s.gravity_f)) s.neighbours).2 } := by
  simp only [Fluid.apply_forces, Option.bind_eq_bind, Option.bind_eq_some, zipSame_eq_some,
    Option.some.injEq]
  constructor
  · rintro ⟨v1, ⟨h1, rfl⟩, x1, ⟨h2, rfl⟩, rfl⟩
    refine ⟨h1, ?_, rfl⟩
    simpa [h1] using h2
  · rintro ⟨h1, h2, rfl⟩
    exact ⟨_, ⟨h1, rfl⟩, _, ⟨by simpa [h1] using h2, rfl⟩, rfl⟩

theorem Fluid.step_eq_some {G : Type} (E : Env G) (s : Fluid G) (fluid_state colors : Mat)
    (out : Fluid G × Mat × Mat) :
    Fluid.step E s fluid_state colors = some out ↔
      ∃ s1 s2 colors1, Fluid.apply_forces E s fluid_state = some s1 ∧
        (List.range s1.jacobi_iterations.toNat).foldlM (Fluid.jacobi_iteration E) s1 = some s2 ∧
        s2.x_new.length = fluid_state.length ∧
        Fluid.debug_colors s2 colors = some colors1 ∧
        out = ({ s2 with
            v := List.zipWith (fun a b => (Vec3.sub a b).sdiv s2.dt) s2.x_new fluid_state
            grid := E.grid_update s2.grid s2.x_new
            t := s2.t + s2.dt }, s2.x_new, colors1) := by
  simp only [Fluid.step, Option.bind_eq_bind, Option.bind_eq_some, zipSame_eq_some,
    Option.some.injEq]
  constructor
  · rintro ⟨s1, h1, s2, h2, v2, ⟨h3, rfl⟩, colors1, h4, rfl⟩
    exact ⟨s1, s2, colors1, h1, h2, h3, h4, rfl⟩
  · rintro ⟨s1, s2, colors1, h1, h2, h3, h4, rfl⟩
    exact ⟨s1, h1, s2, h2, _, ⟨h3, rfl⟩, colors1, h4, rfl⟩

theorem Fluid.debug_colors_isSome {G : Type} (s : Fluid G) (colors : Mat)
    (hN : 1 ≤ s.num_particles) (hc : colors.length = s.num_particles.toNat)
    (hn : s.neighbours.length = s.num_particles.toNat)
    (hidx : IndicesBelow s.num_particles.toNat s.neighbours) :
    ∃ colors1, Fluid.debug_colors s colors = some colors1 := by
  have h0 : 0 < colors.length := by omega
  obtain ⟨c1, hc1, hl1⟩ := foldlM_isSome_inv
    (fun (cs : Mat) => cs.length = s.num_particles.toNat)
    (fun cs i => setRow cs i ⟨0, 0, 1⟩) (List.range' 1 (s.num_particles.toNat - 1))
    (fun cs i hi hcs => by
      have : i < cs.length := by
        have := List.mem_range'_1.1 hi
        omega
      exact ⟨cs.set i ⟨0, 0, 1⟩, by simp [setRow, this], by simpa using hcs⟩)
    (colors.set 0 ⟨1, 0, 0⟩) (by simpa using hc)
  obtain ⟨nb, hnb⟩ := getElem?_isSome s.neighbours 0 (by omega)
  obtain ⟨c2, hc2, -⟩ := foldlM_isSome_inv
    (fun (cs : Mat) => cs.length = s.num_particles.toNat)
    (fun cs (n_idx : Int) => if n_idx ≠ 0 then setRowI cs n_idx ⟨0, 1, 0⟩ else some cs) nb
    (fun cs j hj hcs => by
      have hb := hidx.of_getElem? hnb hj
      by_cases h0 : j = 0
      · exact ⟨cs, by simp [h0], hcs⟩
      · have : j.toNat < cs.length := by omega
        exact ⟨cs.set j.toNat ⟨0, 1, 0⟩, by simp [h0, setRowI, setRow, hb.1, this],
          by simpa using hcs⟩)
    c1 hl1
  have e0 : setRow colors 0 ⟨1, 0, 0⟩ = some (colors.set 0 ⟨1, 0, 0⟩) := by simp [setRow, h0]
  refine ⟨c2, ?_⟩
  unfold Fluid.debug_colors
  simp only [e0, hnb, Option.bind_eq_bind, Option.some_bind, hc1, hc2]

theorem Fluid.step_isSome {G : Type} (E : Env G) (s : Fluid G) (fluid_state colors : Mat)
    (h : Fluid.StepInBounds E s fluid_state colors) :
    ∃ out, Fluid.step E s fluid_state colors = some out := by
  obtain ⟨hN, hs, hfs, hcol, hK, hq⟩ := h
  obtain ⟨hv, hdP, hden, hc, hl, hg, hgf⟩ := hs
  have ha := (Fluid.apply_forces_eq_some E s fluid_state _).2 ⟨by omega, by omega, rfl⟩
  obtain ⟨hnl, hidx⟩ := hq _ ha
  generalize hs1 : ({ s with
      v := List.zipWith (fun (r : Vec3) g => { r with y := r.y - s.particle_mass * g })
        s.v s.gravity_f
      x_new := List.zipWith (fun a b => Vec3.add a (Vec3.smul s.dt b)) fluid_state
        (List.zipWith (fun (r : Vec3) g => { r with y := r.y - s.particle_mass * g })
          s.v s.gravity_f)
      grid := (E.grid_findNeighbours s.grid
        (List.zipWith (fun a b => Vec3.add a (Vec3.smul s.dt b)) fluid_state
          (List.zipWith (fun (r : Vec3) g => { r with y := r.y - s.particle_mass * g })
            s.v s.gravity_f)) s.neighbours).1
      neighbours := (E.grid_findNeighbours s.grid
        (List.zipWith (fun a b => Vec3.add a (Vec3.smul s.dt b)) fluid_state
          (List.zipWith (fun (r : Vec3) g => { r with y := r.y - s.particle_mass * g })
            s.v s.gravity_f)) s.neighbours).2 } : Fluid G) = s1 at ha hnl hidx
  have e1 : s1.num_particles = s.num_particles := by subst hs1; rfl
  have e2 : s1.jacobi_iterations = s.jacobi_iterations := by subst hs1; rfl
  have hr1 : s1.Ready := by
    refine ⟨⟨?_, ?_, ?_, ?_, ?_, ?_, ?_⟩, ?_, ?_, ?_⟩ <;> rw [e1]
    · subst hs1; simp; omega
    · subst hs1; exact hdP
    · subst hs1; exact hden
    · subst hs1; exact hc
    · subst hs1; exact hl
    · subst hs1; exact hg
    · subst hs1; exact hgf
    · subst hs1; simp; omega
    · exact hnl
    · exact hidx
  obtain ⟨s2, h2⟩ := Fluid.jacobi_loop_isSome E s1 hr1 s1.jacobi_iterations.toNat
    (by rw [e1, e2]; omega)
  have f2 := (Fluid.jacobi_loop_spec E s1 _ s2 h2).1
  have hr2 := hr1.of_frame f2
  have e3 : s2.num_particles = s.num_particles := by rw [f2.num_particles_eq, e1]
  obtain ⟨colors1, h3⟩ := Fluid.debug_colors_isSome s2 colors (by rw [e3]; exact hN)
    (by rw [e3]; exact hcol) hr2.2.2.1 hr2.2.2.2
  exact ⟨_, (Fluid.step_eq_some E s fluid_state colors _).2
    ⟨s1, s2, colors1, ha, h2, by rw [hr2.2.1, e3]; omega, h3, rfl⟩⟩
/-! ## C1: the boundary clamp without a Jacobi iteration, and on a NaN -/

/-- C2: with `jacobi_iterations = 0`, row `p` of the position buffer after `step` is the row
before the step plus `dt` times the velocity after the gravity update, whose `y` component
is the old one minus `particle_mass * gravity_f[p]` and whose `x` and `z` components are the
old ones; nothing else (no correction, no clamp) is applied.  The step returns when all its
accesses are in bounds. -/
theorem step_zero_iterations {G : Type} (E : Env G) (s : Fluid G) (fluid_state colors : Mat)
    (hK : s.jacobi_iterations = 0) :
    (Fluid.StepInBounds E s fluid_state colors →
      ∃ out, Fluid.step E s fluid_state colors = some out) ∧
    ∀ out, Fluid.step E s fluid_state colors = some out →
      out.2.1.length = fluid_state.length ∧
      ∀ (p : Nat) (x w : Vec3) (g : ℚ), fluid_state[p]? = some x → s.v[p]? = some w →
        s.gravity_f[p]? = some g →
        out.2.1[p]? = some (Vec3.mk (x.x + s.dt * w.x)
          (x.y + s.dt * (w.y - s.particle_mass * g)) (x.z + s.dt * w.z)) := by
  refine ⟨Fluid.step_isSome E s fluid_state colors, fun out h => ?_⟩
  obtain ⟨s1, s2, colors1, h1, h2, h3, -, rfl⟩ := (Fluid.step_eq_some E s fluid_state colors out).1 h
  obtain ⟨-, -, hs1⟩ := (Fluid.apply_forces_eq_some E s fluid_state s1).1 h1
  have e1 : s1.jacobi_iterations = 0 := by rw [hs1]; exact hK
  rw [e1] at h2
  simp only [Int.toNat_zero, List.range_zero, List.foldlM_nil, Option.pure_def,
    Option.some.injEq] at h2
  subst h2
  refine ⟨h3, fun p x w g hx hw hg => ?_⟩
  show s1.x_new[p]? = _
  rw [hs1]
  simp [List.getElem?_zipWith, hx, hw, hg, Vec3.add, Vec3.smul]

/-- C2, evaluated: one particle at `(1, 2, 3)` with velocity zero, no Jacobi iteration. -/
theorem step_zero_iterations_witness :
    ∃ s out, exampleStart 1 0 [⟨1, 2, 3⟩] = some s ∧
      Fluid.step (exampleEnv (search_neighbours 1)) s [⟨1, 2, 3⟩] [⟨0, 0, 0⟩] = some out ∧
      out.2.1.length = 1 ∧
      ∀ (p : Nat) (x w : Vec3) (g : ℚ), [(⟨1, 2, 3⟩ : Vec3)][p]? = some x → s.v[p]? = some w →
        s.gravity_f[p]? = some g →
        out.2.1[p]? = some (Vec3.mk (x.x + s.dt * w.x)
          (x.y + s.dt * (w.y - s.particle_mass * g)) (x.z + s.dt * w.z)) := by
  have h : ((exampleStart 1 0 [⟨1, 2, 3⟩]).bind fun s =>
      if s.jacobi_iterations = 0 ∧
        Fluid.StepInBounds (exampleEnv (search_neighbours 1)) s [⟨1, 2, 3⟩] [⟨0, 0, 0⟩]
      then some () else none) = some () := by
    with_unfolding_all decide
  simp only [Option.bind_eq_some] at h
  obtain ⟨s, hs, hc⟩ := h
  split at hc
  · rename_i hc'
    have key := step_zero_iterations (exampleEnv (search_neighbours 1)) s
      [⟨1, 2, 3⟩] [⟨0, 0, 0⟩] hc'.1
    obtain ⟨out, ho⟩ := key.1 hc'.2
    exact ⟨s, out, hs, ho, key.2 out ho⟩
  · cases hc

set_option maxRecDepth 100000 in
/-- C4 fails on the code: three particles at `x = 0`, `x = 5` and `x = 11/2` with smoothing
radius 1 have the neighbour lists `[0]`, `[1, 2]`, `[1, 2]`.  In Jacobi iteration 0 the
constraint stage walks `neighbours[0]` for every particle, so the density of particle 1 comes
out as `0` (and `c = -1`), where the sum over its own list `[1, 2]` is `91/64`. -/
theorem density_walks_list_of_iteration :
    ∃ s s1 s2, exampleStart 3 1 [⟨0, 0, 0⟩, ⟨5, 0, 0⟩, ⟨11 / 2, 0, 0⟩] = some s ∧
      Fluid.apply_forces (exampleEnv (search_neighbours 1)) s
        [⟨0, 0, 0⟩, ⟨5, 0, 0⟩, ⟨11 / 2, 0, 0⟩] = some s1 ∧
      Fluid.constraint_stage (exampleEnv (search_neighbours 1)) 0 s1 = some s2 ∧
      s1.neighbours = [[0], [1, 2], [1, 2]] ∧
      s2.density = [1, 0, 0] ∧ s2.c = [0, -1, -1] ∧
      Fluid.spec_density (exampleEnv (search_neighbours 1)) s1 1 = 91 / 64 := by
  have h : ((exampleStart 3 1 [⟨0, 0, 0⟩, ⟨5, 0, 0⟩, ⟨11 / 2, 0, 0⟩]).bind fun s =>
      (Fluid.apply_forces (exampleEnv (search_neighbours 1)) s
        [⟨0, 0, 0⟩, ⟨5, 0, 0⟩, ⟨11 / 2, 0, 0⟩]).bind fun s1 =>
      (Fluid.constraint_stage (exampleEnv (search_neighbours 1)) 0 s1).bind fun s2 =>
        if s1.neighbours = [[0], [1, 2], [1, 2]] ∧
          s2.density = [1, 0, 0] ∧ s2.c = [0, -1, -1] ∧
          Fluid.spec_density (exampleEnv (search_neighbours 1)) s1 1 = 91 / 64
        then some () else none) = some () := by
    with_unfolding_all decide
  simp only [Option.bind_eq_some] at h
  obtain ⟨s, hs, s1, h1, s2, h2, hc⟩ := h
  split at hc
  · rename_i hc'
    exact ⟨s, s1, s2, hs, h1, h2, hc'⟩
  · cases hc

theorem Vec3.add_add (a b c : Vec3) : (a.add b).add c = a.add (b.add c) := by
  cases a; cases b; cases c; simp [Vec3.add, add_assoc]

theorem Vec3.add_zero_right (a : Vec3) : a.add Vec3.zero = a := by
  cases a; simp [Vec3.add, Vec3.zero]

theorem Vec3.add_zero_left (a : Vec3) : Vec3.zero.add a = a := by
  cases a; simp [Vec3.add, Vec3.zero]

theorem Fluid.pos_of_getElem? {G : Type} (s : Fluid G) (p : Nat) (x : Vec3)
    (h : s.x_new[p]? = some x) : s.pos (p : Int) = x := by
  simp [Fluid.pos, row?, h]

theorem Fluid.pos_of_row? {G : Type} (s : Fluid G) (q : Int) (x : Vec3)
    (h : row? s.x_new q = some x) : s.pos q = x := by
  simp [Fluid.pos, h]

theorem Fluid.spiky_fold_eq {G : Type} (E : Env G) (s : Fluid G) (x_i : Vec3) (nb : List Int) :
    ∀ (a g : Vec3),
      nb.foldlM (fun acc p_k =>
        (row? s.x_new p_k).map (fun x_k => acc.add (E.kernel_spiky x_i x_k s.kernel_h))) a
        = some g →
      g = a.add (Vec3.sum (nb.map (fun k => E.kernel_spiky x_i (s.pos k) s.kernel_h))) := by
  induction nb with
  | nil =>
    intro a g h
    simp only [List.foldlM_nil, Option.pure_def, Option.some.injEq] at h
    simp [Vec3.sum, Vec3.add_zero_right, h]
  | cons k nb ih =>
    intro a g h
    simp only [List.foldlM_cons, Option.bind_eq_bind, Option.bind_eq_some,
      Option.map_eq_some'] at h
    obtain ⟨a1, ⟨x_k, hk, rfl⟩, h2⟩ := h
    rw [ih _ g h2, Vec3.add_add]
    simp [Vec3.sum, Fluid.pos_of_row? s k x_k hk]

theorem Fluid.c_grad_temp_eq_spec {G : Type} (E : Env G) (s : Fluid G) (p_i : Nat) (p_j : Int)
    (g : Vec3) (h : Fluid.c_grad_temp E s p_i p_j = some g) : g = Fluid.spec_g E s p_i p_j := by
  simp only [Fluid.c_grad_temp, Option.bind_eq_bind, Option.bind_eq_some] at h
  obtain ⟨x_i, hxi, h⟩ := h
  have hp := Fluid.pos_of_getElem? s p_i x_i hxi
  unfold Fluid.spec_g
  by_cases he : (p_i : Int) = p_j
  · simp only [he, if_true, Option.bind_eq_some] at h ⊢
    obtain ⟨nb, hnb, h⟩ := h
    have hn : s.nbrs p_i = nb := by simp [Fluid.nbrs, hnb]
    have := Fluid.spiky_fold_eq E s x_i nb Vec3.zero g h
    rw [this, Vec3.add_zero_left, hn, ← he, hp]
  · simp only [he, if_false, Option.bind_eq_some, Option.some.injEq] at h ⊢
    obtain ⟨x_j, hxj, rfl⟩ := h
    rw [hp, Fluid.pos_of_row? s p_j x_j hxj]

/-- C5 (as amended): when the constraint stage handles particle `p_i`, it stores
`lambda[p_i] = -c[p_i] / (G + cfm_epsilon)` with `G` the content of the gradient-norm slot of
`p_i` at that moment; and every visit of a neighbour `p_j` adds to one gradient-norm slot the
scalar norm of `g(p_i, p_j) / rho`: the norms are summed, no vector sum is formed. -/
theorem lambda_from_summed_norms {G : Type} (E : Env G) (s : Fluid G) (i p_i : Nat)
    (hr : s.Ready) (hi : i < s.num_particles.toNat) (hp : p_i < s.num_particles.toNat) :
    (∃ s' c_p g_p, Fluid.constraint_body E i s p_i = some s' ∧
      s'.c[p_i]? = some c_p ∧ s'.c_grad_norm[p_i]? = some g_p ∧
      s'.lambda[p_i]? = some (-c_p / (g_p + s.cfm_epsilon))) ∧
    ∀ (x x' : Fluid G) (p_j : Int), Fluid.density_body E i p_i x p_j = some x' →
      ∃ slot g0, x.c_grad_norm[slot]? = some g0 ∧
        x'.c_grad_norm =
          x.c_grad_norm.set slot (g0 + E.norm ((Fluid.spec_g E x p_i p_j).sdiv x.rho)) := by
  constructor
  · obtain ⟨s', h⟩ := Fluid.constraint_body_isSome E s hr i p_i hi hp
    refine ⟨s', ?_⟩
    have h0 := h
    simp only [Fluid.constraint_body, Option.bind_eq_bind, Option.bind_eq_some,
      Option.some.injEq, setRow_eq_some] at h
    obtain ⟨nb, -, s1, h1, d, -, c1, ⟨hc, rfl⟩, g, hg, l1, ⟨hl, rfl⟩, rfl⟩ := h
    have hk := Fluid.keepsPositions_foldlM _ nb (Fluid.density_body_keeps E i p_i) s s1 h1
    have he : s1.cfm_epsilon = s.cfm_epsilon := by
      have := hk.1.1; simp only [Fluid.static, Prod.mk.injEq] at this; tauto
    exact ⟨d / s1.rho - 1, g, h0, by simp [hc], hg, by simp [hl, he]⟩
  · intro x x' p_j h
    simp only [Fluid.density_body, Option.bind_eq_bind, Option.bind_eq_some,
      Option.some.injEq] at h
    obtain ⟨x_i, -, x_j, -, d, -, g_temp, hgt, g, hg, rfl⟩ := h
    exact ⟨i, g, hg, by rw [← Fluid.c_grad_temp_eq_spec E x p_i p_j g_temp hgt]⟩

set_option maxRecDepth 100000 in
/-- C5 (as amended), evaluated: two particles within the smoothing radius, iteration 0,
particle 1. -/
theorem lambda_from_summed_norms_witness :
    ∃ s s1, exampleStart 2 1 [⟨0, 0, 0⟩, ⟨1 / 2, 0, 0⟩] = some s ∧
      Fluid.apply_forces (exampleEnv (search_neighbours 1)) s [⟨0, 0, 0⟩, ⟨1 / 2, 0, 0⟩]
        = some s1 ∧
      (∃ s' c_p g_p, Fluid.constraint_body (exampleEnv (search_neighbours 1)) 0 s1 1 = some s' ∧
        s'.c[1]? = some c_p ∧ s'.c_grad_norm[1]? = some g_p ∧
        s'.lambda[1]? = some (-c_p / (g_p + s1.cfm_epsilon))) := by
  have h : ((exampleStart 2 1 [⟨0, 0, 0⟩, ⟨1 / 2, 0, 0⟩]).bind fun s =>
      (Fluid.apply_forces (exampleEnv (search_neighbours 1)) s [⟨0, 0, 0⟩, ⟨1 / 2, 0, 0⟩]).bind
        fun s1 => if s1.Sized ∧ s1.x_new.length = s1.num_particles.toNat ∧
            s1.neighbours.length = s1.num_particles.toNat ∧
            IndicesBelow s1.num_particles.toNat s1.neighbours ∧
            0 < s1.num_particles.toNat ∧ 1 < s1.num_particles.toNat
          then some () else none) = some () := by
    with_unfolding_all decide
  simp only [Option.bind_eq_some] at h
  obtain ⟨s, hs, s1, h1, hc⟩ := h
  split at hc
  · rename_i hc'
    exact ⟨s, s1, hs, h1,
      (lambda_from_summed_norms (exampleEnv (search_neighbours 1)) s1 0 1
        ⟨hc'.1, hc'.2.1, hc'.2.2.1, hc'.2.2.2.1⟩ hc'.2.2.2.2.1 hc'.2.2.2.2.2).1⟩
  · cases hc

set_option maxRecDepth 100000 in
/-- C5 as stated fails: three particles at `x = 0`, `x = -1/2` and `x = 1/2`, iteration 0,
particle 0 (for which the iteration counter and the particle index coincide).  The gradients
towards the two outer particles cancel, so the norm of the vector sum is `0` and the formula
of the claim gives `lambda = -675/8`; the code adds the two norms and stores
`lambda = -225/136`. -/
theorem lambda_from_summed_norms_counterexample :
    ∃ (s s1 s2 : Fluid Unit) (c_p : ℚ),
      exampleStart 3 1 [⟨0, 0, 0⟩, ⟨-1 / 2, 0, 0⟩, ⟨1 / 2, 0, 0⟩] = some s ∧
      Fluid.apply_forces (exampleEnv (search_neighbours 1)) s
        [⟨0, 0, 0⟩, ⟨-1 / 2, 0, 0⟩, ⟨1 / 2, 0, 0⟩] = some s1 ∧
      Fluid.constraint_stage (exampleEnv (search_neighbours 1)) 0 s1 = some s2 ∧
      s2.c[(0 : Nat)]? = some c_p ∧ s2.lambda[(0 : Nat)]? = some (-225 / 136) ∧
      Fluid.spec_gradient_norm (exampleEnv (search_neighbours 1)) s1 0 = 0 ∧
      Fluid.spec_lambda (exampleEnv (search_neighbours 1)) s1 0 c_p = -675 / 8 := by
  have h : ((exampleStart 3 1 [⟨0, 0, 0⟩, ⟨-1 / 2, 0, 0⟩, ⟨1 / 2, 0, 0⟩]).bind fun s =>
      (Fluid.apply_forces (exampleEnv (search_neighbours 1)) s
        [⟨0, 0, 0⟩, ⟨-1 / 2, 0, 0⟩, ⟨1 / 2, 0, 0⟩]).bind fun s1 =>
      (Fluid.constraint_stage (exampleEnv (search_neighbours 1)) 0 s1).bind fun s2 =>
      (s2.c[(0 : Nat)]?).bind fun c_p =>
        if s2.lambda[(0 : Nat)]? = some (-225 / 136) ∧
          Fluid.spec_gradient_norm (exampleEnv (search_neighbours 1)) s1 0 = 0 ∧
          Fluid.spec_lambda (exampleEnv (search_neighbours 1)) s1 0 c_p = -675 / 8
        then some () else none) = some () := by
    with_unfolding_all decide
  simp only [Option.bind_eq_some] at h
  obtain ⟨s, hs, s1, h1, s2, h2, c_p, h3, hc⟩ := h
  split at hc
  · rename_i hc'
    exact ⟨s, s1, s2, c_p, hs, h1, h2, h3, hc'⟩
  · cases hc

set_option maxRecDepth 100000 in
/-- C6 fails on the code: three particles at `x = 0`, `x = 5` and `x = 11/2` with smoothing
radius 1 have the neighbour lists `[0]`, `[1, 2]`, `[1, 2]`.  In Jacobi iteration 0 the
position-correction stage walks `neighbours[0]` for every particle, so `dP` of particle 1
comes out as zero, where the sum over its own list `[1, 2]`, with the multipliers
`[0, 100, 100]` of the same iteration, has an `x` component above `49`. -/
theorem dP_walks_list_of_iteration :
    ∃ (s s1 s2 s3 : Fluid Unit),
      exampleStart 3 1 [⟨0, 0, 0⟩, ⟨5, 0, 0⟩, ⟨11 / 2, 0, 0⟩] = some s ∧
      Fluid.apply_forces (exampleEnv (search_neighbours 1)) s
        [⟨0, 0, 0⟩, ⟨5, 0, 0⟩, ⟨11 / 2, 0, 0⟩] = some s1 ∧
      Fluid.constraint_stage (exampleEnv (search_neighbours 1)) 0 s1 = some s2 ∧
      Fluid.dP_stage (exampleEnv (search_neighbours 1)) 0 s2 = some s3 ∧
      s2.neighbours = [[0], [1, 2], [1, 2]] ∧ s2.lambda = [0, 100, 100] ∧
      s3.dP = [⟨0, 0, 0⟩, ⟨0, 0, 0⟩, ⟨0, 0, 0⟩] ∧
      49 < (Fluid.spec_dP (exampleEnv (search_neighbours 1)) s2 1).x := by
  have h : ((exampleStart 3 1 [⟨0, 0, 0⟩, ⟨5, 0, 0⟩, ⟨11 / 2, 0, 0⟩]).bind fun s =>
      (Fluid.apply_forces (exampleEnv (search_neighbours 1)) s
        [⟨0, 0, 0⟩, ⟨5, 0, 0⟩, ⟨11 / 2, 0, 0⟩]).bind fun s1 =>
      (Fluid.constraint_stage (exampleEnv (search_neighbours 1)) 0 s1).bind fun s2 =>
      (Fluid.dP_stage (exampleEnv (search_neighbours 1)) 0 s2).bind fun s3 =>
        if s2.neighbours = [[0], [1, 2], [1, 2]] ∧ s2.lambda = [0, 100, 100] ∧
          s3.dP = [⟨0, 0, 0⟩, ⟨0, 0, 0⟩, ⟨0, 0, 0⟩] ∧
          49 < (Fluid.spec_dP (exampleEnv (search_neighbours 1)) s2 1).x
        then some () else none) = some () := by
    with_unfolding_all decide
  simp only [Option.bind_eq_some] at h
  obtain ⟨s, hs, s1, h1, s2, h2, s3, h3, hc⟩ := h
  split at hc
  · rename_i hc'
    exact ⟨s, s1, s2, s3, hs, h1, h2, h3, hc'⟩
  · cases hc

/-! ## C7: the tensile correction -/

/-- C8 fails on the code from the second Jacobi iteration on: one particle whose neighbour
list is empty, `cfm_epsilon = 1/100`, `jacobi_iterations = 2`.  Iteration 0 walks
`neighbours[0]`, the empty list, and yields density `0`, `c = -1`, `lambda = 100 = 1 / cfm_epsilon`
and `dP = 0` with the candidate position unchanged; iteration 1 reads `neighbours[1]`, past
the end of the one-element container, and the step does not return. -/
theorem single_particle_second_iteration :
    ∃ (s s1 s2 : Fluid Unit),
      exampleStartWith (exampleEnv (fun _ => [[]])) 1 2 [⟨0, 0, 0⟩] = some s ∧
      Fluid.apply_forces (exampleEnv (fun _ => [[]])) s [⟨0, 0, 0⟩] = some s1 ∧
      s1.neighbours = [[]] ∧ s1.jacobi_iterations = 2 ∧
      Fluid.jacobi_iteration (exampleEnv (fun _ => [[]])) s1 0 = some s2 ∧
      s2.density = [0] ∧ s2.c = [-1] ∧ s2.lambda = [100] ∧ s2.dP = [⟨0, 0, 0⟩] ∧
      s2.x_new = s1.x_new ∧
      Fluid.jacobi_iteration (exampleEnv (fun _ => [[]])) s2 1 = none ∧
      Fluid.step (exampleEnv (fun _ => [[]])) s [⟨0, 0, 0⟩] [⟨0, 0, 0⟩] = none := by
  have h : ((exampleStartWith (exampleEnv (fun _ => [[]])) 1 2 [⟨0, 0, 0⟩]).bind fun s =>
      (Fluid.apply_forces (exampleEnv (fun _ => [[]])) s [⟨0, 0, 0⟩]).bind fun s1 =>
      (Fluid.jacobi_iteration (exampleEnv (fun _ => [[]])) s1 0).bind fun s2 =>
        if s1.neighbours = [[]] ∧ s1.jacobi_iterations = 2 ∧
          s2.density = [0] ∧ s2.c = [-1] ∧ s2.lambda = [100] ∧ s2.dP = [⟨0, 0, 0⟩] ∧
          s2.x_new = s1.x_new ∧
          (Fluid.jacobi_iteration (exampleEnv (fun _ => [[]])) s2 1).isNone ∧
          (Fluid.step (exampleEnv (fun _ => [[]])) s [⟨0, 0, 0⟩] [⟨0, 0, 0⟩]).isNone
        then some () else none) = some () := by
    with_unfolding_all decide
  simp only [Option.bind_eq_some] at h
  obtain ⟨s, hs, s1, h1, s2, h2, hc⟩ := h
  split at hc
  · rename_i hc'
    obtain ⟨a1, a2, a3, a4, a5, a6, a7, a8, a9⟩ := hc'
    exact ⟨s, s1, s2, hs, h1, a1, a2, h2, a3, a4, a5, a6, a7,
      Option.isNone_iff_eq_none.1 a8, Option.isNone_iff_eq_none.1 a9⟩
  · cases hc

/-! ## C9 and C10: construction and `init_state` -/

/-- C9 (as amended): the constructor validates nothing.  For every argument list with
`num_particles ≥ 0` it returns a state that holds the arguments as given, with clock `0`
and containers of `num_particles` entries, whatever the values of `kernel_h`, `rho`, `dt`
and the bounds. -/
theorem construct_succeeds {G : Type} (E : Env G) (junk : ℚ)
    (num_particles : Int) (particle_mass rho gravity_f user_f : ℚ) (jacobi_iterations : Int)
    (cfm_epsilon kernel_h tensile_k tensile_delta_q : ℚ) (tensile_n : Int)
    (viscocity_c vorticity_epsilon lower_bound upper_bound dt : ℚ)
    (hN : 0 ≤ num_particles) :
    ∃ s, Fluid.construct E junk num_particles particle_mass rho gravity_f user_f
        jacobi_iterations cfm_epsilon kernel_h tensile_k tensile_delta_q tensile_n viscocity_c
        vorticity_epsilon lower_bound upper_bound dt = some s ∧
      s.num_particles = num_particles ∧ s.kernel_h = kernel_h ∧ s.rho = rho ∧ s.dt = dt ∧
      s.lower_bound = lower_bound ∧ s.upper_bound = upper_bound ∧ s.t = 0 ∧ s.Sized ∧
      s.gravity_f = List.replicate num_particles.toNat gravity_f := by
  have hn : ¬ num_particles < 0 := not_lt.2 hN
  simp only [Fluid.construct, hn, if_false, Option.some.injEq, exists_eq_left', Fluid.Sized,
    List.length_replicate, and_self]

/-- C9 (as amended), evaluated on a configuration the specification rejects: no particle,
`kernel_h = 0`, `rho = 0`, `dt = 0` and `lower_bound = 1 > upper_bound = 0`. -/
theorem construct_succeeds_witness :
    ∃ s : Fluid Unit, Fluid.construct (exampleEnv (search_neighbours 0)) 0 0 1 0 (98 / 10) 0 1
        (1 / 100) 0 (1 / 10) (1 / 5) 4 0 0 1 0 0 = some s ∧
      s.num_particles = 0 ∧ s.kernel_h = 0 ∧ s.rho = 0 ∧ s.dt = 0 ∧
      s.lower_bound = 1 ∧ s.upper_bound = 0 ∧ s.t = 0 ∧ s.Sized ∧
      s.gravity_f = List.replicate (0 : Int).toNat (98 / 10) :=
  construct_succeeds (exampleEnv (search_neighbours 0)) 0 0 1 0 (98 / 10) 0 1
    (1 / 100) 0 (1 / 10) (1 / 5) 4 0 0 1 0 0 (le_refl 0)

/-- C9 as stated fails: the constructor returns for three particles with `kernel_h = -1`,
`rho = 0`, `dt = 0` and `lower_bound = 1 > upper_bound = 0`, and also for no particle. -/
theorem construct_validates_nothing :
    (Fluid.construct (exampleEnv (search_neighbours 0)) 0 3 1 0 (98 / 10) 0 1
        (1 / 100) (-1) (1 / 10) (1 / 5) 4 0 0 1 0 0).isSome = true ∧
    (Fluid.construct (exampleEnv (search_neighbours 0)) 0 0 1 1 (98 / 10) 0 1
        (1 / 100) 1 (1 / 10) (1 / 5) 4 0 0 (-10) 10 (1 / 10)).isSome = true := by
  constructor <;> simp [Fluid.construct]

/-- C10: after `init_state` every row of the velocity matrix is zero (and the matrix has the
rows it had), and the caller's position array and the clock `t` are unchanged. -/
theorem init_state_zeroes_velocities {G : Type} (E : Env G) (s : Fluid G) (fluid_state : Mat) :
    (∀ w ∈ (Fluid.init_state E s fluid_state).1.v, w = Vec3.zero) ∧
    (Fluid.init_state E s fluid_state).1.v.length = s.v.length ∧
    (Fluid.init_state E s fluid_state).2 = fluid_state ∧
    (Fluid.init_state E s fluid_state).1.t = s.t := by
  refine ⟨fun w hw => ?_, by simp [Fluid.init_state], rfl, rfl⟩
  simp only [Fluid.init_state, List.mem_map] at hw
  obtain ⟨_, _, rfl⟩ := hw
  rfl

/-! ## C13: apply and clamp -/

theorem foldlM_range_none {σ : Type} (f : σ → Nat → Option σ) (s x : σ) (n : Nat)
    (hx : (List.range n).foldlM f s = some x) (hf : f x n = none) :
    ∀ m, n < m → (List.range m).foldlM f s = none := by
  intro m
  induction m with
  | zero => intro h; exact absurd h (Nat.not_lt_zero n)
  | succ m ih =>
    intro h
    rw [List.range_succ, List.foldlM_append]
    by_cases hnm : n = m
    · subst hnm
      simp [hx, hf]
    · rw [ih (by omega)]
      rfl

theorem Fluid.constraint_stage_past_end {G : Type} (E : Env G) (s : Fluid G) (i : Nat)
    (hN : 1 ≤ s.num_particles) (hi : s.neighbours[i]? = none) :
    Fluid.constraint_stage E i s = none := by
  unfold Fluid.constraint_stage
  obtain ⟨k, hk⟩ : ∃ k, s.num_particles.toNat = k + 1 := ⟨s.num_particles.toNat - 1, by omega⟩
  rw [hk, List.range_succ_eq_map, List.foldlM_cons]
  simp [Fluid.constraint_body, hi]

/-- C16: for at least one particle, containers and buffers of `num_particles` rows and a
neighbour query that returns `num_particles` lists of indices in `[0, num_particles)`, every
access of `step` is inside its container (the step returns) if and only if
`jacobi_iterations ≤ num_particles`; for more iterations, the iterations before number
`num_particles` run, and iteration number `num_particles` finds both `neighbours` and
`c_grad_norm` without an entry at its index and stops at the read of the neighbour list. -/
theorem step_in_bounds_iff {G : Type} (E : Env G) (s : Fluid G) (fluid_state colors : Mat)
    (hin : Fluid.WellFormedInputs E s fluid_state colors) :
    ((Fluid.step E s fluid_state colors).isSome = true ↔
      s.jacobi_iterations ≤ s.num_particles) ∧
    (s.num_particles < s.jacobi_iterations →
      ∃ s1 x, Fluid.apply_forces E s fluid_state = some s1 ∧
        (List.range s.num_particles.toNat).foldlM (Fluid.jacobi_iteration E) s1 = some x ∧
        x.neighbours[s.num_particles.toNat]? = none ∧
        x.c_grad_norm[s.num_particles.toNat]? = none ∧
        Fluid.constraint_stage E s.num_particles.toNat x = none ∧
        Fluid.jacobi_iteration E x s.num_particles.toNat = none) := by
  obtain ⟨hN, hs, hfs, hcol, hq⟩ := hin
  have hpast : s.num_particles < s.jacobi_iterations →
      ∃ s1 x, Fluid.apply_forces E s fluid_state = some s1 ∧
        (List.range s.num_particles.toNat).foldlM (Fluid.jacobi_iteration E) s1 = some x ∧
        x.neighbours[s.num_particles.toNat]? = none ∧
        x.c_grad_norm[s.num_particles.toNat]? = none ∧
        Fluid.constraint_stage E s.num_particles.toNat x = none ∧
        Fluid.jacobi_iteration E x s.num_particles.toNat = none := by
    intro hK
    obtain ⟨hv, hdP, hden, hc, hl, hg, hgf⟩ := hs
    have ha := (Fluid.apply_forces_eq_some E s fluid_state _).2 ⟨by omega, by omega, rfl⟩
    obtain ⟨hnl, hidx⟩ := hq _ ha
    generalize hs1 : ({ s with
        v := List.zipWith (fun (r : Vec3) g => { r with y := r.y - s.particle_mass * g })
          s.v s.gravity_f
        x_new := List.zipWith (fun a b => Vec3.add a (Vec3.smul s.dt b)) fluid_state
          (List.zipWith (fun (r : Vec3) g => { r with y := r.y - s.particle_mass * g })
            s.v s.gravity_f)
        grid := (E.grid_findNeighbours s.grid
          (List.zipWith (fun a b => Vec3.add a (Vec3.smul s.dt b)) fluid_state
            (List.zipWith (fun (r : Vec3) g => { r with y := r.y - s.particle_mass * g })
              s.v s.gravity_f)) s.neighbours).1
        neighbours := (E.grid_findNeighbours s.grid
          (List.zipWith (fun a b => Vec3.add a (Vec3.smul s.dt b)) fluid_state
            (List.zipWith (fun (r : Vec3) g => { r with y := r.y - s.particle_mass * g })
              s.v s.gravity_f)) s.neighbours).2 } : Fluid G) = s1 at ha hnl hidx
    have e1 : s1.num_particles = s.num_particles := by subst hs1; rfl
    have hr1 : s1.Ready := by
      refine ⟨⟨?_, ?_, ?_, ?_, ?_, ?_, ?_⟩, ?_, ?_, ?_⟩ <;> rw [e1]
      · subst hs1; simp; omega
      · subst hs1; exact hdP
      · subst hs1; exact hden
      · subst hs1; exact hc
      · subst hs1; exact hl
      · subst hs1; exact hg
      · subst hs1; exact hgf
      · subst hs1; simp; omega
      · exact hnl
      · exact hidx
    obtain ⟨x, hx⟩ := Fluid.jacobi_loop_isSome E s1 hr1 s.num_particles.toNat
      (by rw [e1])
    have fx := (Fluid.jacobi_loop_spec E s1 _ x hx).1
    have hrx := hr1.of_frame fx
    have e2 : x.num_particles = s.num_particles := by rw [fx.num_particles_eq, e1]
    have hnone : x.neighbours[s.num_particles.toNat]? = none := by
      apply List.getElem?_eq_none
      rw [hrx.2.2.1, e2]
    have hgnone : x.c_grad_norm[s.num_particles.toNat]? = none := by
      apply List.getElem?_eq_none
      rw [hrx.1.2.2.2.2.2.1, e2]
    have hcs := Fluid.constraint_stage_past_end E x s.num_particles.toNat
      (by rw [e2]; exact hN) hnone
    exact ⟨s1, x, ha, hx, hnone, hgnone, hcs, by simp [Fluid.jacobi_iteration, hcs]⟩
  refine ⟨⟨fun h => ?_, fun h => ?_⟩, hpast⟩
  · by_contra hK
    obtain ⟨s1, x, ha, hx, -, -, -, hj⟩ := hpast (not_le.1 hK)
    obtain ⟨out, ho⟩ := Option.isSome_iff_exists.1 h
    obtain ⟨s1', s2, colors1, h1, h2, -, -, -⟩ :=
      (Fluid.step_eq_some E s fluid_state colors out).1 ho
    rw [ha] at h1
    simp only [Option.some.injEq] at h1
    subst h1
    have e3 : s1.jacobi_iterations = s.jacobi_iterations := by
      obtain ⟨-, -, hs1⟩ := (Fluid.apply_forces_eq_some E s fluid_state s1).1 ha
      rw [hs1]
    have := foldlM_range_none (Fluid.jacobi_iteration E) s1 x s.num_particles.toNat hx hj
      s1.jacobi_iterations.toNat (by rw [e3]; omega)
    rw [this] at h2
    cases h2
  · obtain ⟨out, ho⟩ := Fluid.step_isSome E s fluid_state colors ⟨hN, hs, hfs, hcol, h, hq⟩
    simp [ho]

set_option maxRecDepth 100000 in
/-- C16, evaluated: two particles and three Jacobi iterations; the step does not return. -/
theorem step_in_bounds_iff_witness :
    ∃ s : Fluid Unit, exampleStart 2 3 [⟨0, 0, 0⟩, ⟨1 / 2, 0, 0⟩] = some s ∧
      s.num_particles < s.jacobi_iterations ∧
      Fluid.step (exampleEnv (search_neighbours 1)) s [⟨0, 0, 0⟩, ⟨1 / 2, 0, 0⟩]
        [⟨0, 0, 0⟩, ⟨0, 0, 0⟩] = none ∧
      (((Fluid.step (exampleEnv (search_neighbours 1)) s [⟨0, 0, 0⟩, ⟨1 / 2, 0, 0⟩]
          [⟨0, 0, 0⟩, ⟨0, 0, 0⟩]).isSome = true ↔ s.jacobi_iterations ≤ s.num_particles) ∧
      (s.num_particles < s.jacobi_iterations →
        ∃ s1 x, Fluid.apply_forces (exampleEnv (search_neighbours 1)) s
            [⟨0, 0, 0⟩, ⟨1 / 2, 0, 0⟩] = some s1 ∧
          (List.range s.num_particles.toNat).foldlM
            (Fluid.jacobi_iteration (exampleEnv (search_neighbours 1))) s1 = some x ∧
          x.neighbours[s.num_particles.toNat]? = none ∧
          x.c_grad_norm[s.num_particles.toNat]? = none ∧
          Fluid.constraint_stage (exampleEnv (search_neighbours 1)) s.num_particles.toNat x
            = none ∧
          Fluid.jacobi_iteration (exampleEnv (search_neighbours 1)) x s.num_particles.toNat
            = none)) := by
  have h : ((exampleStart 2 3 [⟨0, 0, 0⟩, ⟨1 / 2, 0, 0⟩]).bind fun s =>
      if Fluid.WellFormedInputs (exampleEnv (search_neighbours 1)) s
          [⟨0, 0, 0⟩, ⟨1 / 2, 0, 0⟩] [⟨0, 0, 0⟩, ⟨0, 0, 0⟩] ∧
        s.num_particles < s.jacobi_iterations
      then some () else none) = some () := by
    with_unfolding_all decide
  simp only [Option.bind_eq_some] at h
  obtain ⟨s, hs, hc⟩ := h
  split at hc
  · rename_i hc'
    obtain ⟨hin, hK⟩ := hc'
    have key := step_in_bounds_iff (exampleEnv (search_neighbours 1)) s
      [⟨0, 0, 0⟩, ⟨1 / 2, 0, 0⟩] [⟨0, 0, 0⟩, ⟨0, 0, 0⟩] hin
    refine ⟨s, hs, hK, ?_, key⟩
    have hnot : ¬ (Fluid.step (exampleEnv (search_neighbours 1)) s [⟨0, 0, 0⟩, ⟨1 / 2, 0, 0⟩]
        [⟨0, 0, 0⟩, ⟨0, 0, 0⟩]).isSome = true := fun h => absurd (key.1.1 h) (not_le.2 hK)
    simpa using hnot
  · cases hc

/-! ## C15: the debug colours -/

theorem setRowI_eq_some {α : Type} (m : List α) (i : Int) (a : α) (m' : List α) :
    setRowI m i a = some m' ↔ 0 ≤ i ∧ i.toNat < m.length ∧ m' = m.set i.toNat a := by
  unfold setRowI
  split
  · rename_i h; simp [setRow_eq_some, h]
  · rename_i h; simp [h]

theorem paint_rows_spec (a : Vec3) (l : List Nat) :
    ∀ (m m' : Mat), l.foldlM (fun cs i => setRow cs i a) m = some m' →
      m'.length = m.length ∧
      ∀ j : Nat, (j ∈ l → m'[j]? = some a) ∧ (j ∉ l → m'[j]? = m[j]?) := by
  induction l with
  | nil =>
    intro c c' h
    simp only [List.foldlM_nil, Option.pure_def, Option.some.injEq] at h
    subst h
    exact ⟨rfl, fun j => ⟨fun hj => absurd hj (List.not_mem_nil j), fun _ => rfl⟩⟩
  | cons i l ih =>
    intro c c' h
    simp only [List.foldlM_cons, Option.bind_eq_bind, Option.bind_eq_some, setRow_eq_some] at h
    obtain ⟨c1, ⟨hi, rfl⟩, h2⟩ := h
    obtain ⟨hlen, hrows⟩ := ih _ c' h2
    refine ⟨by simpa using hlen, fun j => ⟨fun hj => ?_, fun hj => ?_⟩⟩
    · by_cases hjl : j ∈ l
      · exact (hrows j).1 hjl
      · have hji : j = i := by
          rcases List.mem_cons.1 hj with h | h
          · exact h
          · exact absurd h hjl
        subst hji
        rw [(hrows j).2 hjl, List.getElem?_set_self hi]
    · have hjl : j ∉ l := fun h => hj (List.mem_cons_of_mem _ h)
      have hji : i ≠ j := fun h => hj (h ▸ List.mem_cons_self _ _)
      rw [(hrows j).2 hjl, List.getElem?_set_ne hji]

theorem paint_neighbours_spec (a : Vec3) (nb : List Int) :
    ∀ (m m' : Mat),
      nb.foldlM (fun cs (n_idx : Int) => if n_idx ≠ 0 then setRowI cs n_idx a else some cs) m
        = some m' →
      m'.length = m.length ∧ m'[(0 : Nat)]? = m[(0 : Nat)]? ∧
      ∀ j : Nat, 1 ≤ j → (((j : Int) ∈ nb → m'[j]? = some a) ∧
        ((j : Int) ∉ nb → m'[j]? = m[j]?)) := by
  induction nb with
  | nil =>
    intro c c' h
    simp only [List.foldlM_nil, Option.pure_def, Option.some.injEq] at h
    subst h
    exact ⟨rfl, rfl, fun j _ => ⟨fun hj => absurd hj (List.not_mem_nil _), fun _ => rfl⟩⟩
  | cons n nb ih =>
    intro c c' h
    simp only [List.foldlM_cons, Option.bind_eq_bind, Option.bind_eq_some] at h
    obtain ⟨c1, h1, h2⟩ := h
    obtain ⟨hlen, h0, hrows⟩ := ih c1 c' h2
    by_cases hn : n = 0
    · simp only [hn, ne_eq, not_true_eq_false, if_false, Option.some.injEq] at h1
      subst h1
      refine ⟨hlen, h0, fun j hj => ⟨fun hjm => ?_, fun hjm => ?_⟩⟩
      · rcases List.mem_cons.1 hjm with h | h
        · omega
        · exact (hrows j hj).1 h
      · exact (hrows j hj).2 (fun h => hjm (List.mem_cons_of_mem _ h))
    · simp only [ne_eq, hn, not_false_eq_true, if_true, setRowI_eq_some] at h1
      obtain ⟨hn0, hlt, rfl⟩ := h1
      have hne : n.toNat ≠ 0 := by omega
      refine ⟨by simpa using hlen, by rw [h0, List.getElem?_set_ne hne],
        fun j hj => ⟨fun hjm => ?_, fun hjm => ?_⟩⟩
      · by_cases hjl : (j : Int) ∈ nb
        · exact (hrows j hj).1 hjl
        · have hjn : (j : Int) = n := by
            rcases List.mem_cons.1 hjm with h | h
            · exact h
            · exact absurd h hjl
          have : n.toNat = j := by omega
          rw [(hrows j hj).2 hjl, ← this, List.getElem?_set_self hlt]
      · have hjl : (j : Int) ∉ nb := fun h => hjm (List.mem_cons_of_mem _ h)
        have hjn : n.toNat ≠ j := by
          intro h
          apply hjm
          have : (j : Int) = n := by omega
          rw [this]
          exact List.mem_cons_self _ _
        rw [(hrows j hj).2 hjl, List.getElem?_set_ne hjn]

theorem Fluid.debug_colors_spec {G : Type} (s : Fluid G) (colors colors1 : Mat)
    (h : Fluid.debug_colors s colors = some colors1) :
    ∃ nb, s.neighbours[(0 : Nat)]? = some nb ∧ colors1.length = colors.length ∧
      colors1[(0 : Nat)]? = some ⟨1, 0, 0⟩ ∧
      ∀ j : Nat, 1 ≤ j → j < s.num_particles.toNat →
        (((j : Int) ∈ nb → colors1[j]? = some ⟨0, 1, 0⟩) ∧
          ((j : Int) ∉ nb → colors1[j]? = some ⟨0, 0, 1⟩)) := by
  simp only [Fluid.debug_colors, Option.bind_eq_bind, Option.bind_eq_some, setRow_eq_some] at h
  obtain ⟨c0, ⟨h0, rfl⟩, c1, h1, nb, hnb, h2⟩ := h
  obtain ⟨l1, r1⟩ := paint_rows_spec ⟨0, 0, 1⟩ _ _ c1 h1
  obtain ⟨l2, z2, r2⟩ := paint_neighbours_spec ⟨0, 1, 0⟩ nb c1 colors1 h2
  have hz : (0 : Nat) ∉ List.range' 1 (s.num_particles.toNat - 1) := by
    intro hm
    have := List.mem_range'_1.1 hm
    omega
  refine ⟨nb, hnb, by rw [l2, l1]; simp, ?_, fun j hj1 hjN => ⟨fun hm => (r2 j hj1).1 hm,
    fun hm => ?_⟩⟩
  · rw [z2, (r1 0).2 hz, List.getElem?_set_self h0]
  · rw [(r2 j hj1).2 hm]
    exact (r1 j).1 (List.mem_range'_1.2 (by omega))

/-- C15: after `step`, colour row 0 is `(1, 0, 0)`, also when `0` occurs in `neighbours[0]`; the colour row of every particle index other than `0` that occurs
in `neighbours[0]`, the list the neighbour query returned for the candidate positions of this
step, is `(0, 1, 0)`; and the colour row of every other particle is `(0, 0, 1)`.  The step
returns when all its accesses are in bounds. -/
theorem step_debug_colours {G : Type} (E : Env G) (s : Fluid G) (fluid_state colors : Mat) :
    (Fluid.StepInBounds E s fluid_state colors →
      ∃ out, Fluid.step E s fluid_state colors = some out) ∧
    ∀ out, Fluid.step E s fluid_state colors = some out →
      ∃ s1 nb, Fluid.apply_forces E s fluid_state = some s1 ∧
        s1.neighbours = (E.grid_findNeighbours s.grid s1.x_new s.neighbours).2 ∧
        out.1.neighbours = s1.neighbours ∧ s1.neighbours[(0 : Nat)]? = some nb ∧
        out.2.2.length = colors.length ∧
        out.2.2[(0 : Nat)]? = some ⟨1, 0, 0⟩ ∧
        ∀ j : Nat, 1 ≤ j → j < s.num_particles.toNat →
          (((j : Int) ∈ nb → out.2.2[j]? = some ⟨0, 1, 0⟩) ∧
            ((j : Int) ∉ nb → out.2.2[j]? = some ⟨0, 0, 1⟩)) := by
  refine ⟨Fluid.step_isSome E s fluid_state colors, fun out h => ?_⟩
  obtain ⟨s1, s2, colors1, h1, h2, -, h4, rfl⟩ :=
    (Fluid.step_eq_some E s fluid_state colors out).1 h
  obtain ⟨-, -, hs1⟩ := (Fluid.apply_forces_eq_some E s fluid_state s1).1 h1
  have f := (Fluid.jacobi_loop_spec E s1 _ s2 h2).1
  have e1 : s2.num_particles = s.num_particles := by rw [f.num_particles_eq, hs1]
  have e2 : s2.neighbours = s1.neighbours := f.neighbours_eq
  obtain ⟨nb, hnb, hlen, h0, hrows⟩ := Fluid.debug_colors_spec s2 colors colors1 h4
  rw [e1] at hrows
  rw [e2] at hnb
  have hq : s1.neighbours = (E.grid_findNeighbours s.grid s1.x_new s.neighbours).2 := by
    rw [hs1]
  exact ⟨s1, nb, h1, hq, e2, hnb, hlen, h0, hrows⟩

/-! ## C12: nothing is carried over between Jacobi iterations -/

theorem foldlM_map_comm {σ ι : Type} (f : σ → ι → Option σ) (g : σ → σ)
    (hfg : ∀ x a, f (g x) a = (f x a).map g) :
    ∀ (l : List ι) (x : σ), l.foldlM f (g x) = (l.foldlM f x).map g := by
  intro l
  induction l with
  | nil => intro x; rfl
  | cons a l ih =>
    intro x
    simp only [List.foldlM_cons, Option.bind_eq_bind, hfg]
    cases h : f x a with
    | none => rfl
    | some x1 => simpa using ih x1

theorem Fluid.density_body_comm {G : Type} (E : Env G) (i p_i : Nat) (s : Fluid G) (p_j : Int)
    (cy : List ℚ) (dy : Mat) :
    Fluid.density_body E i p_i { s with c := cy, dP := dy } p_j =
      (Fluid.density_body E i p_i s p_j).map (fun r => { r with c := cy, dP := dy }) := by
  have hg : Fluid.c_grad_temp E { s with c := cy, dP := dy } p_i p_j =
      Fluid.c_grad_temp E s p_i p_j := rfl
  unfold Fluid.density_body
  rw [hg]
  simp only [Option.bind_eq_bind]
  cases s.x_new[p_i]? with
  | none => rfl
  | some x_i =>
    cases row? s.x_new p_j with
    | none => rfl
    | some x_j =>
      cases s.density[p_i]? with
      | none => rfl
      | some d =>
        cases Fluid.c_grad_temp E s p_i p_j with
        | none => rfl
        | some g_temp =>
          cases s.c_grad_norm[i]? with
          | none => rfl
          | some g => rfl

theorem Fluid.density_fold_keeps_c {G : Type} (E : Env G) (i p_i : Nat) (nb : List Int)
    (s s' : Fluid G) (h : nb.foldlM (Fluid.density_body E i p_i) s = some s') :
    s'.c = s.c ∧ s'.dP = s.dP :=
  foldlM_some_inv (fun x => x.c = s.c ∧ x.dP = s.dP) (Fluid.density_body E i p_i) nb
    (fun x a x' _ hx hf => by
      simp only [Fluid.density_body, Option.bind_eq_bind, Option.bind_eq_some,
        Option.some.injEq] at hf
      obtain ⟨x_i, -, x_j, -, d, -, g_temp, -, g, -, rfl⟩ := hf
      exact hx) s s' ⟨rfl, rfl⟩ h

theorem Fluid.SameUpTo.swap {G : Type} {k : Nat} {x y : Fluid G} (h : Fluid.SameUpTo k x y) :
    Fluid.SameUpTo k y x := by
  obtain ⟨h1, h2, h3, h4⟩ := h
  refine ⟨?_, h2.symm, h3.symm, fun p hp => (h4 p hp).symm⟩
  rw [h1]

theorem Fluid.constraint_body_sameUpTo {G : Type} (E : Env G) (i k : Nat) (x y x' : Fluid G)
    (hxy : Fluid.SameUpTo k x y) (hx : Fluid.constraint_body E i x k = some x') :
    ∃ y', Fluid.constraint_body E i y k = some y' ∧ Fluid.SameUpTo (k + 1) x' y' := by
  obtain ⟨h1, h2, h3, h4⟩ := hxy
  simp only [Fluid.constraint_body, Option.bind_eq_bind, Option.bind_eq_some,
    Option.some.injEq, setRow_eq_some] at hx
  obtain ⟨nb, hnb, s1, hs1, d, hd, c1, ⟨hc, rfl⟩, g, hg, l1, ⟨hl, rfl⟩, rfl⟩ := hx
  obtain ⟨kc, kd⟩ := Fluid.density_fold_keeps_c E i k nb x s1 hs1
  have hfold : nb.foldlM (Fluid.density_body E i k) y =
      some { s1 with c := y.c, dP := y.dP } := by
    rw [h1]
    have := foldlM_map_comm (Fluid.density_body E i k)
      (fun r => { r with c := y.c, dP := y.dP })
      (fun r a => Fluid.density_body_comm E i k r a y.c y.dP) nb x
    simp only at this
    rw [this, hs1]
    rfl
  have hny : y.neighbours[i]? = some nb := by rw [h1]; exact hnb
  have hcy : k < y.c.length := by rw [h2, ← kc]; exact hc
  refine ⟨{ s1 with
      c := y.c.set k (d / s1.rho - 1)
      dP := y.dP
      lambda := s1.lambda.set k (-(d / s1.rho - 1) / (g + s1.cfm_epsilon)) }, ?_, ?_⟩
  · simp only [Fluid.constraint_body, Option.bind_eq_bind, hny, Option.some_bind, hfold, hd,
      setRow, hcy, if_true, hg, hl]
  · refine ⟨rfl, ?_, ?_, fun p hp => ?_⟩
    · simp only [List.length_set]; rw [h2, ← kc]
    · show y.dP.length = s1.dP.length
      rw [h3, kd]
    · show (y.c.set k (d / s1.rho - 1))[p]? = (s1.c.set k (d / s1.rho - 1))[p]?
      by_cases hpk : p = k
      · subst hpk
        rw [List.getElem?_set_self hcy, List.getElem?_set_self hc]
      · rw [List.getElem?_set_ne (Ne.symm hpk), List.getElem?_set_ne (Ne.symm hpk), kc]
        exact h4 p (by omega)

theorem Fluid.constraint_loop_sameUpTo {G : Type} (E : Env G) (i n : Nat) :
    ∀ (x y x' : Fluid G), Fluid.SameUpTo 0 x y →
      (List.range n).foldlM (Fluid.constraint_body E i) x = some x' →
      ∃ y', (List.range n).foldlM (Fluid.constraint_body E i) y = some y' ∧
        Fluid.SameUpTo n x' y' := by
  induction n with
  | zero =>
    intro x y x' hxy h
    simp only [List.range_zero, List.foldlM_nil, Option.pure_def, Option.some.injEq] at h
    subst h
    exact ⟨y, rfl, hxy⟩
  | succ n ih =>
    intro x y x' hxy h
    rw [List.range_succ, List.foldlM_append] at h
    simp only [Option.bind_eq_bind, Option.bind_eq_some, List.foldlM_cons, List.foldlM_nil,
      Option.pure_def, Option.bind_some] at h
    obtain ⟨x1, h1, h2⟩ := h
    obtain ⟨y1, hy1, r1⟩ := ih x y x1 hxy h1
    obtain ⟨y', hy', r'⟩ := Fluid.constraint_body_sameUpTo E i n x1 y1 x' r1
      (by simpa using h2)
    refine ⟨y', ?_, r'⟩
    rw [List.range_succ, List.foldlM_append, hy1]
    simpa using hy'

theorem Fluid.constraint_loop_keeps_dP {G : Type} (E : Env G) (i : Nat) (l : List Nat)
    (s s' : Fluid G) (h : l.foldlM (Fluid.constraint_body E i) s = some s') :
    s'.dP = s.dP ∧ s'.c.length = s.c.length :=
  foldlM_some_inv (fun x => x.dP = s.dP ∧ x.c.length = s.c.length)
    (Fluid.constraint_body E i) l
    (fun x a x' _ hx hf => by
      simp only [Fluid.constraint_body, Option.bind_eq_bind, Option.bind_eq_some,
        Option.some.injEq, setRow_eq_some] at hf
      obtain ⟨nb, -, s1, hs1, d, -, c1, ⟨-, rfl⟩, g, -, l1, ⟨-, rfl⟩, rfl⟩ := hf
      obtain ⟨kc, kd⟩ := Fluid.density_fold_keeps_c E i a nb x s1 hs1
      exact ⟨by show s1.dP = s.dP; rw [kd]; exact hx.1,
        by simp only [List.length_set]; rw [kc]; exact hx.2⟩) s s' ⟨rfl, rfl⟩ h

theorem map_const_of_length {α β γ : Type} (a : γ) (l1 : List α) (l2 : List β)
    (h : l1.length = l2.length) : l1.map (fun _ => a) = l2.map (fun _ => a) := by
  rw [List.map_const', List.map_const', h]

theorem Fluid.constraint_stage_scratch {G : Type} (E : Env G) (i : Nat) (s : Fluid G)
    (d l g c' : List ℚ) (dp : Mat) (hd : d.length = s.density.length)
    (hl : l.length = s.lambda.length) (hg : g.length = s.c_grad_norm.length)
    (hc : c'.length = s.c.length) (hdp : dp.length = s.dP.length)
    (hcN : s.c.length ≤ s.num_particles.toNat) :
    Fluid.constraint_stage E i
        { s with density := d, lambda := l, c_grad_norm := g, c := c', dP := dp } =
      (Fluid.constraint_stage E i s).map (fun r => { r with dP := dp }) := by
  unfold Fluid.constraint_stage
  simp only [map_const_of_length (0 : ℚ) d s.density hd,
    map_const_of_length (0 : ℚ) l s.lambda hl, map_const_of_length (0 : ℚ) g s.c_grad_norm hg]
  generalize hx0 : ({ s with
      density := s.density.map (fun _ => 0)
      lambda := s.lambda.map (fun _ => 0)
      c_grad_norm := s.c_grad_norm.map (fun _ => 0) } : Fluid G) = x0
  have hy0 : ({ s with
      density := s.density.map (fun _ => 0)
      lambda := s.lambda.map (fun _ => 0)
      c_grad_norm := s.c_grad_norm.map (fun _ => 0)
      c := c'
      dP := dp } : Fluid G) = { x0 with c := c', dP := dp } := by rw [← hx0]
  rw [hy0]
  have e1 : x0.c = s.c := by rw [← hx0]
  have e2 : x0.dP = s.dP := by rw [← hx0]
  have hrel : Fluid.SameUpTo 0 x0 { x0 with c := c', dP := dp } :=
    ⟨rfl, by rw [e1]; exact hc, by rw [e2]; exact hdp, fun p hp => absurd hp (Nat.not_lt_zero p)⟩
  cases hfx : (List.range s.num_particles.toNat).foldlM (Fluid.constraint_body E i) x0 with
  | none =>
    cases hfy : (List.range s.num_particles.toNat).foldlM (Fluid.constraint_body E i)
        { x0 with c := c', dP := dp } with
    | none => rfl
    | some y' =>
      obtain ⟨x', hx', -⟩ := Fluid.constraint_loop_sameUpTo E i _ _ x0 y' hrel.swap hfy
      rw [hfx] at hx'
      cases hx'
  | some x' =>
    obtain ⟨y', hy', r⟩ := Fluid.constraint_loop_sameUpTo E i _ x0 _ x' hrel hfx
    rw [hy']
    obtain ⟨r1, r2, -, r4⟩ := r
    obtain ⟨kdx, klx⟩ := Fluid.constraint_loop_keeps_dP E i _ x0 x' hfx
    obtain ⟨kdy, -⟩ := Fluid.constraint_loop_keeps_dP E i _ _ y' hy'
    have hcc : y'.c = x'.c := by
      apply List.ext_getElem?
      intro p
      by_cases hp : p < s.num_particles.toNat
      · exact r4 p hp
      · rw [List.getElem?_eq_none (by rw [r2, klx, e1]; omega),
          List.getElem?_eq_none (by rw [klx, e1]; omega)]
    have hdd : y'.dP = dp := kdy
    simp only [Option.map_some', Option.some.injEq]
    rw [r1, hcc, hdd]

theorem Fluid.dP_stage_scratch {G : Type} (E : Env G) (i : Nat) (s : Fluid G) (dp : Mat)
    (hdp : dp.length = s.dP.length) :
    Fluid.dP_stage E i { s with dP := dp } = Fluid.dP_stage E i s := by
  unfold Fluid.dP_stage
  simp only [map_const_of_length Vec3.zero dp s.dP hdp]

/-- C12: a Jacobi iteration run on a state whose density, lambda, gradient-norm, `c` and `dP`
containers have been given arbitrary other contents (of the same sizes, `c` with at most
`num_particles` entries) returns exactly what it returns on the original state: the same
candidate positions, density, `c`, lambda and `dP`, or in both cases nothing. -/
theorem jacobi_iteration_ignores_scratch {G : Type} (E : Env G) (i : Nat) (s : Fluid G)
    (d l g c' : List ℚ) (dp : Mat) (hd : d.length = s.density.length)
    (hl : l.length = s.lambda.length) (hg : g.length = s.c_grad_norm.length)
    (hc : c'.length = s.c.length) (hdp : dp.length = s.dP.length)
    (hcN : s.c.length ≤ s.num_particles.toNat) :
    Fluid.jacobi_iteration E
        { s with density := d, lambda := l, c_grad_norm := g, c := c', dP := dp } i =
      Fluid.jacobi_iteration E s i := by
  unfold Fluid.jacobi_iteration
  rw [Fluid.constraint_stage_scratch E i s d l g c' dp hd hl hg hc hdp hcN]
  cases hx : Fluid.constraint_stage E i s with
  | none => rfl
  | some x =>
    have hlen : dp.length = x.dP.length := by
      have := (Fluid.constraint_stage_keeps E i s x hx).1.2
      simp only [Fluid.shape, Prod.mk.injEq] at this
      omega
    simp only [Option.map_some', Option.some_bind, Fluid.dP_stage_scratch E i x dp hlen]

set_option maxRecDepth 100000 in
/-- C12, evaluated: two particles within the smoothing radius, iteration 0, run once on the
state left by the force integration and once with other numbers in the five containers. -/
theorem jacobi_iteration_ignores_scratch_witness :
    ∃ (s s1 out : Fluid Unit),
      exampleStart 2 1 [⟨0, 0, 0⟩, ⟨1 / 2, 0, 0⟩] = some s ∧
      Fluid.apply_forces (exampleEnv (search_neighbours 1)) s [⟨0, 0, 0⟩, ⟨1 / 2, 0, 0⟩]
        = some s1 ∧
      Fluid.jacobi_iteration (exampleEnv (search_neighbours 1)) s1 0 = some out ∧
      Fluid.jacobi_iteration (exampleEnv (search_neighbours 1))
        { s1 with
          density := [5, 6]
          lambda := [7, 8]
          c_grad_norm := [1, 2]
          c := [3, 4]
          dP := [⟨1, 1, 1⟩, ⟨2, 2, 2⟩] } 0 =
        Fluid.jacobi_iteration (exampleEnv (search_neighbours 1)) s1 0 := by
  have h : ((exampleStart 2 1 [⟨0, 0, 0⟩, ⟨1 / 2, 0, 0⟩]).bind fun s =>
      (Fluid.apply_forces (exampleEnv (search_neighbours 1)) s
        [⟨0, 0, 0⟩, ⟨1 / 2, 0, 0⟩]).bind fun s1 =>
      (Fluid.jacobi_iteration (exampleEnv (search_neighbours 1)) s1 0).bind fun _ =>
        if [(5 : ℚ), 6].length = s1.density.length ∧ [(7 : ℚ), 8].length = s1.lambda.length ∧
          [(1 : ℚ), 2].length = s1.c_grad_norm.length ∧ [(3 : ℚ), 4].length = s1.c.length ∧
          [(⟨1, 1, 1⟩ : Vec3), ⟨2, 2, 2⟩].length = s1.dP.length ∧
          s1.c.length ≤ s1.num_particles.toNat
        then some () else none) = some () := by
    with_unfolding_all decide
  simp only [Option.bind_eq_some] at h
  obtain ⟨s, hs, s1, h1, out, ho, hc⟩ := h
  split at hc
  · rename_i hc'
    exact ⟨s, s1, out, hs, h1, ho,
      jacobi_iteration_ignores_scratch (exampleEnv (search_neighbours 1)) 0 s1
        [5, 6] [7, 8] [1, 2] [3, 4] [⟨1, 1, 1⟩, ⟨2, 2, 2⟩]
        hc'.1 hc'.2.1 hc'.2.2.1 hc'.2.2.2.1 hc'.2.2.2.2.1 hc'.2.2.2.2.2⟩
  · cases hc

/-! ## C17: the velocity reflections do not show in the result -/

theorem OptRel.bind_both {σ : Type} {R : σ → σ → Prop} {a b : Option σ} {f f' : σ → Option σ}
    (hab : OptRel R a b) (hf : ∀ x y, R x y → OptRel R (f x) (f' y)) :
    OptRel R (a.bind f) (b.bind f') := by
  cases a with
  | none =>
    cases b with
    | none => exact trivial
    | some y => exact hab.elim
  | some x =>
    cases b with
    | none => exact hab.elim
    | some y => exact hf x y hab

theorem OptRel.foldlM_both {σ ι : Type} {R : σ → σ → Prop} {f f' : σ → ι → Option σ}
    (hf : ∀ x y a, R x y → OptRel R (f x a) (f' y a)) :
    ∀ (l : List ι) (x y : σ), R x y → OptRel R (l.foldlM f x) (l.foldlM f' y) := by
  intro l
  induction l with
  | nil => intro x y hxy; exact hxy
  | cons a l ih =>
    intro x y hxy
    simp only [List.foldlM_cons, Option.bind_eq_bind]
    exact OptRel.bind_both (hf x y a hxy) (fun x1 y1 h1 => ih x1 y1 h1)

theorem Fluid.SameButV.of_keeps {G : Type} {x y x' : Fluid G} (w : Mat)
    (h : Fluid.SameButV x y) (hk : Fluid.KeepsPositions x x') (hw : w = y.v) :
    Fluid.SameButV x' { x' with v := w } := by
  obtain ⟨-, h2, h3⟩ := h
  obtain ⟨-, kx, kv⟩ := hk
  subst hw
  exact ⟨rfl, by show y.v.length = x'.v.length; rw [kv]; exact h2, by rw [kv, kx]; exact h3⟩

theorem Fluid.density_body_comm_v {G : Type} (E : Env G) (i p_i : Nat) (s : Fluid G)
    (p_j : Int) (w : Mat) :
    Fluid.density_body E i p_i { s with v := w } p_j =
      (Fluid.density_body E i p_i s p_j).map (fun r => { r with v := w }) := by
  have hg : Fluid.c_grad_temp E { s with v := w } p_i p_j = Fluid.c_grad_temp E s p_i p_j := rfl
  unfold Fluid.density_body
  rw [hg]
  simp only [Option.bind_eq_bind]
  cases s.x_new[p_i]? with
  | none => rfl
  | some x_i =>
    cases row? s.x_new p_j with
    | none => rfl
    | some x_j =>
      cases s.density[p_i]? with
      | none => rfl
      | some d =>
        cases Fluid.c_grad_temp E s p_i p_j with
        | none => rfl
        | some g_temp =>
          cases s.c_grad_norm[i]? with
          | none => rfl
          | some g => rfl

theorem Fluid.constraint_body_comm_v {G : Type} (E : Env G) (i : Nat) (s : Fluid G)
    (p_i : Nat) (w : Mat) :
    Fluid.constraint_body E i { s with v := w } p_i =
      (Fluid.constraint_body E i s p_i).map (fun r => { r with v := w }) := by
  unfold Fluid.constraint_body
  simp only [Option.bind_eq_bind]
  cases s.neighbours[i]? with
  | none => rfl
  | some nb =>
    simp only [Option.some_bind]
    have := foldlM_map_comm (Fluid.density_body E i p_i) (fun r => { r with v := w })
      (fun r a => Fluid.density_body_comm_v E i p_i r a w) nb s
    simp only at this
    rw [this]
    cases nb.foldlM (Fluid.density_body E i p_i) s with
    | none => rfl
    | some s1 =>
      simp only [Option.map_some', Option.some_bind]
      cases s1.density[p_i]? with
      | none => rfl
      | some d =>
        simp only [Option.some_bind]
        cases setRow s1.c p_i (d / s1.rho - 1) with
        | none => rfl
        | some c1 =>
          simp only [Option.some_bind]
          cases s1.c_grad_norm[p_i]? with
          | none => rfl
          | some g =>
            simp only [Option.some_bind]
            cases setRow s1.lambda p_i (-(d / s1.rho - 1) / (g + s1.cfm_epsilon)) with
            | none => rfl
            | some l1 => rfl

theorem Fluid.constraint_stage_comm_v {G : Type} (E : Env G) (i : Nat) (s : Fluid G)
    (w : Mat) :
    Fluid.constraint_stage E i { s with v := w } =
      (Fluid.constraint_stage E i s).map (fun r => { r with v := w }) := by
  unfold Fluid.constraint_stage
  exact foldlM_map_comm (Fluid.constraint_body E i) (fun r => { r with v := w })
    (fun r a => Fluid.constraint_body_comm_v E i r a w) (List.range s.num_particles.toNat)
    { s with
      density := s.density.map (fun _ => 0)
      lambda := s.lambda.map (fun _ => 0)
      c_grad_norm := s.c_grad_norm.map (fun _ => 0) }

theorem Fluid.dP_term_comm_v {G : Type} (E : Env G) (p_i : Nat) (s : Fluid G)
    (p_j : Int) (w : Mat) :
    Fluid.dP_term E p_i { s with v := w } p_j =
      (Fluid.dP_term E p_i s p_j).map (fun r => { r with v := w }) := by
  unfold Fluid.dP_term
  simp only [Option.bind_eq_bind]
  cases s.x_new[p_i]? with
  | none => rfl
  | some x_i =>
    cases row? s.x_new p_j with
    | none => rfl
    | some x_j =>
      cases s.lambda[p_i]? with
      | none => rfl
      | some l_i =>
        cases row? s.lambda p_j with
        | none => rfl
        | some l_j =>
          cases s.dP[p_i]? with
          | none => rfl
          | some d => rfl

theorem Fluid.dP_body_comm_v {G : Type} (E : Env G) (i : Nat) (s : Fluid G)
    (p_i : Nat) (w : Mat) :
    Fluid.dP_body E i { s with v := w } p_i =
      (Fluid.dP_body E i s p_i).map (fun r => { r with v := w }) := by
  unfold Fluid.dP_body
  simp only [Option.bind_eq_bind]
  cases s.neighbours[i]? with
  | none => rfl
  | some nb =>
    simp only [Option.some_bind]
    have := foldlM_map_comm (Fluid.dP_term E p_i) (fun r => { r with v := w })
      (fun r a => Fluid.dP_term_comm_v E p_i r a w) nb s
    simp only at this
    rw [this]
    cases nb.foldlM (Fluid.dP_term E p_i) s with
    | none => rfl
    | some s1 =>
      simp only [Option.map_some', Option.some_bind]
      cases s1.dP[p_i]? with
      | none => rfl
      | some d => rfl

theorem Fluid.dP_stage_comm_v {G : Type} (E : Env G) (i : Nat) (s : Fluid G) (w : Mat) :
    Fluid.dP_stage E i { s with v := w } =
      (Fluid.dP_stage E i s).map (fun r => { r with v := w }) := by
  unfold Fluid.dP_stage
  exact foldlM_map_comm (Fluid.dP_body E i) (fun r => { r with v := w })
    (fun r a => Fluid.dP_body_comm_v E i r a w) (List.range s.num_particles.toNat)
    { s with dP := s.dP.map (fun _ => Vec3.zero) }

theorem Fluid.SameButV.of_comm {G : Type} {x y : Fluid G} (f : Fluid G → Option (Fluid G))
    (hcomm : ∀ w, f { x with v := w } = (f x).map (fun r => { r with v := w }))
    (hk : ∀ x', f x = some x' → Fluid.KeepsPositions x x') (h : Fluid.SameButV x y) :
    OptRel Fluid.SameButV (f x) (f y) := by
  have hy : f y = (f x).map (fun r => { r with v := y.v }) := by
    rw [← hcomm y.v, ← h.1]
  rw [hy]
  cases hx : f x with
  | none => exact trivial
  | some x' => exact Fluid.SameButV.of_keeps y.v h (hk x' hx) rfl

theorem Fluid.clamp_lower_rel {G : Type} (p_i : Nat) (x y : Fluid G) (axis : Nat)
    (h : Fluid.SameButV x y) :
    OptRel Fluid.SameButV (Fluid.clamp_lower p_i x axis) (Fluid.clamp_lower_plain p_i y axis) := by
  obtain ⟨h1, h2, h3⟩ := h
  have hx : y.x_new = x.x_new := by rw [h1]
  have hlo : y.lower_bound = x.lower_bound := by rw [h1]
  unfold Fluid.clamp_lower Fluid.clamp_lower_plain
  simp only [Option.bind_eq_bind, hx, hlo]
  cases hr : x.x_new[p_i]? with
  | none => exact trivial
  | some r =>
    have hlt : p_i < x.x_new.length := by
      rcases List.getElem?_eq_some.1 hr with ⟨h, -⟩; exact h
    obtain ⟨w, hw⟩ := getElem?_isSome x.v p_i (by omega)
    simp only [Option.some_bind]
    by_cases hc : r.get axis < x.lower_bound
    · simp only [hc, if_true, hw, Option.some_bind]
      by_cases hv : w.get axis < 0
      · simp only [hv, if_true]
        refine ⟨?_, by simpa using h2, by simpa using h3⟩
        rw [h1]
      · simp only [hv, if_false]
        refine ⟨?_, by simpa using h2, by simpa using h3⟩
        rw [h1]
    · simp only [hc, if_false]
      exact ⟨h1, h2, h3⟩

theorem Fluid.clamp_upper_rel {G : Type} (p_i : Nat) (x y : Fluid G) (axis : Nat)
    (h : Fluid.SameButV x y) :
    OptRel Fluid.SameButV (Fluid.clamp_upper p_i x axis) (Fluid.clamp_upper_plain p_i y axis) := by
  obtain ⟨h1, h2, h3⟩ := h
  have hx : y.x_new = x.x_new := by rw [h1]
  have hhi : y.upper_bound = x.upper_bound := by rw [h1]
  unfold Fluid.clamp_upper Fluid.clamp_upper_plain
  simp only [Option.bind_eq_bind, hx, hhi]
  cases hr : x.x_new[p_i]? with
  | none => exact trivial
  | some r =>
    have hlt : p_i < x.x_new.length := by
      rcases List.getElem?_eq_some.1 hr with ⟨h, -⟩; exact h
    obtain ⟨w, hw⟩ := getElem?_isSome x.v p_i (by omega)
    simp only [Option.some_bind]
    by_cases hc : r.get axis > x.upper_bound
    · simp only [hc, if_true, hw, Option.some_bind]
      by_cases hv : w.get axis > 0
      · simp only [hv, if_true]
        refine ⟨?_, by simpa using h2, by simpa using h3⟩
        rw [h1]
      · simp only [hv, if_false]
        refine ⟨?_, by simpa using h2, by simpa using h3⟩
        rw [h1]
    · simp only [hc, if_false]
      exact ⟨h1, h2, h3⟩

theorem Fluid.clamp_axis_rel {G : Type} (p_i : Nat) (x y : Fluid G) (axis : Nat)
    (h : Fluid.SameButV x y) :
    OptRel Fluid.SameButV (Fluid.clamp_axis p_i x axis) (Fluid.clamp_axis_plain p_i y axis) :=
  OptRel.bind_both (Fluid.clamp_lower_rel p_i x y axis h)
    (fun x1 y1 h1 => Fluid.clamp_upper_rel p_i x1 y1 axis h1)

theorem Fluid.collision_body_rel {G : Type} (x y : Fluid G) (p_i : Nat)
    (h : Fluid.SameButV x y) :
    OptRel Fluid.SameButV (Fluid.collision_body x p_i) (Fluid.collision_body_plain y p_i) := by
  obtain ⟨h1, h2, h3⟩ := h
  have hx : y.x_new = x.x_new := by rw [h1]
  have hd : y.dP = x.dP := by rw [h1]
  unfold Fluid.collision_body Fluid.collision_body_plain
  simp only [Option.bind_eq_bind, hx, hd]
  cases x.x_new[p_i]? with
  | none => exact trivial
  | some r =>
    cases x.dP[p_i]? with
    | none => exact trivial
    | some d =>
      simp only [Option.some_bind]
      refine OptRel.foldlM_both (fun x1 y1 a h1 => Fluid.clamp_axis_rel p_i x1 y1 a h1)
        [0, 1, 2] _ _ ⟨?_, by simpa using h2, by simpa using h3⟩
      rw [h1]

theorem Fluid.collision_stage_rel {G : Type} (x y : Fluid G) (h : Fluid.SameButV x y) :
    OptRel Fluid.SameButV (Fluid.collision_stage x) (Fluid.collision_stage_plain y) := by
  have hN : y.num_particles = x.num_particles := by rw [h.1]
  unfold Fluid.collision_stage Fluid.collision_stage_plain
  rw [hN]
  exact OptRel.foldlM_both (fun x1 y1 a h1 => Fluid.collision_body_rel x1 y1 a h1) _ x y h

theorem Fluid.jacobi_iteration_rel {G : Type} (E : Env G) (x y : Fluid G) (i : Nat)
    (h : Fluid.SameButV x y) :
    OptRel Fluid.SameButV (Fluid.jacobi_iteration E x i) (Fluid.jacobi_iteration_plain E y i) := by
  unfold Fluid.jacobi_iteration Fluid.jacobi_iteration_plain
  refine OptRel.bind_both (OptRel.bind_both ?_ ?_) Fluid.collision_stage_rel
  · exact Fluid.SameButV.of_comm (Fluid.constraint_stage E i)
      (fun w => Fluid.constraint_stage_comm_v E i x w)
      (fun x' hx' => Fluid.constraint_stage_keeps E i x x' hx') h
  · intro x1 y1 h1
    exact Fluid.SameButV.of_comm (Fluid.dP_stage E i)
      (fun w => Fluid.dP_stage_comm_v E i x1 w)
      (fun x' hx' => Fluid.dP_stage_keeps E i x1 x' hx') h1

/-- C17: for every state and every pair of buffers, `step` returns exactly what the variant
without the two velocity reflections returns: the same state (velocities and clock included),
the same position buffer and the same colours, or in both cases nothing. -/
theorem step_eq_step_plain {G : Type} (E : Env G) (s : Fluid G) (fluid_state colors : Mat) :
    Fluid.step E s fluid_state colors = Fluid.step_plain E s fluid_state colors := by
  unfold Fluid.step Fluid.step_plain
  simp only [Option.bind_eq_bind]
  cases h1 : Fluid.apply_forces E s fluid_state with
  | none => rfl
  | some s1 =>
    simp only [Option.some_bind]
    obtain ⟨hv, hfs, hs1⟩ := (Fluid.apply_forces_eq_some E s fluid_state s1).1 h1
    have hrel : Fluid.SameButV s1 s1 := by
      refine ⟨rfl, rfl, ?_⟩
      rw [hs1]
      simp only [List.length_zipWith]
      omega
    have key := OptRel.foldlM_both
      (fun x y a hxy => Fluid.jacobi_iteration_rel E x y a hxy)
      (List.range s1.jacobi_iterations.toNat) s1 s1 hrel
    cases hx : (List.range s1.jacobi_iterations.toNat).foldlM (Fluid.jacobi_iteration E) s1 with
    | none =>
      cases hy : (List.range s1.jacobi_iterations.toNat).foldlM
          (Fluid.jacobi_iteration_plain E) s1 with
      | none => rfl
      | some y => rw [hx, hy] at key; exact key.elim
    | some x =>
      cases hy : (List.range s1.jacobi_iterations.toNat).foldlM
          (Fluid.jacobi_iteration_plain E) s1 with
      | none => rw [hx, hy] at key; exact key.elim
      | some y =>
        rw [hx, hy] at key
        obtain ⟨k1, -, -⟩ := key
        have e1 : y.x_new = x.x_new := by rw [k1]
        have e2 : y.dt = x.dt := by rw [k1]
        have e3 : Fluid.debug_colors y colors = Fluid.debug_colors x colors := by
          unfold Fluid.debug_colors
          rw [show y.num_particles = x.num_particles by rw [k1],
            show y.neighbours = x.neighbours by rw [k1]]
        simp only [Option.some_bind, e1, e2, e3]
        cases zipSame (fun a b => (Vec3.sub a b).sdiv x.dt) x.x_new fluid_state with
        | none => rfl
        | some v2 =>
          simp only [Option.some_bind]
          cases Fluid.debug_colors x colors with
          | none => rfl
          | some colors1 =>
            simp only [Option.some_bind, Option.some.injEq, Prod.mk.injEq, and_true]
            rw [k1]
/-! ### Machine numbers: Frames: what the stages of the Jacobi loop leave alone -/

theorem MFluid.Frame.m_frame_refl {α G : Type} [Machine α] (s : MFluid α G) : MFluid.Frame s s := ⟨rfl, rfl⟩

theorem MFluid.Frame.m_frame_trans {α G : Type} [Machine α] {s1 s2 s3 : MFluid α G} (h1 : MFluid.Frame s1 s2)
    (h2 : MFluid.Frame s2 s3) : MFluid.Frame s1 s3 :=
  ⟨h2.1.trans h1.1, h2.2.trans h1.2⟩

theorem MFluid.m_frame_foldlM {α G ι : Type} [Machine α] (f : MFluid α G → ι → Option (MFluid α G)) (l : List ι)
    (h : ∀ s a s', f s a = some s' → MFluid.Frame s s') (s s' : MFluid α G)
    (he : l.foldlM f s = some s') : MFluid.Frame s s' :=
  foldlM_some_inv (fun x => MFluid.Frame s x) f l
    (fun x a x' _ hx hf => hx.m_frame_trans (h x a x' hf)) s s' (MFluid.Frame.m_frame_refl s) he


theorem MFluid.KeepsPositions.m_keeps_refl {α G : Type} [Machine α] (s : MFluid α G) : MFluid.KeepsPositions s s :=
  ⟨MFluid.Frame.m_frame_refl s, rfl, rfl⟩

theorem MFluid.KeepsPositions.m_keeps_trans {α G : Type} [Machine α] {s1 s2 s3 : MFluid α G}
    (h1 : MFluid.KeepsPositions s1 s2) (h2 : MFluid.KeepsPositions s2 s3) :
    MFluid.KeepsPositions s1 s3 :=
  ⟨h1.1.m_frame_trans h2.1, h2.2.1.trans h1.2.1, h2.2.2.trans h1.2.2⟩

theorem MFluid.m_keepsPositions_foldlM {α G ι : Type} [Machine α] (f : MFluid α G → ι → Option (MFluid α G))
    (l : List ι) (h : ∀ s a s', f s a = some s' → MFluid.KeepsPositions s s') (s s' : MFluid α G)
    (he : l.foldlM f s = some s') : MFluid.KeepsPositions s s' :=
  foldlM_some_inv (fun x => MFluid.KeepsPositions s x) f l
    (fun x a x' _ hx hf => hx.m_keeps_trans (h x a x' hf)) s s' (MFluid.KeepsPositions.m_keeps_refl s) he

theorem MFluid.m_density_body_keeps {α G : Type} [Machine α] (E : MEnv α G) (i p_i : Nat)
    (s : MFluid α G) (p_j : Int)
    (s' : MFluid α G) (h : MFluid.density_body E i p_i s p_j = some s') :
    MFluid.KeepsPositions s s' := by
  simp only [MFluid.density_body, Option.bind_eq_bind, Option.bind_eq_some, Option.some.injEq] at h
  obtain ⟨x_i, -, x_j, -, d, -, g_temp, -, g, -, rfl⟩ := h
  simp [MFluid.KeepsPositions, MFluid.Frame, MFluid.static, MFluid.shape]

theorem MFluid.m_constraint_body_keeps {α G : Type} [Machine α] (E : MEnv α G) (i : Nat)
    (s : MFluid α G) (p_i : Nat)
    (s' : MFluid α G) (h : MFluid.constraint_body E i s p_i = some s') :
    MFluid.KeepsPositions s s' := by
  simp only [MFluid.constraint_body, Option.bind_eq_bind, Option.bind_eq_some,
    Option.some.injEq, setRow_eq_some] at h
  obtain ⟨nb, -, s1, h1, d, -, c1, ⟨-, rfl⟩, g, -, l1, ⟨-, rfl⟩, rfl⟩ := h
  have hk := MFluid.m_keepsPositions_foldlM _ nb (MFluid.m_density_body_keeps E i p_i) s s1 h1
  refine hk.m_keeps_trans ?_
  simp [MFluid.KeepsPositions, MFluid.Frame, MFluid.static, MFluid.shape]

theorem MFluid.m_constraint_stage_keeps {α G : Type} [Machine α] (E : MEnv α G) (i : Nat)
    (s s' : MFluid α G)
    (h : MFluid.constraint_stage E i s = some s') : MFluid.KeepsPositions s s' := by
  unfold MFluid.constraint_stage at h
  have hk := MFluid.m_keepsPositions_foldlM _ _ (MFluid.m_constraint_body_keeps E i) _ s' h
  refine MFluid.KeepsPositions.m_keeps_trans ?_ hk
  simp [MFluid.KeepsPositions, MFluid.Frame, MFluid.static, MFluid.shape]

theorem MFluid.m_dP_term_keeps {α G : Type} [Machine α] (E : MEnv α G) (p_i : Nat)
    (s : MFluid α G) (p_j : Int)
    (s' : MFluid α G) (h : MFluid.dP_term E p_i s p_j = some s') : MFluid.KeepsPositions s s' := by
  simp only [MFluid.dP_term, Option.bind_eq_bind, Option.bind_eq_some, Option.some.injEq] at h
  obtain ⟨x_i, -, x_j, -, l_i, -, l_j, -, d, -, rfl⟩ := h
  simp [MFluid.KeepsPositions, MFluid.Frame, MFluid.static, MFluid.shape]

theorem MFluid.m_dP_body_keeps {α G : Type} [Machine α] (E : MEnv α G) (i : Nat)
    (s : MFluid α G) (p_i : Nat)
    (s' : MFluid α G) (h : MFluid.dP_body E i s p_i = some s') : MFluid.KeepsPositions s s' := by
  simp only [MFluid.dP_body, Option.bind_eq_bind, Option.bind_eq_some, Option.some.injEq] at h
  obtain ⟨nb, -, s1, h1, d, -, rfl⟩ := h
  have hk := MFluid.m_keepsPositions_foldlM _ nb (MFluid.m_dP_term_keeps E p_i) s s1 h1
  refine hk.m_keeps_trans ?_
  simp [MFluid.KeepsPositions, MFluid.Frame, MFluid.static, MFluid.shape]

theorem MFluid.m_dP_stage_keeps {α G : Type} [Machine α] (E : MEnv α G) (i : Nat)
    (s s' : MFluid α G)
    (h : MFluid.dP_stage E i s = some s') : MFluid.KeepsPositions s s' := by
  unfold MFluid.dP_stage at h
  have hk := MFluid.m_keepsPositions_foldlM _ _ (MFluid.m_dP_body_keeps E i) _ s' h
  refine MFluid.KeepsPositions.m_keeps_trans ?_ hk
  simp [MFluid.KeepsPositions, MFluid.Frame, MFluid.static, MFluid.shape]

/-! ### Machine numbers: The collision stage -/

theorem MVec3.m_set_get_self {α : Type} (r : MVec3 α)
    (axis : Nat) : r.set axis (r.get axis) = r := by
  rcases axis with _ | _ | n <;> rfl

theorem MVec3.m_set_set {α : Type} (r : MVec3 α) (axis : Nat) (a b : α) :
    (r.set axis a).set axis b = r.set axis b := by
  rcases axis with _ | _ | n <;> rfl

theorem MVec3.m_get_set {α : Type} (r : MVec3 α) (axis : Nat)
    (a : α) : (r.set axis a).get axis = a := by
  rcases axis with _ | _ | n <;> rfl

theorem MFluid.m_clamp_lower_spec {α G : Type} [Machine α] (p_i : Nat) (s : MFluid α G)
    (axis : Nat) (s' : MFluid α G)
    (h : MFluid.clamp_lower p_i s axis = some s') :
    MFluid.Frame s s' ∧ ∃ r, s.x_new[p_i]? = some r ∧
      s'.x_new = s.x_new.set p_i
        (r.set axis (if r.get axis < s.lower_bound then s.lower_bound else r.get axis)) := by
  simp only [MFluid.clamp_lower, Option.bind_eq_bind, Option.bind_eq_some] at h
  obtain ⟨r, hr, h⟩ := h
  have hset : s.x_new.set p_i r = s.x_new := by
    apply List.ext_getElem? ; intro k
    rw [List.getElem?_set]
    split
    · subst_vars; split
      · exact hr.symm
      · rename_i hlt; simp [List.getElem?_eq_none (Nat.le_of_not_lt hlt)]
    · rfl
  split at h
  · rename_i hlt
    simp only [Option.bind_eq_some] at h
    obtain ⟨w, -, h⟩ := h
    split at h <;> simp only [Option.some.injEq] at h <;> subst h <;>
      exact ⟨by simp [MFluid.Frame, MFluid.static, MFluid.shape], r, hr, by simp [hlt]⟩
  · rename_i hlt
    simp only [Option.some.injEq] at h
    subst h
    exact ⟨MFluid.Frame.m_frame_refl _, r, hr, by simp [hlt, MVec3.m_set_get_self, hset]⟩


theorem MFluid.m_clamp_upper_spec {α G : Type} [Machine α] (p_i : Nat) (s : MFluid α G)
    (axis : Nat) (s' : MFluid α G)
    (h : MFluid.clamp_upper p_i s axis = some s') :
    MFluid.Frame s s' ∧ ∃ r, s.x_new[p_i]? = some r ∧
      s'.x_new = s.x_new.set p_i
        (r.set axis (if r.get axis > s.upper_bound then s.upper_bound else r.get axis)) := by
  simp only [MFluid.clamp_upper, Option.bind_eq_bind, Option.bind_eq_some] at h
  obtain ⟨r, hr, h⟩ := h
  have hset : s.x_new.set p_i r = s.x_new := by
    apply List.ext_getElem? ; intro k
    rw [List.getElem?_set]
    split
    · subst_vars; split
      · exact hr.symm
      · rename_i hlt; simp [List.getElem?_eq_none (Nat.le_of_not_lt hlt)]
    · rfl
  split at h
  · rename_i hlt
    simp only [Option.bind_eq_some] at h
    obtain ⟨w, -, h⟩ := h
    split at h <;> simp only [Option.some.injEq] at h <;> subst h <;>
      exact ⟨by simp [MFluid.Frame, MFluid.static, MFluid.shape], r, hr, by simp [hlt]⟩
  · rename_i hlt
    simp only [Option.some.injEq] at h
    subst h
    exact ⟨MFluid.Frame.m_frame_refl _, r, hr, by simp [hlt, MVec3.m_set_get_self, hset]⟩

theorem MFluid.Frame.m_lower_bound_eq {α G : Type} [Machine α] {s s' : MFluid α G} (h : MFluid.Frame s s') :
    s'.lower_bound = s.lower_bound := by
  have := h.1; simp only [MFluid.static, Prod.mk.injEq] at this; tauto

theorem MFluid.Frame.m_upper_bound_eq {α G : Type} [Machine α] {s s' : MFluid α G} (h : MFluid.Frame s s') :
    s'.upper_bound = s.upper_bound := by
  have := h.1; simp only [MFluid.static, Prod.mk.injEq] at this; tauto

theorem MFluid.Frame.m_num_particles_eq {α G : Type} [Machine α] {s s' : MFluid α G} (h : MFluid.Frame s s') :
    s'.num_particles = s.num_particles := by
  have := h.1; simp only [MFluid.static, Prod.mk.injEq] at this; tauto

theorem MFluid.Frame.m_neighbours_eq {α G : Type} [Machine α] {s s' : MFluid α G} (h : MFluid.Frame s s') :
    s'.neighbours = s.neighbours := by
  have := h.1; simp only [MFluid.static, Prod.mk.injEq] at this; tauto

theorem MFluid.Frame.m_x_new_length {α G : Type} [Machine α] {s s' : MFluid α G} (h : MFluid.Frame s s') :
    s'.x_new.length = s.x_new.length := by
  have := h.2; simp only [MFluid.shape, Prod.mk.injEq] at this; tauto

theorem MFluid.Frame.m_v_length {α G : Type} [Machine α] {s s' : MFluid α G} (h : MFluid.Frame s s') :
    s'.v.length = s.v.length := by
  have := h.2; simp only [MFluid.shape, Prod.mk.injEq] at this; tauto

theorem MFluid.m_clamp_axis_spec {α G : Type} [Machine α] (p_i : Nat) (s : MFluid α G)
    (axis : Nat) (s' : MFluid α G)
    (h : MFluid.clamp_axis p_i s axis = some s') :
    MFluid.Frame s s' ∧ ∃ r, s.x_new[p_i]? = some r ∧
      s'.x_new = s.x_new.set p_i
        (r.set axis (machine_clamp_coord s.lower_bound s.upper_bound (r.get axis))) := by
  simp only [MFluid.clamp_axis, Option.bind_eq_some] at h
  obtain ⟨s1, h1, h2⟩ := h
  obtain ⟨f1, r, hr, hx1⟩ := MFluid.m_clamp_lower_spec p_i s axis s1 h1
  obtain ⟨f2, r1, hr1, hx2⟩ := MFluid.m_clamp_upper_spec p_i s1 axis s' h2
  refine ⟨f1.m_frame_trans f2, r, hr, ?_⟩
  have hlt : p_i < s.x_new.length := by
    rcases List.getElem?_eq_some.1 hr with ⟨h, -⟩; exact h
  rw [hx1, List.getElem?_set_self hlt] at hr1
  simp only [Option.some.injEq] at hr1
  subst hr1
  rw [hx2, hx1, List.set_set, MVec3.m_set_set, MVec3.m_get_set, f1.m_upper_bound_eq]
  rfl

theorem MFluid.m_collision_body_spec {α G : Type} [Machine α] (s : MFluid α G) (p_i : Nat)
    (s' : MFluid α G)
    (h : MFluid.collision_body s p_i = some s') :
    MFluid.Frame s s' ∧ ∃ r d, s.x_new[p_i]? = some r ∧ s.dP[p_i]? = some d ∧
      s'.x_new = s.x_new.set p_i
        (MVec3.clamp s.lower_bound s.upper_bound (r.add (MVec3.smul Machine.c005 d))) := by
  simp only [MFluid.collision_body, Option.bind_eq_bind, Option.bind_eq_some, List.foldlM_cons,
    List.foldlM_nil, Option.pure_def] at h
  obtain ⟨r, hr, d, hd, s1, h1, s2, h2, s3, h3, h4⟩ := h
  simp only [Option.some.injEq] at h4
  subst h4
  have hlt : p_i < s.x_new.length := by
    rcases List.getElem?_eq_some.1 hr with ⟨h, -⟩; exact h
  obtain ⟨f1, r1, hr1, hx1⟩ := MFluid.m_clamp_axis_spec p_i _ 0 s1 h1
  obtain ⟨f2, r2, hr2, hx2⟩ := MFluid.m_clamp_axis_spec p_i s1 1 s2 h2
  obtain ⟨f3, r3, hr3, hx3⟩ := MFluid.m_clamp_axis_spec p_i s2 2 s3 h3
  have f0 : MFluid.Frame s { s with x_new := s.x_new.set p_i (r.add (MVec3.smul Machine.c005 d)) } := by
    simp [MFluid.Frame, MFluid.static, MFluid.shape]
  refine ⟨((f0.m_frame_trans f1).m_frame_trans f2).m_frame_trans f3, r, d, hr, hd, ?_⟩
  simp only [List.getElem?_set_self hlt, Option.some.injEq] at hr1
  subst hr1
  simp only [List.set_set] at hx1
  rw [hx1, List.getElem?_set_self hlt] at hr2
  simp only [Option.some.injEq] at hr2
  subst hr2
  rw [hx2, hx1, List.set_set, List.getElem?_set_self hlt] at hr3
  simp only [Option.some.injEq] at hr3
  subst hr3
  rw [hx3, hx2, hx1, List.set_set, List.set_set, f2.m_lower_bound_eq, f2.m_upper_bound_eq,
    f1.m_lower_bound_eq, f1.m_upper_bound_eq]
  rfl

theorem machine_clamp_coord_notOutside {α : Type} [Machine α] (lo hi x : α) (h : ¬ hi < lo) :
    Machine.NotOutside lo hi (machine_clamp_coord lo hi x) := by
  unfold machine_clamp_coord Machine.NotOutside
  dsimp only
  by_cases h1 : x < lo
  · rw [if_pos h1, if_neg (show ¬ lo > hi from h)]
    exact ⟨Machine.lt_self lo, h⟩
  · rw [if_neg h1]
    by_cases h2 : x > hi
    · rw [if_pos h2]; exact ⟨h, Machine.lt_self hi⟩
    · rw [if_neg h2]; exact ⟨h1, h2⟩

theorem MVec3.clamp_notOutside {α : Type} [Machine α] (lo hi : α) (r : MVec3 α) (h : ¬ hi < lo) :
    (MVec3.clamp lo hi r).NotOutside lo hi :=
  ⟨machine_clamp_coord_notOutside lo hi r.x h, machine_clamp_coord_notOutside lo hi r.y h,
    machine_clamp_coord_notOutside lo hi r.z h⟩

theorem MFluid.m_collision_stage_spec {α G : Type} [Machine α] (s s' : MFluid α G)
    (h : MFluid.collision_stage s = some s') :
    MFluid.Frame s s' ∧
      (¬ s.upper_bound < s.lower_bound → s'.BoundedBelow s.num_particles.toNat) := by
  unfold MFluid.collision_stage at h
  have key := foldlM_range_inv
    (fun k x => MFluid.Frame s x ∧ (¬ s.upper_bound < s.lower_bound → x.BoundedBelow k))
    MFluid.collision_body s.num_particles.toNat ?_ s s'
    ⟨MFluid.Frame.m_frame_refl s, fun _ p r hp => absurd hp (Nat.not_lt_zero p)⟩ h
  · exact key
  · intro k x x' _ hx hb
    obtain ⟨f, r, d, hr, -, hx'⟩ := MFluid.m_collision_body_spec x k x' hb
    refine ⟨hx.1.m_frame_trans f, fun hle p q hp hq => ?_⟩
    have hlo : x'.lower_bound = x.lower_bound := f.m_lower_bound_eq
    have hhi : x'.upper_bound = x.upper_bound := f.m_upper_bound_eq
    have hlo0 : x.lower_bound = s.lower_bound := hx.1.m_lower_bound_eq
    have hhi0 : x.upper_bound = s.upper_bound := hx.1.m_upper_bound_eq
    have hlt : k < x.x_new.length := by
      rcases List.getElem?_eq_some.1 hr with ⟨h, -⟩; exact h
    rw [hx'] at hq
    rw [hlo, hhi]
    by_cases hpk : p = k
    · subst hpk
      rw [List.getElem?_set_self hlt] at hq
      simp only [Option.some.injEq] at hq
      subst hq
      exact MVec3.clamp_notOutside _ _ _ (by rw [hlo0, hhi0]; exact hle)
    · rw [List.getElem?_set_ne (Ne.symm hpk)] at hq
      exact hx.2 hle p q (by omega) hq

theorem MFluid.m_jacobi_iteration_spec {α G : Type} [Machine α] (E : MEnv α G)
    (s : MFluid α G) (i : Nat) (s' : MFluid α G)
    (h : MFluid.jacobi_iteration E s i = some s') :
    MFluid.Frame s s' ∧
      (¬ s.upper_bound < s.lower_bound → s'.BoundedBelow s.num_particles.toNat) := by
  simp only [MFluid.jacobi_iteration, Option.bind_eq_some] at h
  obtain ⟨s2, ⟨s1, h1, h2⟩, h3⟩ := h
  have k1 := MFluid.m_constraint_stage_keeps E i s s1 h1
  have k2 := MFluid.m_dP_stage_keeps E i s1 s2 h2
  obtain ⟨f3, hb⟩ := MFluid.m_collision_stage_spec s2 s' h3
  have f12 := k1.1.m_frame_trans k2.1
  rw [f12.m_lower_bound_eq, f12.m_upper_bound_eq, f12.m_num_particles_eq] at hb
  exact ⟨f12.m_frame_trans f3, hb⟩

theorem MFluid.m_jacobi_loop_spec {α G : Type} [Machine α] (E : MEnv α G) (s : MFluid α G)
    (n : Nat) (s' : MFluid α G)
    (h : (List.range n).foldlM (MFluid.jacobi_iteration E) s = some s') :
    MFluid.Frame s s' ∧
      (1 ≤ n → ¬ s.upper_bound < s.lower_bound → s'.BoundedBelow s.num_particles.toNat) := by
  have key := foldlM_range_inv
    (fun k x => MFluid.Frame s x ∧
      (1 ≤ k → ¬ s.upper_bound < s.lower_bound → x.BoundedBelow s.num_particles.toNat))
    (MFluid.jacobi_iteration E) n ?_ s s' ⟨MFluid.Frame.m_frame_refl s, fun h0 => absurd h0 (by decide)⟩ h
  · exact key
  · intro k x x' _ hx hb
    obtain ⟨f, hbd⟩ := MFluid.m_jacobi_iteration_spec E x k x' hb
    rw [hx.1.m_lower_bound_eq, hx.1.m_upper_bound_eq, hx.1.m_num_particles_eq] at hbd
    exact ⟨hx.1.m_frame_trans f, fun _ hle => hbd hle⟩


/-! ### Machine numbers: Every access of an iteration is inside its container -/

theorem MFluid.Ready.m_of_frame {α G : Type} [Machine α] {s s' : MFluid α G} (hr : s.Ready)
    (hf : MFluid.Frame s s') :
    s'.Ready := by
  obtain ⟨h1, h2⟩ := hf
  simp only [MFluid.static, MFluid.shape, Prod.mk.injEq] at h1 h2
  obtain ⟨hN, -, -, -, -, -, -, -, -, -, -, -, -, -, hnb, hgf, -⟩ := h1
  obtain ⟨a1, a2, a3, a4, a5, a6, a7⟩ := h2
  unfold MFluid.Ready MFluid.Sized at *
  rw [hN, hnb, hgf, a1, a2, a3, a4, a5, a6, a7]
  exact hr

theorem MFluid.m_c_grad_self_isSome {α G : Type} [Machine α] (E : MEnv α G) (s : MFluid α G)
    (x_i : MVec3 α)
    (nb : List Int) (h : ∀ j ∈ nb, 0 ≤ j ∧ j.toNat < s.x_new.length) :
    ∃ g, MFluid.c_grad_self E s x_i nb = some g := by
  unfold MFluid.c_grad_self
  obtain ⟨g, hg, -⟩ := foldlM_isSome_inv (fun _ => True)
    (fun acc p_k =>
      (row? s.x_new p_k).map (fun x_k => acc.add (E.kernel_spiky x_i x_k s.kernel_h)))
    nb (fun acc a ha _ => by
    obtain ⟨x_k, hk⟩ := row?_isSome s.x_new a (h a ha).1 (by have := (h a ha).2; omega)
    simp [hk]) MVec3.zero trivial
  exact ⟨g, hg⟩

theorem MFluid.m_c_grad_temp_isSome {α G : Type} [Machine α] (E : MEnv α G) (s : MFluid α G)
    (hr : s.Ready)
    (p_i : Nat) (p_j : Int) (hp : p_i < s.num_particles.toNat)
    (hj : 0 ≤ p_j ∧ p_j.toNat < s.num_particles.toNat) :
    ∃ g, MFluid.c_grad_temp E s p_i p_j = some g := by
  obtain ⟨-, hx, hn, hidx⟩ := hr
  obtain ⟨x_i, hxi⟩ := getElem?_isSome s.x_new p_i (by omega)
  obtain ⟨x_j, hxj⟩ := row?_isSome s.x_new p_j hj.1 (by omega)
  obtain ⟨nb, hnb⟩ := getElem?_isSome s.neighbours p_i (by omega)
  obtain ⟨g, hg⟩ := MFluid.m_c_grad_self_isSome E s x_i nb
    (fun j hjm => by have := hidx.of_getElem? hnb hjm; omega)
  unfold MFluid.c_grad_temp
  by_cases he : (p_i : Int) = p_j
  · exact ⟨g, by simp [hxi, he, hnb, hg]⟩
  · simp [hxi, he, hxj]

theorem MFluid.m_density_body_isSome {α G : Type} [Machine α] (E : MEnv α G) (s : MFluid α G)
    (hr : s.Ready)
    (i p_i : Nat) (p_j : Int) (hi : i < s.num_particles.toNat)
    (hp : p_i < s.num_particles.toNat)
    (hj : 0 ≤ p_j ∧ p_j.toNat < s.num_particles.toNat) :
    ∃ s', MFluid.density_body E i p_i s p_j = some s' := by
  obtain ⟨g_temp, hgt⟩ := MFluid.m_c_grad_temp_isSome E s hr p_i p_j hp hj
  obtain ⟨⟨-, -, hden, -, -, hg, -⟩, hx, -, -⟩ := hr
  obtain ⟨x_i, hxi⟩ := getElem?_isSome s.x_new p_i (by omega)
  obtain ⟨x_j, hxj⟩ := row?_isSome s.x_new p_j hj.1 (by omega)
  obtain ⟨d, hd⟩ := getElem?_isSome s.density p_i (by omega)
  obtain ⟨g, hgn⟩ := getElem?_isSome s.c_grad_norm i (by omega)
  simp [MFluid.density_body, hxi, hxj, hd, hgt, hgn]

theorem MFluid.m_constraint_body_isSome {α G : Type} [Machine α] (E : MEnv α G)
    (s : MFluid α G) (hr : s.Ready)
    (i p_i : Nat) (hi : i < s.num_particles.toNat) (hp : p_i < s.num_particles.toNat) :
    ∃ s', MFluid.constraint_body E i s p_i = some s' := by
  obtain ⟨nb, hnb⟩ := getElem?_isSome s.neighbours i (by rw [hr.2.2.1]; exact hi)
  obtain ⟨s1, h1, f1⟩ := foldlM_isSome_inv (fun x => MFluid.Frame s x)
    (MFluid.density_body E i p_i) nb (fun x a ha hx => by
      have hN := hx.m_num_particles_eq
      obtain ⟨x', hx'⟩ := MFluid.m_density_body_isSome E x (hr.m_of_frame hx) i p_i a
        (by rw [hN]; exact hi) (by rw [hN]; exact hp)
        (by rw [hN]; exact hr.2.2.2.of_getElem? hnb ha)
      exact ⟨x', hx', hx.m_frame_trans (MFluid.m_density_body_keeps E i p_i x a x' hx').1⟩) s
    (MFluid.Frame.m_frame_refl s)
  have hN := f1.m_num_particles_eq
  obtain ⟨⟨-, -, hden, hc, hl, hg, -⟩, -, -, -⟩ := hr.m_of_frame f1
  obtain ⟨d, hd⟩ := getElem?_isSome s1.density p_i (by omega)
  obtain ⟨g, hgn⟩ := getElem?_isSome s1.c_grad_norm p_i (by omega)
  have hc1 : p_i < s1.c.length := by omega
  have hl1 : p_i < s1.lambda.length := by omega
  simp [MFluid.constraint_body, hnb, h1, hd, hgn, setRow, hc1, hl1]

theorem MFluid.m_range_loop_isSome {α G : Type} [Machine α] (f : MFluid α G → Nat → Option (MFluid α G)) (n : Nat)
    (s : MFluid α G) (hr : s.Ready)
    (hf : ∀ x, x.Ready → MFluid.Frame s x → ∀ k, k < n →
      ∃ x', f x k = some x' ∧ MFluid.Frame x x') :
    ∃ s', (List.range n).foldlM f s = some s' ∧ MFluid.Frame s s' :=
  foldlM_isSome_inv (fun x => MFluid.Frame s x) f (List.range n) (fun x k hk hx => by
    obtain ⟨x', h1, h2⟩ := hf x (hr.m_of_frame hx) hx k (List.mem_range.1 hk)
    exact ⟨x', h1, hx.m_frame_trans h2⟩) s (MFluid.Frame.m_frame_refl s)

theorem MFluid.m_constraint_stage_isSome {α G : Type} [Machine α] (E : MEnv α G)
    (s : MFluid α G) (hr : s.Ready)
    (i : Nat) (hi : i < s.num_particles.toNat) :
    ∃ s', MFluid.constraint_stage E i s = some s' := by
  unfold MFluid.constraint_stage
  have f0 : MFluid.Frame s { s with
      density := s.density.map (fun _ => 0)
      lambda := s.lambda.map (fun _ => 0)
      c_grad_norm := s.c_grad_norm.map (fun _ => 0) } := by
    simp [MFluid.Frame, MFluid.static, MFluid.shape]
  obtain ⟨s', h, -⟩ := MFluid.m_range_loop_isSome (MFluid.constraint_body E i)
    s.num_particles.toNat _ (hr.m_of_frame f0) (fun x hx fx k hk => by
      have hN : x.num_particles = s.num_particles := fx.m_num_particles_eq
      obtain ⟨x', hx'⟩ := MFluid.m_constraint_body_isSome E x hx i k
        (by rw [hN]; exact hi) (by rw [hN]; exact hk)
      exact ⟨x', hx', (MFluid.m_constraint_body_keeps E i x k x' hx').1⟩)
  exact ⟨s', h⟩


theorem MFluid.m_dP_term_isSome {α G : Type} [Machine α] (E : MEnv α G) (s : MFluid α G)
    (hr : s.Ready)
    (p_i : Nat) (p_j : Int) (hp : p_i < s.num_particles.toNat)
    (hj : 0 ≤ p_j ∧ p_j.toNat < s.num_particles.toNat) :
    ∃ s', MFluid.dP_term E p_i s p_j = some s' := by
  obtain ⟨⟨-, hdP, -, -, hl, -, -⟩, hx, -, -⟩ := hr
  obtain ⟨x_i, hxi⟩ := getElem?_isSome s.x_new p_i (by omega)
  obtain ⟨x_j, hxj⟩ := row?_isSome s.x_new p_j hj.1 (by omega)
  obtain ⟨l_i, hli⟩ := getElem?_isSome s.lambda p_i (by omega)
  obtain ⟨l_j, hlj⟩ := row?_isSome s.lambda p_j hj.1 (by omega)
  obtain ⟨d, hd⟩ := getElem?_isSome s.dP p_i (by omega)
  simp [MFluid.dP_term, hxi, hxj, hli, hlj, hd]

theorem MFluid.m_dP_body_isSome {α G : Type} [Machine α] (E : MEnv α G) (s : MFluid α G)
    (hr : s.Ready)
    (i p_i : Nat) (hi : i < s.num_particles.toNat) (hp : p_i < s.num_particles.toNat) :
    ∃ s', MFluid.dP_body E i s p_i = some s' := by
  obtain ⟨nb, hnb⟩ := getElem?_isSome s.neighbours i (by rw [hr.2.2.1]; exact hi)
  obtain ⟨s1, h1, f1⟩ := foldlM_isSome_inv (fun x => MFluid.Frame s x)
    (MFluid.dP_term E p_i) nb (fun x a ha hx => by
      have hN := hx.m_num_particles_eq
      obtain ⟨x', hx'⟩ := MFluid.m_dP_term_isSome E x (hr.m_of_frame hx) p_i a
        (by rw [hN]; exact hp) (by rw [hN]; exact hr.2.2.2.of_getElem? hnb ha)
      exact ⟨x', hx', hx.m_frame_trans (MFluid.m_dP_term_keeps E p_i x a x' hx').1⟩) s
    (MFluid.Frame.m_frame_refl s)
  have hN := f1.m_num_particles_eq
  obtain ⟨⟨-, hdP, -, -, -, -, -⟩, -, -, -⟩ := hr.m_of_frame f1
  obtain ⟨d, hd⟩ := getElem?_isSome s1.dP p_i (by omega)
  simp [MFluid.dP_body, hnb, h1, hd]

theorem MFluid.m_dP_stage_isSome {α G : Type} [Machine α] (E : MEnv α G) (s : MFluid α G)
    (hr : s.Ready)
    (i : Nat) (hi : i < s.num_particles.toNat) :
    ∃ s', MFluid.dP_stage E i s = some s' := by
  unfold MFluid.dP_stage
  have f0 : MFluid.Frame s { s with dP := s.dP.map (fun _ => MVec3.zero) } := by
    simp [MFluid.Frame, MFluid.static, MFluid.shape]
  obtain ⟨s', h, -⟩ := MFluid.m_range_loop_isSome (MFluid.dP_body E i)
    s.num_particles.toNat _ (hr.m_of_frame f0) (fun x hx fx k hk => by
      have hN : x.num_particles = s.num_particles := fx.m_num_particles_eq
      obtain ⟨x', hx'⟩ := MFluid.m_dP_body_isSome E x hx i k
        (by rw [hN]; exact hi) (by rw [hN]; exact hk)
      exact ⟨x', hx', (MFluid.m_dP_body_keeps E i x k x' hx').1⟩)
  exact ⟨s', h⟩

theorem MFluid.m_clamp_lower_isSome {α G : Type} [Machine α] (p_i : Nat) (s : MFluid α G)
    (axis : Nat)
    (hx : p_i < s.x_new.length) (hv : p_i < s.v.length) :
    ∃ s', MFluid.clamp_lower p_i s axis = some s' := by
  obtain ⟨r, hr⟩ := getElem?_isSome s.x_new p_i hx
  obtain ⟨w, hw⟩ := getElem?_isSome s.v p_i hv
  unfold MFluid.clamp_lower
  simp only [hr, hw, Option.bind_eq_bind, Option.some_bind]
  split
  · split <;> exact ⟨_, rfl⟩
  · exact ⟨_, rfl⟩

theorem MFluid.m_clamp_upper_isSome {α G : Type} [Machine α] (p_i : Nat) (s : MFluid α G)
    (axis : Nat)
    (hx : p_i < s.x_new.length) (hv : p_i < s.v.length) :
    ∃ s', MFluid.clamp_upper p_i s axis = some s' := by
  obtain ⟨r, hr⟩ := getElem?_isSome s.x_new p_i hx
  obtain ⟨w, hw⟩ := getElem?_isSome s.v p_i hv
  unfold MFluid.clamp_upper
  simp only [hr, hw, Option.bind_eq_bind, Option.some_bind]
  split
  · split <;> exact ⟨_, rfl⟩
  · exact ⟨_, rfl⟩

theorem MFluid.m_clamp_axis_isSome {α G : Type} [Machine α] (p_i : Nat) (s : MFluid α G)
    (axis : Nat)
    (hx : p_i < s.x_new.length) (hv : p_i < s.v.length) :
    ∃ s', MFluid.clamp_axis p_i s axis = some s' := by
  obtain ⟨s1, h1⟩ := MFluid.m_clamp_lower_isSome p_i s axis hx hv
  have f1 := (MFluid.m_clamp_lower_spec p_i s axis s1 h1).1
  obtain ⟨s2, h2⟩ := MFluid.m_clamp_upper_isSome p_i s1 axis
    (by rw [f1.m_x_new_length]; exact hx) (by rw [f1.m_v_length]; exact hv)
  exact ⟨s2, by simp [MFluid.clamp_axis, h1, h2]⟩

theorem MFluid.m_collision_body_isSome {α G : Type} [Machine α] (s : MFluid α G)
    (hr : s.Ready) (p_i : Nat)
    (hp : p_i < s.num_particles.toNat) :
    ∃ s', MFluid.collision_body s p_i = some s' := by
  obtain ⟨⟨hv, hdP, -, -, -, -, -⟩, hx, -, -⟩ := hr
  obtain ⟨r, hxr⟩ := getElem?_isSome s.x_new p_i (by omega)
  obtain ⟨d, hd⟩ := getElem?_isSome s.dP p_i (by omega)
  obtain ⟨s1, h1⟩ := MFluid.m_clamp_axis_isSome p_i
    { s with x_new := s.x_new.set p_i (r.add (MVec3.smul Machine.c005 d)) } 0
    (by simp; omega) (by simp; omega)
  have f1 := (MFluid.m_clamp_axis_spec p_i _ 0 s1 h1).1
  obtain ⟨s2, h2⟩ := MFluid.m_clamp_axis_isSome p_i s1 1
    (by rw [f1.m_x_new_length]; simp; omega) (by rw [f1.m_v_length]; simp; omega)
  have f2 := (MFluid.m_clamp_axis_spec p_i _ 1 s2 h2).1
  obtain ⟨s3, h3⟩ := MFluid.m_clamp_axis_isSome p_i s2 2
    (by rw [f2.m_x_new_length, f1.m_x_new_length]; simp; omega)
    (by rw [f2.m_v_length, f1.m_v_length]; simp; omega)
  exact ⟨s3, by simp [MFluid.collision_body, hxr, hd, h1, h2, h3]⟩

theorem MFluid.m_collision_stage_isSome {α G : Type} [Machine α] (s : MFluid α G) (hr : s.Ready) :
    ∃ s', MFluid.collision_stage s = some s' := by
  unfold MFluid.collision_stage
  obtain ⟨s', h, -⟩ := MFluid.m_range_loop_isSome MFluid.collision_body
    s.num_particles.toNat s hr (fun x hx fx k hk => by
      have hN : x.num_particles = s.num_particles := fx.m_num_particles_eq
      obtain ⟨x', hx'⟩ := MFluid.m_collision_body_isSome x hx k (by rw [hN]; exact hk)
      exact ⟨x', hx', (MFluid.m_collision_body_spec x k x' hx').1⟩)
  exact ⟨s', h⟩

theorem MFluid.m_jacobi_iteration_isSome {α G : Type} [Machine α] (E : MEnv α G)
    (s : MFluid α G) (hr : s.Ready)
    (i : Nat) (hi : i < s.num_particles.toNat) :
    ∃ s', MFluid.jacobi_iteration E s i = some s' := by
  obtain ⟨s1, h1⟩ := MFluid.m_constraint_stage_isSome E s hr i hi
  have f1 := (MFluid.m_constraint_stage_keeps E i s s1 h1).1
  obtain ⟨s2, h2⟩ := MFluid.m_dP_stage_isSome E s1 (hr.m_of_frame f1) i
    (by rw [f1.m_num_particles_eq]; exact hi)
  have f2 := (MFluid.m_dP_stage_keeps E i s1 s2 h2).1
  obtain ⟨s3, h3⟩ := MFluid.m_collision_stage_isSome s2 ((hr.m_of_frame f1).m_of_frame f2)
  exact ⟨s3, by simp [MFluid.jacobi_iteration, h1, h2, h3]⟩

theorem MFluid.m_jacobi_loop_isSome {α G : Type} [Machine α] (E : MEnv α G) (s : MFluid α G)
    (hr : s.Ready)
    (n : Nat) (hn : n ≤ s.num_particles.toNat) :
    ∃ s', (List.range n).foldlM (MFluid.jacobi_iteration E) s = some s' := by
  obtain ⟨s', h, -⟩ := MFluid.m_range_loop_isSome (MFluid.jacobi_iteration E) n s hr
    (fun x hx fx k hk => by
      have hN : x.num_particles = s.num_particles := fx.m_num_particles_eq
      obtain ⟨x', hx'⟩ := MFluid.m_jacobi_iteration_isSome E x hx k (by rw [hN]; omega)
      exact ⟨x', hx', (MFluid.m_jacobi_iteration_spec E x k x' hx').1⟩)
  exact ⟨s', h⟩


/-! ### Machine numbers: The whole step -/

theorem MFluid.m_apply_forces_eq_some {α G : Type} [Machine α] (E : MEnv α G) (s : MFluid α G)
    (fluid_state : MMat α)
    (s1 : MFluid α G) :
    MFluid.apply_forces E s fluid_state = some s1 ↔
      s.v.length = s.gravity_f.length ∧ fluid_state.length = s.v.length ∧
      s1 = { s with
        v := List.zipWith (fun (r : MVec3 α) g => { r with y := r.y - s.particle_mass * g })
          s.v s.gravity_f
        x_new := List.zipWith (fun a b => MVec3.add a (MVec3.smul s.dt b)) fluid_state
          (List.zipWith (fun (r : MVec3 α) g => { r with y := r.y - s.particle_mass * g })
            s.v s.gravity_f)
        grid := (E.grid_findNeighbours s.grid
          (List.zipWith (fun a b => MVec3.add a (MVec3.smul s.dt b)) fluid_state
            (List.zipWith (fun (r : MVec3 α) g => { r with y := r.y - s.particle_mass * g })
              s.v s.gravity_f)) s.neighbours).1
        neighbours := (E.grid_findNeighbours s.grid
          (List.zipWith (fun a b => MVec3.add a (MVec3.smul s.dt b)) fluid_state
            (List.zipWith (fun (r : MVec3 α) g => { r with y := r.y - s.particle_mass * g })
              s.v s.gravity_f)) s.neighbours).2 } := by
  simp only [MFluid.apply_forces, Option.bind_eq_bind, Option.bind_eq_some, zipSame_eq_some,
    Option.some.injEq]
  constructor
  · rintro ⟨v1, ⟨h1, rfl⟩, x1, ⟨h2, rfl⟩, rfl⟩
    refine ⟨h1, ?_, rfl⟩
    simpa [h1] using h2
  · rintro ⟨h1, h2, rfl⟩
    exact ⟨_, ⟨h1, rfl⟩, _, ⟨by simpa [h1] using h2, rfl⟩, rfl⟩

theorem MFluid.m_step_eq_some {α G : Type} [Machine α] (E : MEnv α G) (s : MFluid α G)
    (fluid_state colors : MMat α)
    (out : MFluid α G × MMat α × MMat α) :
    MFluid.step E s fluid_state colors = some out ↔
      ∃ s1 s2 colors1, MFluid.apply_forces E s fluid_state = some s1 ∧
        (List.range s1.jacobi_iterations.toNat).foldlM (MFluid.jacobi_iteration E) s1 = some s2 ∧
        s2.x_new.length = fluid_state.length ∧
        MFluid.debug_colors s2 colors = some colors1 ∧
        out = ({ s2 with
            v := List.zipWith (fun a b => (MVec3.sub a b).sdiv s2.dt) s2.x_new fluid_state
            grid := E.grid_update s2.grid s2.x_new
            t := s2.t + s2.dt }, s2.x_new, colors1) := by
  simp only [MFluid.step, Option.bind_eq_bind, Option.bind_eq_some, zipSame_eq_some,
    Option.some.injEq]
  constructor
  · rintro ⟨s1, h1, s2, h2, v2, ⟨h3, rfl⟩, colors1, h4, rfl⟩
    exact ⟨s1, s2, colors1, h1, h2, h3, h4, rfl⟩
  · rintro ⟨s1, s2, colors1, h1, h2, h3, h4, rfl⟩
    exact ⟨s1, h1, s2, h2, _, ⟨h3, rfl⟩, colors1, h4, rfl⟩

theorem MFluid.m_debug_colors_isSome {α G : Type} [Machine α] (s : MFluid α G) (colors : MMat α)
    (hN : 1 ≤ s.num_particles) (hc : colors.length = s.num_particles.toNat)
    (hn : s.neighbours.length = s.num_particles.toNat)
    (hidx : IndicesBelow s.num_particles.toNat s.neighbours) :
    ∃ colors1, MFluid.debug_colors s colors = some colors1 := by
  have h0 : 0 < colors.length := by omega
  obtain ⟨c1, hc1, hl1⟩ := foldlM_isSome_inv
    (fun (cs : MMat α) => cs.length = s.num_particles.toNat)
    (fun cs i => setRow cs i ⟨0, 0, 1⟩) (List.range' 1 (s.num_particles.toNat - 1))
    (fun cs i hi hcs => by
      have : i < cs.length := by
        have := List.mem_range'_1.1 hi
        omega
      exact ⟨cs.set i ⟨0, 0, 1⟩, by simp [setRow, this], by simpa using hcs⟩)
    (colors.set 0 ⟨1, 0, 0⟩) (by simpa using hc)
  obtain ⟨nb, hnb⟩ := getElem?_isSome s.neighbours 0 (by omega)
  obtain ⟨c2, hc2, -⟩ := foldlM_isSome_inv
    (fun (cs : MMat α) => cs.length = s.num_particles.toNat)
    (fun cs (n_idx : Int) => if n_idx ≠ 0 then setRowI cs n_idx ⟨0, 1, 0⟩ else some cs) nb
    (fun cs j hj hcs => by
      have hb := hidx.of_getElem? hnb hj
      by_cases h0 : j = 0
      · exact ⟨cs, by simp [h0], hcs⟩
      · have : j.toNat < cs.length := by omega
        exact ⟨cs.set j.toNat ⟨0, 1, 0⟩, by simp [h0, setRowI, setRow, hb.1, this],
          by simpa using hcs⟩)
    c1 hl1
  have e0 : setRow colors 0 ⟨1, 0, 0⟩ = some (colors.set 0 ⟨1, 0, 0⟩) := by simp [setRow, h0]
  refine ⟨c2, ?_⟩
  unfold MFluid.debug_colors
  simp only [e0, hnb, Option.bind_eq_bind, Option.some_bind, hc1, hc2]

theorem MFluid.m_step_isSome {α G : Type} [Machine α] (E : MEnv α G) (s : MFluid α G)
    (fluid_state colors : MMat α)
    (h : MFluid.StepInBounds E s fluid_state colors) :
    ∃ out, MFluid.step E s fluid_state colors = some out := by
  obtain ⟨hN, hs, hfs, hcol, hK, hq⟩ := h
  obtain ⟨hv, hdP, hden, hc, hl, hg, hgf⟩ := hs
  have ha := (MFluid.m_apply_forces_eq_some E s fluid_state _).2 ⟨by omega, by omega, rfl⟩
  obtain ⟨hnl, hidx⟩ := hq _ ha
  generalize hs1 : ({ s with
      v := List.zipWith (fun (r : MVec3 α) g => { r with y := r.y - s.particle_mass * g })
        s.v s.gravity_f
      x_new := List.zipWith (fun a b => MVec3.add a (MVec3.smul s.dt b)) fluid_state
        (List.zipWith (fun (r : MVec3 α) g => { r with y := r.y - s.particle_mass * g })
          s.v s.gravity_f)
      grid := (E.grid_findNeighbours s.grid
        (List.zipWith (fun a b => MVec3.add a (MVec3.smul s.dt b)) fluid_state
          (List.zipWith (fun (r : MVec3 α) g => { r with y := r.y - s.particle_mass * g })
            s.v s.gravity_f)) s.neighbours).1
      neighbours := (E.grid_findNeighbours s.grid
        (List.zipWith (fun a b => MVec3.add a (MVec3.smul s.dt b)) fluid_state
          (List.zipWith (fun (r : MVec3 α) g => { r with y := r.y - s.particle_mass * g })
            s.v s.gravity_f)) s.neighbours).2 } : MFluid α G) = s1 at ha hnl hidx
  have e1 : s1.num_particles = s.num_particles := by subst hs1; rfl
  have e2 : s1.jacobi_iterations = s.jacobi_iterations := by subst hs1; rfl
  have hr1 : s1.Ready := by
    refine ⟨⟨?_, ?_, ?_, ?_, ?_, ?_, ?_⟩, ?_, ?_, ?_⟩ <;> rw [e1]
    · subst hs1; simp; omega
    · subst hs1; exact hdP
    · subst hs1; exact hden
    · subst hs1; exact hc
    · subst hs1; exact hl
    · subst hs1; exact hg
    · subst hs1; exact hgf
    · subst hs1; simp; omega
    · exact hnl
    · exact hidx
  obtain ⟨s2, h2⟩ := MFluid.m_jacobi_loop_isSome E s1 hr1 s1.jacobi_iterations.toNat
    (by rw [e1, e2]; omega)
  have f2 := (MFluid.m_jacobi_loop_spec E s1 _ s2 h2).1
  have hr2 := hr1.m_of_frame f2
  have e3 : s2.num_particles = s.num_particles := by rw [f2.m_num_particles_eq, e1]
  obtain ⟨colors1, h3⟩ := MFluid.m_debug_colors_isSome s2 colors (by rw [e3]; exact hN)
    (by rw [e3]; exact hcol) hr2.2.2.1 hr2.2.2.2
  exact ⟨_, (MFluid.m_step_eq_some E s fluid_state colors _).2
    ⟨s1, s2, colors1, ha, h2, by rw [hr2.2.1, e3]; omega, h3, rfl⟩⟩

theorem MFluid.Frame.m_dt_eq {α G : Type} [Machine α] {s s' : MFluid α G} (h : MFluid.Frame s s') :
    s'.dt = s.dt := by
  have := h.1; simp only [MFluid.static, Prod.mk.injEq] at this; tauto


theorem MFluid.m_step_keeps_config {α G : Type} [Machine α] (E : MEnv α G) (s : MFluid α G)
    (fluid_state colors : MMat α)
    (out : MFluid α G × MMat α × MMat α) (h : MFluid.step E s fluid_state colors = some out) :
    out.1.num_particles = s.num_particles ∧ out.1.particle_mass = s.particle_mass ∧
    out.1.rho = s.rho ∧ out.1.jacobi_iterations = s.jacobi_iterations ∧
    out.1.cfm_epsilon = s.cfm_epsilon ∧ out.1.kernel_h = s.kernel_h ∧
    out.1.tensile_k = s.tensile_k ∧ out.1.tensile_delta_q = s.tensile_delta_q ∧
    out.1.tensile_n = s.tensile_n ∧
    out.1.tensile_stability_denom = s.tensile_stability_denom ∧
    out.1.lower_bound = s.lower_bound ∧ out.1.upper_bound = s.upper_bound ∧
    out.1.dt = s.dt ∧ out.1.gravity_f = s.gravity_f ∧ out.1.t = s.t + s.dt := by
  obtain ⟨s1, s2, colors1, h1, h2, -, -, rfl⟩ := (MFluid.m_step_eq_some E s fluid_state colors out).1 h
  obtain ⟨-, -, hs1⟩ := (MFluid.m_apply_forces_eq_some E s fluid_state s1).1 h1
  have f := (MFluid.m_jacobi_loop_spec E s1 _ s2 h2).1.1
  simp only [MFluid.static, Prod.mk.injEq] at f
  obtain ⟨a1, a2, a3, a4, a5, a6, a7, a8, a9, a10, a11, a12, a13, a14, -, a16, -⟩ := f
  subst hs1
  simp only [a1, a2, a3, a4, a5, a6, a7, a8, a9, a10, a11, a12, a13, a14, a16, and_self]


/-! ### Machine numbers: the step and consecutive steps -/

theorem MFluid.m_debug_colors_length {α G : Type} [Machine α] (s : MFluid α G)
    (colors colors1 : MMat α) (h : MFluid.debug_colors s colors = some colors1) :
    colors1.length = colors.length := by
  simp only [MFluid.debug_colors, Option.bind_eq_bind, Option.bind_eq_some, setRow_eq_some] at h
  obtain ⟨c0, ⟨-, rfl⟩, c1, h1, nb, -, h2⟩ := h
  have l1 : c1.length = colors.length :=
    foldlM_some_inv (fun (cs : MMat α) => cs.length = colors.length)
      (fun cs i => setRow cs i ⟨0, 0, 1⟩) _
      (fun cs i cs' _ hI hf => by
        rw [setRow_eq_some] at hf
        obtain ⟨-, rfl⟩ := hf
        simpa using hI) _ c1 (by simp) h1
  exact foldlM_some_inv (fun (cs : MMat α) => cs.length = colors.length)
    (fun cs (n_idx : Int) => if n_idx ≠ 0 then setRowI cs n_idx ⟨0, 1, 0⟩ else some cs) nb
    (fun cs j cs' _ hI hf => by
      dsimp only at hf hI ⊢
      split at hf
      · rw [setRowI_eq_some] at hf
        obtain ⟨-, -, rfl⟩ := hf
        simpa using hI
      · simp only [Option.some.injEq] at hf
        subst hf
        exact hI) c1 colors1 l1 h2

theorem MFluid.m_step_rows_notOutside {α G : Type} [Machine α] (E : MEnv α G) (s : MFluid α G)
    (fluid_state colors : MMat α)
    (out : MFluid α G × MMat α × MMat α) (h : MFluid.step E s fluid_state colors = some out)
    (hK : 1 ≤ s.jacobi_iterations) (hb : ¬ s.upper_bound < s.lower_bound)
    (hlen : fluid_state.length ≤ s.num_particles.toNat) :
    ∀ r ∈ out.2.1, r.NotOutside s.lower_bound s.upper_bound := by
  obtain ⟨s1, s2, colors1, h1, h2, h3, -, rfl⟩ := (MFluid.m_step_eq_some E s fluid_state colors out).1 h
  obtain ⟨-, -, hs1⟩ := (MFluid.m_apply_forces_eq_some E s fluid_state s1).1 h1
  have e1 : s1.jacobi_iterations = s.jacobi_iterations := by rw [hs1]
  have e2 : s1.lower_bound = s.lower_bound := by rw [hs1]
  have e3 : s1.upper_bound = s.upper_bound := by rw [hs1]
  have e4 : s1.num_particles = s.num_particles := by rw [hs1]
  obtain ⟨f, hbd⟩ := MFluid.m_jacobi_loop_spec E s1 _ s2 h2
  have hB := hbd (by rw [e1]; omega) (by rw [e2, e3]; exact hb)
  intro r hr
  obtain ⟨p, hp⟩ := List.mem_iff_getElem?.1 hr
  have hlt : p < s2.x_new.length := by
    rcases List.getElem?_eq_some.1 hp with ⟨h, -⟩; exact h
  have := hB p r (by rw [e4]; omega) hp
  rwa [f.m_lower_bound_eq, f.m_upper_bound_eq, e2, e3] at this

theorem MFluid.m_step_keeps_sizes {α G : Type} [Machine α] (E : MEnv α G) (s : MFluid α G)
    (fluid_state colors : MMat α)
    (out : MFluid α G × MMat α × MMat α) (h : MFluid.step E s fluid_state colors = some out)
    (hs : s.Sized) :
    out.1.Sized ∧ out.2.1.length = fluid_state.length ∧ out.2.2.length = colors.length ∧
      fluid_state.length = s.num_particles.toNat := by
  obtain ⟨e1, -⟩ := MFluid.m_step_keeps_config E s fluid_state colors out h
  obtain ⟨s1, s2, colors1, h1, h2, h3, h4, rfl⟩ :=
    (MFluid.m_step_eq_some E s fluid_state colors out).1 h
  obtain ⟨hv1, hfs, hs1⟩ := (MFluid.m_apply_forces_eq_some E s fluid_state s1).1 h1
  have f := (MFluid.m_jacobi_loop_spec E s1 _ s2 h2).1
  have hlen := MFluid.m_debug_colors_length s2 colors colors1 h4
  obtain ⟨f1, f2⟩ := f
  simp only [MFluid.static, MFluid.shape, Prod.mk.injEq] at f1 f2
  obtain ⟨-, -, -, -, -, -, -, -, -, -, -, -, -, -, -, hgf, -⟩ := f1
  obtain ⟨a1, a2, a3, a4, a5, a6, a7⟩ := f2
  obtain ⟨hv, hdP, hden, hc, hl, hg, hgr⟩ := hs
  have b3 : s1.dP = s.dP := by rw [hs1]
  have b4 : s1.density = s.density := by rw [hs1]
  have b5 : s1.c = s.c := by rw [hs1]
  have b6 : s1.lambda = s.lambda := by rw [hs1]
  have b7 : s1.c_grad_norm = s.c_grad_norm := by rw [hs1]
  have b8 : s1.gravity_f = s.gravity_f := by rw [hs1]
  have hN : fluid_state.length = s.num_particles.toNat := by omega
  refine ⟨?_, h3, hlen, hN⟩
  unfold MFluid.Sized
  simp only at e1 ⊢
  rw [e1]
  refine ⟨by simp [h3, hN], ?_, ?_, ?_, ?_, ?_, ?_⟩
  · rw [a3, b3]; exact hdP
  · rw [a4, b4]; exact hden
  · rw [a5, b5]; exact hc
  · rw [a6, b6]; exact hl
  · rw [a7, b7]; exact hg
  · rw [hgf, b8]; exact hgr

theorem MFluid.m_steps_isSome {α G : Type} [Machine α] (E : MEnv α G) (n : Nat) :
    ∀ (s : MFluid α G) (fluid_state colors : MMat α), 1 ≤ s.num_particles → s.Sized →
      s.jacobi_iterations ≤ s.num_particles → fluid_state.length = s.num_particles.toNat →
      colors.length = s.num_particles.toNat → E.QueryValid s.num_particles.toNat →
      ∃ out, MFluid.steps E n s fluid_state colors = some out := by
  induction n with
  | zero => intro s fluid_state colors _ _ _ _ _ _; exact ⟨_, rfl⟩
  | succ n ih =>
    intro s fluid_state colors hN hs hK hfs hcol hq
    have hin : MFluid.StepInBounds E s fluid_state colors := by
      refine ⟨hN, hs, hfs, hcol, hK, fun s1 h1 => ?_⟩
      obtain ⟨-, -, hs1⟩ := (MFluid.m_apply_forces_eq_some E s fluid_state s1).1 h1
      rw [hs1]
      exact hq _ _ _ (by
        simp only [List.length_zipWith]
        have := hs.1; have := hs.2.2.2.2.2.2; omega)
    obtain ⟨o1, h1⟩ := MFluid.m_step_isSome E s fluid_state colors hin
    obtain ⟨e1, -, -, e4, -⟩ := MFluid.m_step_keeps_config E s fluid_state colors o1 h1
    obtain ⟨hs', l1, l2, -⟩ := MFluid.m_step_keeps_sizes E s fluid_state colors o1 h1 hs
    obtain ⟨out, ho⟩ := ih o1.1 o1.2.1 o1.2.2 (by rw [e1]; exact hN) hs'
      (by rw [e1, e4]; exact hK) (by rw [e1, l1]; exact hfs) (by rw [e1, l2]; exact hcol)
      (by rw [e1]; exact hq)
    exact ⟨out, by simp [MFluid.steps, h1, ho]⟩

theorem clock_sum_eq_iterate {α : Type} [Machine α] (dt : α) (n : Nat) :
    clock_sum dt n = (fun t => t + dt)^[n] 0 := by
  induction n with
  | zero => rfl
  | succ n ih => rw [Function.iterate_succ_apply', ← ih]; rfl

theorem MFluid.m_steps_clock {α G : Type} [Machine α] (E : MEnv α G) (n : Nat) :
    ∀ (s : MFluid α G) (fluid_state colors : MMat α) (out : MFluid α G × MMat α × MMat α),
      MFluid.steps E n s fluid_state colors = some out →
      out.1.dt = s.dt ∧ out.1.t = (fun t => t + s.dt)^[n] s.t := by
  induction n with
  | zero =>
    intro s fluid_state colors out h
    simp only [MFluid.steps, Option.some.injEq] at h
    subst h
    exact ⟨rfl, rfl⟩
  | succ n ih =>
    intro s fluid_state colors out h
    simp only [MFluid.steps, Option.bind_eq_some] at h
    obtain ⟨o1, h1, h2⟩ := h
    obtain ⟨-, -, -, -, -, -, -, -, -, -, -, -, hdt, -, ht⟩ :=
      MFluid.m_step_keeps_config E s fluid_state colors o1 h1
    obtain ⟨e1, e2⟩ := ih o1.1 o1.2.1 o1.2.2 out h2
    rw [e1, e2, hdt, ht]
    exact ⟨rfl, rfl⟩

theorem clock_sum_exact (dt : ℚ) (n : Nat) : clock_sum dt n = n * dt := by
  induction n with
  | zero => simp [clock_sum]
  | succ n ih =>
    simp only [clock_sum, ih]
    push_cast
    ring

theorem free_fall_exact (dt mg y0 : ℚ) (hdt : dt ≠ 0) (n : Nat) :
    free_fall dt mg y0 n = (y0 - dt * mg * (n * (n + 1) / 2), -(n * mg)) := by
  induction n with
  | zero => simp [free_fall]
  | succ n ih =>
    simp only [free_fall, ih]
    refine Prod.ext ?_ ?_
    · simp only
      push_cast
      ring
    · simp only
      push_cast
      field_simp
      ring

theorem restsAt_exact (dt x : ℚ) : Machine.RestsAt dt x := by
  simp [Machine.RestsAt]
/-! ## C1 and C14: the boundary clamp in machine arithmetic -/

theorem Dbl.lt_iff (a b : Dbl) : a < b ↔ Dbl.blt a b = true := Iff.rfl

theorem Dbl.le_iff (a b : Dbl) : a ≤ b ↔ Dbl.ble a b = true := Iff.rfl

/-- On `double`, with bounds that are not NaN: a number is neither below `lo` nor above `hi`
exactly when it lies in `[lo, hi]` or is a NaN. -/
theorem Dbl.notOutside_iff (lo hi x : Dbl) (hlo : lo ≠ Dbl.nan) (hhi : hi ≠ Dbl.nan) :
    Machine.NotOutside lo hi x ↔ (lo ≤ x ∧ x ≤ hi) ∨ x = Dbl.nan := by
  unfold Machine.NotOutside
  rw [gt_iff_lt, Dbl.lt_iff, Dbl.lt_iff, Dbl.le_iff, Dbl.le_iff]
  cases lo <;> cases hi <;> cases x <;>
    simp_all [Dbl.blt, Dbl.ble, Int.not_lt, Int.min_comm]
  rename_i a b c
  cases a <;> cases b <;> cases c <;> simp

/-- C14 (as amended): with `1 ≤ jacobi_iterations ≤ num_particles` and `upper_bound` not below
`lower_bound`, for all positions, velocities and neighbour lists (buffers of `num_particles`
rows, lists of particle indices), `step` returns, the position buffer has `num_particles` rows
and no coordinate of any row is below `lower_bound` or above `upper_bound` (the coordinate
lies in `[lower_bound, upper_bound]` or is a NaN), wherever the particles started and in
every arithmetic, that of `double` included. -/
theorem step_keeps_particles_in_box_or_nan {α G : Type} [Machine α] (E : MEnv α G)
    (s : MFluid α G) (fluid_state colors : MMat α)
    (hin : MFluid.StepInBounds E s fluid_state colors)
    (hK : 1 ≤ s.jacobi_iterations) (hb : ¬ s.upper_bound < s.lower_bound) :
    ∃ out, MFluid.step E s fluid_state colors = some out ∧
      out.2.1.length = s.num_particles.toNat ∧
      ∀ r ∈ out.2.1, r.NotOutside s.lower_bound s.upper_bound := by
  obtain ⟨out, ho⟩ := MFluid.m_step_isSome E s fluid_state colors hin
  have hlen : fluid_state.length = s.num_particles.toNat := hin.2.2.1
  refine ⟨out, ho, ?_,
    MFluid.m_step_rows_notOutside E s fluid_state colors out ho hK hb (le_of_eq hlen)⟩
  obtain ⟨s1, s2, colors1, -, -, h3, -, rfl⟩ :=
    (MFluid.m_step_eq_some E s fluid_state colors out).1 ho
  exact h3.trans hlen

set_option maxRecDepth 100000 in
/-- C14 (as amended), evaluated on `double`: two particles, one Jacobi iteration,
`cfm_epsilon = 0.01`, both particles starting outside the box `[-10, 10]`; here every
coordinate after the step is a number of the box. -/
theorem step_keeps_particles_in_box_or_nan_witness :
    ∃ (s : MFluid Dbl Unit) (out : MFluid Dbl Unit × MMat Dbl × MMat Dbl),
      dblStart 2 1 (Dbl.ofRatio 1 100) [Dbl.row (-30) 0 0, Dbl.row 0 0 20]
        = some s ∧
      MFluid.step (machineEnv (machine_search_neighbours 1)) s
        [Dbl.row (-30) 0 0, Dbl.row 0 0 20]
        [Dbl.row 0 0 0, Dbl.row 0 0 0] = some out ∧
      out.2.1.length = s.num_particles.toNat ∧
      (∀ r ∈ out.2.1, r.NotOutside s.lower_bound s.upper_bound) ∧
      ∀ r ∈ out.2.1, r.Within s.lower_bound s.upper_bound := by
  have h : ((dblStart 2 1 (Dbl.ofRatio 1 100)
        [Dbl.row (-30) 0 0, Dbl.row 0 0 20]).bind fun s =>
      (MFluid.step (machineEnv (machine_search_neighbours 1)) s
        [Dbl.row (-30) 0 0, Dbl.row 0 0 20]
        [Dbl.row 0 0 0, Dbl.row 0 0 0]).bind fun out =>
      if MFluid.StepInBounds (machineEnv (machine_search_neighbours 1)) s
          [Dbl.row (-30) 0 0, Dbl.row 0 0 20]
          [Dbl.row 0 0 0, Dbl.row 0 0 0] ∧
        1 ≤ s.jacobi_iterations ∧ ¬ s.upper_bound < s.lower_bound ∧
        ∀ r ∈ out.2.1, r.Within s.lower_bound s.upper_bound
      then some () else none) = some () := by
    decide
  simp only [Option.bind_eq_some] at h
  obtain ⟨s, hs, out0, ho0, hc⟩ := h
  split at hc
  · rename_i hc'
    obtain ⟨out, ho, hl, hr⟩ := step_keeps_particles_in_box_or_nan
      (machineEnv (machine_search_neighbours 1)) s
      [Dbl.row (-30) 0 0, Dbl.row 0 0 20]
      [Dbl.row 0 0 0, Dbl.row 0 0 0] hc'.1 hc'.2.1 hc'.2.2.1
    have he : out0 = out := Option.some.inj (ho0.symm.trans ho)
    subst he
    exact ⟨s, out0, hs, ho, hl, hr, hc'.2.2.2⟩
  · cases hc

set_option maxRecDepth 100000 in
/-- C14 as stated fails on `double`: one particle at `(1, 1, 3)` inside the box `[-10, 10]`,
one Jacobi iteration, `cfm_epsilon = 0`, the particle its own neighbour.  Every hypothesis of
the claim holds and every access is in bounds; the density is `1`, so the constraint is `0`,
the summed gradient norm is `0`, and line 117 computes `-0 / (0 + 0)`, a NaN.  Line 129
multiplies it into `dP`, line 139 adds it to the position, both tests of lines 143 and 147
are false on a NaN, and the step commits the row `(NaN, NaN, NaN)`, which lies in no
interval. -/
theorem step_commits_nan_counterexample :
    ∃ (s : MFluid Dbl Unit) (out : MFluid Dbl Unit × MMat Dbl × MMat Dbl),
      dblStart 1 1 0 [Dbl.row 1 1 3] = some s ∧
      MFluid.StepInBounds (machineEnv (machine_search_neighbours 1)) s [Dbl.row 1 1 3]
        [Dbl.row 0 0 0] ∧
      1 ≤ s.jacobi_iterations ∧ s.jacobi_iterations ≤ s.num_particles ∧
      s.lower_bound ≤ s.upper_bound ∧
      MFluid.step (machineEnv (machine_search_neighbours 1)) s [Dbl.row 1 1 3]
        [Dbl.row 0 0 0] = some out ∧
      out.1.density = [1] ∧ out.1.c = [0] ∧ out.1.c_grad_norm = [0] ∧
      out.1.lambda = [Dbl.nan] ∧
      out.2.1 = [⟨Dbl.nan, Dbl.nan, Dbl.nan⟩] ∧
      ¬ ∀ r ∈ out.2.1, r.Within s.lower_bound s.upper_bound := by
  have h : ((dblStart 1 1 0 [Dbl.row 1 1 3]).bind fun s =>
      (MFluid.step (machineEnv (machine_search_neighbours 1)) s [Dbl.row 1 1 3]
        [Dbl.row 0 0 0]).bind fun out =>
        if MFluid.StepInBounds (machineEnv (machine_search_neighbours 1)) s [Dbl.row 1 1 3]
            [Dbl.row 0 0 0] ∧
          1 ≤ s.jacobi_iterations ∧ s.jacobi_iterations ≤ s.num_particles ∧
          s.lower_bound ≤ s.upper_bound ∧
          out.1.density = [1] ∧ out.1.c = [0] ∧ out.1.c_grad_norm = [0] ∧
          out.1.lambda = [Dbl.nan] ∧
          out.2.1 = [⟨Dbl.nan, Dbl.nan, Dbl.nan⟩] ∧
          ¬ ∀ r ∈ out.2.1, r.Within s.lower_bound s.upper_bound
        then some () else none) = some () := by
    decide
  simp only [Option.bind_eq_some] at h
  obtain ⟨s, hs, out, ho, hc⟩ := h
  split at hc
  · rename_i hc'
    exact ⟨s, out, hs, hc'.1, hc'.2.1, hc'.2.2.1, hc'.2.2.2.1, ho, hc'.2.2.2.2⟩
  · cases hc

/-! ## C11: the simulation clock in machine arithmetic -/

/-- C11 (as amended): the clock is `0` after construction; every call of `step` that returns
leaves the clock at the machine sum of its old value and `dt`, whatever the state and the
buffers are; hence after `n` consecutive calls of `step` on the constructed and initialised
state the clock is the sum `((0 + dt) + dt) + ... + dt` of `n` machine additions.  The `n`
calls return when there is at least one particle, at most `num_particles` Jacobi iterations,
buffers of `num_particles` rows and a neighbour query that returns lists of particle
indices. -/
theorem clock_sums_dt {α G : Type} [Machine α] (E : MEnv α G) (junk : α)
    (num_particles : Int) (particle_mass rho gravity_f user_f : α) (jacobi_iterations : Int)
    (cfm_epsilon kernel_h tensile_k tensile_delta_q : α) (tensile_n : Int)
    (viscocity_c vorticity_epsilon lower_bound upper_bound dt : α) (s : MFluid α G)
    (h : MFluid.construct E junk num_particles particle_mass rho gravity_f user_f
      jacobi_iterations cfm_epsilon kernel_h tensile_k tensile_delta_q tensile_n viscocity_c
      vorticity_epsilon lower_bound upper_bound dt = some s) :
    s.t = 0 ∧ s.dt = dt ∧
    (∀ (x : MFluid α G) (fluid_state colors : MMat α) (out : MFluid α G × MMat α × MMat α),
      MFluid.step E x fluid_state colors = some out →
      out.1.t = x.t + x.dt ∧ out.1.dt = x.dt) ∧
    (∀ (n : Nat) (positions fluid_state colors : MMat α)
      (out : MFluid α G × MMat α × MMat α),
      MFluid.steps E n (MFluid.init_state E s positions).1 fluid_state colors = some out →
      out.1.t = clock_sum dt n) ∧
    ∀ (n : Nat) (positions colors : MMat α), 1 ≤ num_particles →
      jacobi_iterations ≤ num_particles → positions.length = num_particles.toNat →
      colors.length = num_particles.toNat → E.QueryValid num_particles.toNat →
      ∃ out, MFluid.steps E n (MFluid.init_state E s positions).1 positions colors
        = some out := by
  unfold MFluid.construct at h
  split at h
  · cases h
  · simp only [Option.some.injEq] at h
    subst h
    refine ⟨rfl, rfl, fun x fluid_state colors out ho => ?_,
      fun n positions fluid_state colors out ho => ?_,
      fun n positions colors hN hK hp hcol hq => ?_⟩
    · obtain ⟨-, -, -, -, -, -, -, -, -, -, -, -, hdt, -, ht⟩ :=
        MFluid.m_step_keeps_config E x fluid_state colors out ho
      exact ⟨ht, hdt⟩
    · obtain ⟨-, e2⟩ := MFluid.m_steps_clock E n _ fluid_state colors out ho
      rw [e2, clock_sum_eq_iterate]
      rfl
    · exact MFluid.m_steps_isSome E n _ positions colors hN
        (by simp [MFluid.init_state, MFluid.Sized]) hK hp hcol hq

set_option maxRecDepth 100000 in
/-- C11 (as amended), evaluated on `double`: one particle, one Jacobi iteration, time step
`0.1`; two consecutive steps return and leave the clock at `(0 + 0.1) + 0.1`, the `double`
`0.2`. -/
theorem clock_sums_dt_witness :
    ∃ (s : MFluid Dbl Unit) (out : MFluid Dbl Unit × MMat Dbl × MMat Dbl),
      MFluid.construct (machineEnv (machine_search_neighbours 1)) 0 1 1 1 (Dbl.ofRatio 98 10)
        0 1 (Dbl.ofRatio 1 100) 1 (Dbl.ofRatio 1 10) (Dbl.ofRatio 1 5) 4 0 0
        (Dbl.ofRatio (-10) 1) (Dbl.ofRatio 10 1) (Dbl.ofRatio 1 10) = some s ∧
      MFluid.steps (machineEnv (machine_search_neighbours 1)) 2
        (MFluid.init_state (machineEnv (machine_search_neighbours 1)) s
          [Dbl.row 1 2 3]).1
        [Dbl.row 1 2 3] [Dbl.row 0 0 0] = some out ∧
      out.1.t = clock_sum (Dbl.ofRatio 1 10) 2 ∧
      out.1.t = Dbl.ofRatio 2 10 ∧ s.t = 0 ∧
      s.dt = Dbl.ofRatio 1 10 := by
  have h : ((MFluid.construct (machineEnv (machine_search_neighbours 1)) 0 1 1 1
        (Dbl.ofRatio 98 10) 0 1 (Dbl.ofRatio 1 100) 1 (Dbl.ofRatio 1 10) (Dbl.ofRatio 1 5) 4
        0 0 (Dbl.ofRatio (-10) 1) (Dbl.ofRatio 10 1) (Dbl.ofRatio 1 10)).bind fun s =>
      (MFluid.steps (machineEnv (machine_search_neighbours 1)) 2
        (MFluid.init_state (machineEnv (machine_search_neighbours 1)) s
          [Dbl.row 1 2 3]).1
        [Dbl.row 1 2 3] [Dbl.row 0 0 0]).bind fun out =>
        if out.1.t = Dbl.ofRatio 2 10 then some () else none)
      = some () := by
    decide
  simp only [Option.bind_eq_some] at h
  obtain ⟨s, hs, out, ho, hc⟩ := h
  split at hc
  · rename_i hc'
    have key := clock_sums_dt (machineEnv (machine_search_neighbours 1)) 0 1 1 1
      (Dbl.ofRatio 98 10) 0 1 (Dbl.ofRatio 1 100) 1 (Dbl.ofRatio 1 10) (Dbl.ofRatio 1 5) 4
      0 0 (Dbl.ofRatio (-10) 1) (Dbl.ofRatio 10 1) (Dbl.ofRatio 1 10) s hs
    exact ⟨s, out, hs, ho, key.2.2.2.1 2 _ _ _ out ho, hc', key.1, key.2.1⟩
  · cases hc

set_option maxRecDepth 100000 in
/-- C11 as stated fails on `double`: one particle, no Jacobi iteration, time step `0.1`
(the `double` `3602879701896397 * 2^-55`).  After six consecutive steps the clock is the
`double` `0.6 = 5404319552844595 * 2^-53`, while `6 * dt` computed on the machine is
`0.6000000000000001 = 5404319552844596 * 2^-53`, and the product of `6` and the value of `dt`
is `21617278211378382 * 2^-55`, not the value `21617278211378380 * 2^-55` of the clock. -/
theorem clock_product_counterexample :
    ∃ (s : MFluid Dbl Unit) (out : MFluid Dbl Unit × MMat Dbl × MMat Dbl),
      MFluid.construct (machineEnv (machine_search_neighbours 1)) 0 1 1 1 (Dbl.ofRatio 98 10)
        0 0 (Dbl.ofRatio 1 100) 1 (Dbl.ofRatio 1 10) (Dbl.ofRatio 1 5) 4 0 0
        (Dbl.ofRatio (-10) 1) (Dbl.ofRatio 10 1) (Dbl.ofRatio 1 10) = some s ∧
      MFluid.steps (machineEnv (machine_search_neighbours 1)) 6
        (MFluid.init_state (machineEnv (machine_search_neighbours 1)) s [Dbl.row 1 2 3]).1
        [Dbl.row 1 2 3] [Dbl.row 0 0 0] = some out ∧
      s.dt = Dbl.fin false (2 * 3602879701896397) (-56) ∧
      out.1.t = Dbl.fin false 5404319552844595 (-53) ∧
      Dbl.ofNat 6 * s.dt = Dbl.fin false 5404319552844596 (-53) ∧
      6 * 3602879701896397 ≠ 4 * 5404319552844595 ∧
      out.1.t ≠ Dbl.ofNat 6 * s.dt := by
  have h : ((MFluid.construct (machineEnv (machine_search_neighbours 1)) 0 1 1 1
        (Dbl.ofRatio 98 10) 0 0 (Dbl.ofRatio 1 100) 1 (Dbl.ofRatio 1 10) (Dbl.ofRatio 1 5) 4
        0 0 (Dbl.ofRatio (-10) 1) (Dbl.ofRatio 10 1) (Dbl.ofRatio 1 10)).bind fun s =>
      (MFluid.steps (machineEnv (machine_search_neighbours 1)) 6
        (MFluid.init_state (machineEnv (machine_search_neighbours 1)) s [Dbl.row 1 2 3]).1
        [Dbl.row 1 2 3] [Dbl.row 0 0 0]).bind fun out =>
        if s.dt = Dbl.fin false (2 * 3602879701896397) (-56) ∧
          out.1.t = Dbl.fin false 5404319552844595 (-53) ∧
          Dbl.ofNat 6 * s.dt = Dbl.fin false 5404319552844596 (-53) ∧
          6 * 3602879701896397 ≠ 4 * 5404319552844595 ∧
          out.1.t ≠ Dbl.ofNat 6 * s.dt
        then some () else none) = some () := by
    decide
  simp only [Option.bind_eq_some] at h
  obtain ⟨s, hs, out, ho, hc⟩ := h
  split at hc
  · rename_i hc'
    exact ⟨s, out, hs, ho, hc'⟩
  · cases hc

/-! ## C18: free fall without Jacobi iterations in machine arithmetic -/

end PBF
